import Mathlib

/-!
# Site-Monitoring-app: request handlers (`lib/handlers.js`)

A shallow embedding of the request handlers of the site-monitoring API
(`handlers._users`, `handlers._tokens`, `handlers._checks`) together with the
properties of its authorization and referential-integrity subsystem.

Modelling conventions

* A JavaScript string is a Lean `String`; `.length` counts UTF-16 code units
  (`jsLength`) and `.trim()` strips the ECMAScript white space and line
  terminator characters from both ends (`jsTrim`).
* Payload fields are dynamically typed values (`JSVal`); a JavaScript number is
  a rational (`num`) or one of `NaN`, `+Infinity`, `-Infinity` (`nonFinite`).
* The nested callbacks are sequenced in program order; the deletions of
  `userChecks.forEach` in `handlers._users.delete` complete in list order.  A
  handler returns the list of invocations of its `callback`, in order, and the
  store it leaves.
* One handler execution reads one time `Date.now()`.
* A store read yields a copy of the record (the store keeps JSON documents), so
  that assignments to `userData`, `tokenData` and `checkData` reach the store
  through `_data.update` only.
* `lib/data.js`, `lib/helpers.js` and `lib/config.js` are not part of the
  sources at hand.  The record store is modelled from section 6 of the
  specification; the hash function, the random string generator, the clock,
  `config.maxChecks` and the input/output faults of the store are fields of
  the environment `Env`.
-/

namespace SiteMonitor

/-! ## JavaScript values -/

/-- The dynamically typed values a parsed request payload may hold. -/
inductive JSVal where
  | undefined
  | null
  | bool (b : Bool)
  | num (q : ℚ)
  | nonFinite
  | str (s : String)
  | arr (xs : List JSVal)
  | obj (fields : List (String × JSVal))

/-- Code points removed by `String.prototype.trim`: ECMAScript white space and
line terminators. -/
def isJsWhiteSpace (c : Char) : Bool :=
  decide (c.toNat ∈ [0x09, 0x0A, 0x0B, 0x0C, 0x0D, 0x20, 0xA0, 0x1680,
    0x2000, 0x2001, 0x2002, 0x2003, 0x2004, 0x2005, 0x2006, 0x2007, 0x2008,
    0x2009, 0x200A, 0x2028, 0x2029, 0x202F, 0x205F, 0x3000, 0xFEFF])

/-- The method `String.prototype.trim`. -/
def jsTrim (s : String) : String :=
  ⟨((s.data.dropWhile isJsWhiteSpace).reverse.dropWhile isJsWhiteSpace).reverse⟩

/-- The property `String.prototype.length`: the number of UTF-16 code units. -/
def jsLength (s : String) : Nat :=
  (s.data.map (fun c => if c.toNat < 0x10000 then 1 else 2)).sum

/-! ## Records -/

/-- A user record.  `checks` is `none` when the record has no `checks` array
(`userData.checks instanceof Array` is false). -/
structure User where
  firstname : String
  lastname : String
  phone : String
  hashedPassword : String
  tosAgreement : Bool
  checks : Option (List String)
deriving DecidableEq

/-- A token record `{ id, expires, phone }`. -/
structure Token where
  id : String
  expires : Int
  phone : String
deriving DecidableEq

/-- A check record
`{ id, userPhone, protocol, url, method, successCodes, timeoutSeconds }`. -/
structure Check where
  id : String
  userPhone : String
  protocol : String
  url : String
  method : String
  successCodes : List JSVal
  timeoutSeconds : ℚ

/-! ## The record store -/

/-- Modelled from the spec: one collection of the record store `lib/data.js`
(section 6, ResourceStore), records keyed by a string id. -/
abbrev Coll (α : Type) := String → Option α

/-- The three collections `users`, `tokens` and `checks`. -/
structure Store where
  users : Coll User
  tokens : Coll Token
  checks : Coll Check

/-- Modelled from the spec: `_data.read(dir, key, cb)` of `lib/data.js`:
`read(key) → record | fails(NotFound, IOFailure)`.  `none` is the error
result; `io` says that this call meets an input/output failure. -/
def dataRead {α : Type} (io : Bool) (c : Coll α) (key : String) : Option α :=
  if io then none else c key

/-- Modelled from the spec: `_data.create(dir, key, record, cb)` of
`lib/data.js`: `create(key, record) → fails(AlreadyExists, IOFailure)`,
atomic on the single record.  `none` is the error result. -/
def dataCreate {α : Type} (io : Bool) (c : Coll α) (key : String) (r : α) :
    Option (Coll α) :=
  if io then none else
    match c key with
    | some _ => none
    | none => some (Function.update c key (some r))

/-- Modelled from the spec: `_data.update(dir, key, record, cb)` of
`lib/data.js`: `update(key, record) → fails(NotFound, IOFailure)`. -/
def dataUpdate {α : Type} (io : Bool) (c : Coll α) (key : String) (r : α) :
    Option (Coll α) :=
  if io then none else
    match c key with
    | none => none
    | some _ => some (Function.update c key (some r))

/-- Modelled from the spec: `_data.delete(dir, key, cb)` of `lib/data.js`:
`delete(key) → fails(NotFound, IOFailure)`. -/
def dataDelete {α : Type} (io : Bool) (c : Coll α) (key : String) :
    Option (Coll α) :=
  if io then none else
    match c key with
    | none => none
    | some _ => some (Function.update c key none)

/-! ## Environment, requests and responses -/

/-- What a handler execution takes from outside `handlers.js`:
`Date.now()`, `helpers.hash` (`none` is the result `false`),
`helpers.createRandomString`, `config.maxChecks`, and for the storage calls of
the execution, numbered in program order from 0, whether the call meets an
input/output failure. -/
structure Env where
  now : Int
  hash : String → Option String
  createRandomString : Nat → String
  maxChecks : Nat
  ioFail : Nat → Bool

/-- A store whose operations fail only for key-exists and key-absent
reasons. -/
def Env.reliable (env : Env) : Prop := ∀ i, env.ioFail i = false

/-- The `data` object handed to a handler. -/
structure Request where
  method : String
  payload : String → JSVal
  queryStringObject : String → Option String
  headers : String → JSVal

/-- The user object returned by `handlers._users.get`: the stored record after
`delete data.hashedPassword`. -/
structure UserView where
  firstname : String
  lastname : String
  phone : String
  tosAgreement : Bool
  checks : Option (List String)
deriving DecidableEq

/-- The second argument of `callback`. -/
inductive Body where
  | none
  | error (msg : String)
  | user (u : UserView)
  | token (t : Token)
  | check (c : Check)

/-- One invocation `callback(status, body)`. -/
structure Response where
  status : Nat
  body : Body

/-- What a handler execution leaves: the invocations of `callback` in order,
and the store. -/
structure Result where
  calls : List Response
  store : Store

/-- Whether a response body carries a stored resource. -/
def Body.hasResource : Body → Bool
  | .user _ => true
  | .token _ => true
  | .check _ => true
  | _ => false

/-! ## Reading the request -/

/-- The expression `typeof v === 'string' ? v.trim() : ''`. -/
def trimmedString (v : JSVal) : String :=
  match v with
  | .str x => jsTrim x
  | _ => ""

/-- The expression
`typeof v === 'string' && v.trim().length === n ? v.trim() : ''`. -/
def trimmedOfLength (n : Nat) (v : JSVal) : String :=
  match v with
  | .str x => if jsLength (jsTrim x) = n then jsTrim x else ""
  | _ => ""

/-- The same expression on `data.queryStringObject.get(name)`, which is a
string or `null`. -/
def queryOfLength (n : Nat) (v : Option String) : String :=
  match v with
  | some x => if jsLength (jsTrim x) = n then jsTrim x else ""
  | none => ""

/-- The expression `typeof v === 'boolean' ? v : false`. -/
def booleanOrFalse (v : JSVal) : Bool :=
  match v with
  | .bool b => b
  | _ => false

/-- The expression
`typeof data.headers.token === 'string' ? data.headers.token : ''`. -/
def headerToken (data : Request) : String :=
  match data.headers "token" with
  | .str x => x
  | _ => ""

/-- The expression
`typeof v === 'string' && ['https', 'http'].indexOf(v) > -1 ? v : ''`. -/
def protocolOf (v : JSVal) : String :=
  match v with
  | .str x => if x ∈ ["https", "http"] then x else ""
  | _ => ""

/-- The expression
`typeof v === 'string' && ['post', 'get', 'put', 'delete'].indexOf(v) > -1 ? v : ''`. -/
def methodOf (v : JSVal) : String :=
  match v with
  | .str x => if x ∈ ["post", "get", "put", "delete"] then x else ""
  | _ => ""

/-- The expression `v instanceof Array && v.length > 0 ? v : []`. -/
def successCodesOf (v : JSVal) : List JSVal :=
  match v with
  | .arr xs => if xs.length > 0 then xs else []
  | _ => []

/-- The expression
`typeof v === 'number' && v % 1 === 0 && v >= 1 && v <= 5 ? v : 0`. -/
def timeoutSecondsOf (v : JSVal) : ℚ :=
  match v with
  | .num q => if q.isInt = true ∧ 1 ≤ q ∧ q ≤ 5 then q else 0
  | _ => 0

/-- The expression `a || b` on strings: `a` when it is not empty. -/
def orElse (a b : String) : String := if a ≠ "" then a else b

/-- The expression `userData.checks instanceof Array ? userData.checks : []`. -/
def userChecksOf (userData : User) : List String :=
  match userData.checks with
  | some xs => xs
  | none => []

/-! ## Tokens -/

namespace handlers

/-- The function `handlers._tokens.verifyToken(id, phone, callback)`; the
result is the argument given to `callback`. -/
def _tokens.verifyToken (env : Env) (io : Bool) (s : Store) (id phone : String) : Bool :=
  if id = "" ∨ phone = "" then false
  else
    match dataRead io s.tokens id with
    | none => false
    | some tokenData => decide (tokenData.phone = phone) && decide (tokenData.expires > env.now)

/-- The handler `handlers._tokens.post`. -/
def _tokens.post (env : Env) (data : Request) (s : Store) : Result :=
  let phone := trimmedOfLength 10 (data.payload "phone")
  let password := trimmedString (data.payload "password")
  if phone ≠ "" ∧ password ≠ "" then
    match dataRead (env.ioFail 0) s.users phone with
    | none => ⟨[⟨400, .error "Could not find the specified user"⟩], s⟩
    | some userData =>
      if env.hash password = some userData.hashedPassword then
        let tokenId := env.createRandomString 20
        let expires := env.now + 1000 * 60 * 60
        let tokenObject : Token := ⟨tokenId, expires, phone⟩
        match dataCreate (env.ioFail 1) s.tokens tokenId tokenObject with
        | none => ⟨[⟨500, .error "Could not create the new token"⟩], s⟩
        | some tokens => ⟨[⟨200, .token tokenObject⟩], { s with tokens := tokens }⟩
      else
        ⟨[⟨401, .error "Password did not match the specified user's stored password"⟩], s⟩
  else ⟨[⟨400, .error "Missing required field(s)"⟩], s⟩

/-- The handler `handlers._tokens.get`. -/
def _tokens.get (env : Env) (data : Request) (s : Store) : Result :=
  let id := queryOfLength 20 (data.queryStringObject "id")
  if id ≠ "" then
    match dataRead (env.ioFail 0) s.tokens id with
    | none => ⟨[⟨404, .none⟩], s⟩
    | some tokenData => ⟨[⟨200, .token tokenData⟩], s⟩
  else ⟨[⟨400, .error "Missing required field"⟩], s⟩

/-- The handler `handlers._tokens.put`. -/
def _tokens.put (env : Env) (data : Request) (s : Store) : Result :=
  let id := trimmedOfLength 20 (data.payload "id")
  let extend := booleanOrFalse (data.payload "extend")
  if id ≠ "" ∧ extend = true then
    match dataRead (env.ioFail 0) s.tokens id with
    | none => ⟨[⟨400, .error "The specified token does not exist"⟩], s⟩
    | some tokenData =>
      if tokenData.expires > env.now then
        let tokenData1 : Token := { tokenData with expires := env.now + 1000 * 60 * 60 }
        match dataUpdate (env.ioFail 1) s.tokens id tokenData1 with
        | none => ⟨[⟨500, .error "Could not update the token's expiration"⟩], s⟩
        | some tokens => ⟨[⟨200, .none⟩], { s with tokens := tokens }⟩
      else ⟨[⟨400, .error "The token has expired, and cannot be extended"⟩], s⟩
  else ⟨[⟨400, .error "Missing required field(s) or field(s) are invalid"⟩], s⟩

/-- The handler `handlers._tokens.delete`. -/
def _tokens.delete (env : Env) (data : Request) (s : Store) : Result :=
  let id := queryOfLength 20 (data.queryStringObject "id")
  if id ≠ "" then
    match dataRead (env.ioFail 0) s.tokens id with
    | none => ⟨[⟨400, .error "Could not find the specified token"⟩], s⟩
    | some _ =>
      match dataDelete (env.ioFail 1) s.tokens id with
      | none => ⟨[⟨500, .error "Could not delete the specified token"⟩], s⟩
      | some tokens => ⟨[⟨200, .none⟩], { s with tokens := tokens }⟩
  else ⟨[⟨400, .error "Missing required field"⟩], s⟩

/-! ## Users -/

/-- The response `callback(403, ...)` of a failed token verification. -/
def invalidToken : Response :=
  ⟨403, .error "Missing required token in header, or token is invalid"⟩

/-- The handler `handlers._users.post`. -/
def _users.post (env : Env) (data : Request) (s : Store) : Result :=
  let firstname := trimmedString (data.payload "firstname")
  let lastname := trimmedString (data.payload "lastname")
  let phone := trimmedOfLength 10 (data.payload "phone")
  let password := trimmedString (data.payload "password")
  let tosAgreement := booleanOrFalse (data.payload "tosAgreement")
  if firstname ≠ "" ∧ lastname ≠ "" ∧ phone ≠ "" ∧ password ≠ "" ∧ tosAgreement = true then
    match dataRead (env.ioFail 0) s.users phone with
    | none =>
      match env.hash password with
      | some hashedPassword =>
        if hashedPassword ≠ "" then
          let userObject : User := ⟨firstname, lastname, phone, hashedPassword, true, none⟩
          match dataCreate (env.ioFail 1) s.users phone userObject with
          | none => ⟨[⟨500, .error "Could not create the new user"⟩], s⟩
          | some users => ⟨[⟨200, .none⟩], { s with users := users }⟩
        else ⟨[⟨500, .error "Could not hash the user's password"⟩], s⟩
      | none => ⟨[⟨500, .error "Could not hash the user's password"⟩], s⟩
    | some _ => ⟨[⟨400, .error "A user with that phone number already exists"⟩], s⟩
  else ⟨[⟨400, .error "Missing required fields"⟩], s⟩

/-- The handler `handlers._users.get`. -/
def _users.get (env : Env) (data : Request) (s : Store) : Result :=
  let phone := queryOfLength 10 (data.queryStringObject "phone")
  if phone ≠ "" then
    let token := headerToken data
    if _tokens.verifyToken env (env.ioFail 0) s token phone = true then
      match dataRead (env.ioFail 1) s.users phone with
      | none => ⟨[⟨404, .none⟩], s⟩
      | some u =>
        ⟨[⟨200, .user ⟨u.firstname, u.lastname, u.phone, u.tosAgreement, u.checks⟩⟩], s⟩
    else ⟨[invalidToken], s⟩
  else ⟨[⟨400, .error "Missing required field"⟩], s⟩

/-- The value `helpers.hash(password) || userData.hashedPassword`. -/
def hashOrElse (env : Env) (password old : String) : String :=
  match env.hash password with
  | some h => orElse h old
  | none => old

/-- The handler `handlers._users.put`.  The comment `// Error if phone is valid`
above the test `if (phone)` is at odds with the code, which answers
`Missing required field` when the phone is not valid; the embedding follows
the code. -/
def _users.put (env : Env) (data : Request) (s : Store) : Result :=
  let phone := trimmedOfLength 10 (data.payload "phone")
  let firstname := trimmedString (data.payload "firstname")
  let lastname := trimmedString (data.payload "lastname")
  let password := trimmedString (data.payload "password")
  if phone ≠ "" then
    let token := headerToken data
    if _tokens.verifyToken env (env.ioFail 0) s token phone = true then
      if firstname ≠ "" ∨ lastname ≠ "" ∨ password ≠ "" then
        match dataRead (env.ioFail 1) s.users phone with
        | none => ⟨[⟨400, .error "The specified user does not exist"⟩], s⟩
        | some userData =>
          let userData1 : User :=
            { userData with
              firstname := orElse firstname userData.firstname
              lastname := orElse lastname userData.lastname
              hashedPassword := hashOrElse env password userData.hashedPassword }
          match dataUpdate (env.ioFail 2) s.users phone userData1 with
          | none => ⟨[⟨500, .error "Could not update the user"⟩], s⟩
          | some users => ⟨[⟨200, .none⟩], { s with users := users }⟩
      else ⟨[⟨400, .error "Missing fields to update"⟩], s⟩
    else ⟨[invalidToken], s⟩
  else ⟨[⟨400, .error "Missing required field"⟩], s⟩

/-- The variables the callbacks of the deletion loop of `handlers._users.delete`
share, with the store and the invocations of `callback` so far. -/
structure CascadeState where
  store : Store
  checksDeleted : Nat
  deletionErrors : Bool
  calls : List Response

/-- The response of `handlers._users.delete` when a check deletion failed. -/
def cascadeFailure : Response :=
  ⟨500, .error ("One or more errors encountered while attempting to delete user's checks. "
    ++ "All of user's checks may not have been deleted from the system successfully")⟩

/-- One round of `userChecks.forEach`: `_data.delete('checks', checkId, ...)`
and its callback.  The deletion is storage call `3 + checksDeleted`. -/
def cascadeStep (env : Env) (checksToDelete : Nat) (st : CascadeState)
    (checkId : String) : CascadeState :=
  let r := dataDelete (env.ioFail (3 + st.checksDeleted)) st.store.checks checkId
  let store1 : Store :=
    match r with
    | some checks => { st.store with checks := checks }
    | none => st.store
  let deletionErrors := if r.isNone then true else st.deletionErrors
  let checksDeleted := st.checksDeleted + 1
  let calls :=
    if checksDeleted = checksToDelete then
      st.calls ++ [if deletionErrors then cascadeFailure else ⟨200, .none⟩]
    else st.calls
  ⟨store1, checksDeleted, deletionErrors, calls⟩

/-- The handler `handlers._users.delete`. -/
def _users.delete (env : Env) (data : Request) (s : Store) : Result :=
  let phone := queryOfLength 10 (data.queryStringObject "phone")
  if phone ≠ "" then
    let token := headerToken data
    if _tokens.verifyToken env (env.ioFail 0) s token phone = true then
      match dataRead (env.ioFail 1) s.users phone with
      | none => ⟨[⟨400, .error "Could not find the specified user"⟩], s⟩
      | some userData =>
        match dataDelete (env.ioFail 2) s.users phone with
        | none => ⟨[⟨500, .error "Could not delete the specified user"⟩], s⟩
        | some users =>
          let userChecks := userChecksOf userData
          let checksToDelete := userChecks.length
          if checksToDelete > 0 then
            let final := userChecks.foldl (cascadeStep env checksToDelete)
              ⟨{ s with users := users }, 0, false, []⟩
            ⟨final.calls, final.store⟩
          else ⟨[⟨200, .none⟩], { s with users := users }⟩
    else ⟨[invalidToken], s⟩
  else ⟨[⟨400, .error "Missing required field"⟩], s⟩

/-! ## Checks -/

/-- The handler `handlers._checks.post`. -/
def _checks.post (env : Env) (data : Request) (s : Store) : Result :=
  let protocol := protocolOf (data.payload "protocol")
  let url := trimmedString (data.payload "url")
  let method := methodOf (data.payload "method")
  let successCodes := successCodesOf (data.payload "successCodes")
  let timeoutSeconds := timeoutSecondsOf (data.payload "timeoutSeconds")
  if protocol ≠ "" ∧ url ≠ "" ∧ method ≠ "" ∧ successCodes.length > 0 ∧ timeoutSeconds ≠ 0 then
    let token := headerToken data
    match dataRead (env.ioFail 0) s.tokens token with
    | none => ⟨[⟨403, .error "Missing or invalid token"⟩], s⟩
    | some tokenData =>
      if tokenData.expires > env.now then
        let userPhone := tokenData.phone
        match dataRead (env.ioFail 1) s.users userPhone with
        | none => ⟨[⟨403, .error "There is no user associated with the provided token"⟩], s⟩
        | some userData =>
          let userChecks := userChecksOf userData
          if userChecks.length < env.maxChecks then
            let checkId := env.createRandomString 20
            let checkObject : Check :=
              ⟨checkId, userPhone, protocol, url, method, successCodes, timeoutSeconds⟩
            match dataCreate (env.ioFail 2) s.checks checkId checkObject with
            | none => ⟨[⟨500, .error "Could not create the new check"⟩], s⟩
            | some checks =>
              let userData1 : User := { userData with checks := some (userChecks ++ [checkId]) }
              match dataUpdate (env.ioFail 3) s.users userPhone userData1 with
              | none =>
                ⟨[⟨500, .error "Could not update the user with the new check"⟩],
                  { s with checks := checks }⟩
              | some users =>
                ⟨[⟨200, .check checkObject⟩], { s with checks := checks, users := users }⟩
          else
            ⟨[⟨400, .error ("The user already has the maximum number ("
              ++ toString env.maxChecks ++ ") of checks")⟩], s⟩
      else ⟨[⟨403, .error "Token has expired"⟩], s⟩
  else ⟨[⟨400, .error "Missing required fields, or fields are invalid"⟩], s⟩

/-- The handler `handlers._checks.get`. -/
def _checks.get (env : Env) (data : Request) (s : Store) : Result :=
  let id := queryOfLength 20 (data.queryStringObject "id")
  if id ≠ "" then
    match dataRead (env.ioFail 0) s.checks id with
    | none => ⟨[⟨404, .none⟩], s⟩
    | some checkData =>
      let userPhone := checkData.userPhone
      let token := headerToken data
      if _tokens.verifyToken env (env.ioFail 1) s token userPhone = true then
        ⟨[⟨200, .check checkData⟩], s⟩
      else ⟨[invalidToken], s⟩
  else ⟨[⟨400, .error "Missing required field"⟩], s⟩

/-- The handler `handlers._checks.put`. -/
def _checks.put (env : Env) (data : Request) (s : Store) : Result :=
  let id := trimmedOfLength 20 (data.payload "id")
  let protocol := protocolOf (data.payload "protocol")
  let url := trimmedString (data.payload "url")
  let method := methodOf (data.payload "method")
  let successCodes := successCodesOf (data.payload "successCodes")
  let timeoutSeconds := timeoutSecondsOf (data.payload "timeoutSeconds")
  if id ≠ "" then
    if protocol ≠ "" ∨ url ≠ "" ∨ method ≠ "" ∨ successCodes.length > 0 ∨ timeoutSeconds ≠ 0 then
      match dataRead (env.ioFail 0) s.checks id with
      | none => ⟨[⟨400, .error "Check does not exist"⟩], s⟩
      | some checkData =>
        let userPhone := checkData.userPhone
        let token := headerToken data
        if _tokens.verifyToken env (env.ioFail 1) s token userPhone = true then
          let checkData1 : Check :=
            { checkData with
              protocol := orElse protocol checkData.protocol
              url := orElse url checkData.url
              method := orElse method checkData.method
              timeoutSeconds :=
                if timeoutSeconds ≠ 0 then timeoutSeconds else checkData.timeoutSeconds
              successCodes :=
                if successCodes.length > 0 then successCodes else checkData.successCodes }
          match dataUpdate (env.ioFail 2) s.checks id checkData1 with
          | none => ⟨[⟨500, .error "Could not update the check"⟩], s⟩
          | some checks => ⟨[⟨200, .none⟩], { s with checks := checks }⟩
        else ⟨[invalidToken], s⟩
    else ⟨[⟨400, .error "Missing fields to update"⟩], s⟩
  else ⟨[⟨400, .error "Missing required field"⟩], s⟩

/-- The handler `handlers._checks.delete`. -/
def _checks.delete (env : Env) (data : Request) (s : Store) : Result :=
  let id := queryOfLength 20 (data.queryStringObject "id")
  if id ≠ "" then
    match dataRead (env.ioFail 0) s.checks id with
    | none => ⟨[⟨400, .error "The specified Check does not exist"⟩], s⟩
    | some checkData =>
      let userPhone := checkData.userPhone
      let token := headerToken data
      if _tokens.verifyToken env (env.ioFail 1) s token userPhone = true then
        match dataDelete (env.ioFail 2) s.checks id with
        | none => ⟨[⟨500, .error "Could not delete the check data"⟩], s⟩
        | some checks =>
          match dataRead (env.ioFail 3) s.users userPhone with
          | none =>
            ⟨[⟨500, .error ("Could not find the user who created the check, so could not "
              ++ "remove the check from the list of checks on the user's object")⟩],
              { s with checks := checks }⟩
          | some userData =>
            let userChecks := userChecksOf userData
            if id ∈ userChecks then
              let userData1 : User := { userData with checks := some (userChecks.erase id) }
              match dataUpdate (env.ioFail 4) s.users userPhone userData1 with
              | none =>
                ⟨[⟨500, .error "Could not update the user"⟩], { s with checks := checks }⟩
              | some users =>
                ⟨[⟨200, .none⟩], { s with checks := checks, users := users }⟩
            else
              ⟨[⟨500, .error
                "Could not find the check on the user's object, so could not remove it"⟩],
                { s with checks := checks }⟩
      else ⟨[invalidToken], s⟩
  else ⟨[⟨400, .error "Missing required field"⟩], s⟩

/-! ## Dispatch on the request method -/

/-- The list `acceptableMethods` of the three collection handlers. -/
def acceptableMethods : List String := ["post", "get", "put", "delete"]

/-- The handler `handlers.users`: `handlers._users[data.method]` for an
acceptable method, 405 otherwise. -/
def users (env : Env) (data : Request) (s : Store) : Result :=
  if data.method ∈ acceptableMethods then
    if data.method = "post" then _users.post env data s
    else if data.method = "get" then _users.get env data s
    else if data.method = "put" then _users.put env data s
    else _users.delete env data s
  else ⟨[⟨405, .none⟩], s⟩

/-- The handler `handlers.tokens`. -/
def tokens (env : Env) (data : Request) (s : Store) : Result :=
  if data.method ∈ acceptableMethods then
    if data.method = "post" then _tokens.post env data s
    else if data.method = "get" then _tokens.get env data s
    else if data.method = "put" then _tokens.put env data s
    else _tokens.delete env data s
  else ⟨[⟨405, .none⟩], s⟩

/-- The handler `handlers.checks`. -/
def checks (env : Env) (data : Request) (s : Store) : Result :=
  if data.method ∈ acceptableMethods then
    if data.method = "post" then _checks.post env data s
    else if data.method = "get" then _checks.get env data s
    else if data.method = "put" then _checks.put env data s
    else _checks.delete env data s
  else ⟨[⟨405, .none⟩], s⟩

end handlers

/-- The three collection routes. -/
inductive Route where
  | users
  | tokens
  | checks
deriving DecidableEq

/-- One handler operation: the collection handler of the route on the
request. -/
def step (env : Env) (route : Route) (data : Request) (s : Store) : Result :=
  match route with
  | .users => handlers.users env data s
  | .tokens => handlers.tokens env data s
  | .checks => handlers.checks env data s

open handlers

/-! # Specification predicates -/

/-! ## Tokens -/

/-- The validity condition of the specification (I4): a record with key `id`
exists in `tokens`, its `expires` is strictly greater than `now`, and its
`phone` is the given phone. -/
def tokenValid (s : Store) (now : Int) (id phone : String) : Prop :=
  ∃ t, s.tokens id = some t ∧ t.expires > now ∧ t.phone = phone

/-- The tokens the handlers store: no record of `tokens` is filed under the
empty key and none is bound to the empty phone.  `handlers._tokens.post`, the
only place a token is created, files it under `helpers.createRandomString(20)`
for a phone of 10 characters. -/
def tokensWellFormed (s : Store) : Prop :=
  ∀ k t, s.tokens k = some t → k ≠ "" ∧ t.phone ≠ ""

/-- The presented token does not exist, or has `expires <= now`, or, for an
operation scoped to the owner `o`, is bound to a phone other than `o`. -/
def tokenRejected (s : Store) (now : Int) (token : String) (owner : Option String) : Prop :=
  match s.tokens token with
  | none => True
  | some t => t.expires ≤ now ∨ (∃ o, owner = some o ∧ t.phone ≠ o)

/-- The operations behind the token check: users get, put, delete and checks
post, get, put, delete. -/
def guarded (route : Route) (method : String) : Prop :=
  (route = .users ∧ method ∈ ["get", "put", "delete"]) ∨
    (route = .checks ∧ method ∈ ["post", "get", "put", "delete"])

/-- The owner a guarded request is scoped to: the phone the handler reads from
the request for a user operation, the `userPhone` of the addressed check for
checks get, put and delete (`none` when there is no such check), and `none` for
checks post, which is not scoped to an owner. -/
def addressedOwner (route : Route) (data : Request) (s : Store) : Option String :=
  match route with
  | .users =>
    if data.method = "put" then some (trimmedOfLength 10 (data.payload "phone"))
    else some (queryOfLength 10 (data.queryStringObject "phone"))
  | .tokens => none
  | .checks =>
    if data.method = "post" then none
    else if data.method = "put" then
      (s.checks (trimmedOfLength 20 (data.payload "id"))).map Check.userPhone
    else (s.checks (queryOfLength 20 (data.queryStringObject "id"))).map Check.userPhone

/-- A refused request: the store is `s` still, and `callback` was invoked once,
with a status other than 200 and no resource in the body. -/
def Refused (s : Store) (r : Result) : Prop :=
  r.store = s ∧ ∃ x, r.calls = [x] ∧ x.status ≠ 200 ∧ x.body.hasResource = false

/-- The token object `handlers._tokens.post` builds for `phone`. -/
def newToken (env : Env) (phone : String) : Token :=
  ⟨env.createRandomString 20, env.now + 1000 * 60 * 60, phone⟩

/-! ## Users -/

/-- The required fields of `handlers._users.post` are all filled out: the
condition `firstname && lastname && phone && password && tosAgreement`. -/
def requiredUserFields (data : Request) : Prop :=
  trimmedString (data.payload "firstname") ≠ "" ∧
  trimmedString (data.payload "lastname") ≠ "" ∧
  trimmedOfLength 10 (data.payload "phone") ≠ "" ∧
  trimmedString (data.payload "password") ≠ "" ∧
  booleanOrFalse (data.payload "tosAgreement") = true

/-- The user object `handlers._users.post` builds, with the digest
`hashedPassword`. -/
def newUser (data : Request) (hashedPassword : String) : User :=
  ⟨trimmedString (data.payload "firstname"), trimmedString (data.payload "lastname"),
    trimmedOfLength 10 (data.payload "phone"), hashedPassword, true, none⟩

/-- The object `handlers._users.get` returns for the stored record `u`: `u`
after `delete data.hashedPassword`. -/
def userView (u : User) : UserView :=
  ⟨u.firstname, u.lastname, u.phone, u.tosAgreement, u.checks⟩

/-- None of the optional fields of `handlers._users.put` is populated: the
condition `firstname || lastname || password` is false. -/
def noUserFields (data : Request) : Prop :=
  trimmedString (data.payload "firstname") = "" ∧
  trimmedString (data.payload "lastname") = "" ∧
  trimmedString (data.payload "password") = ""

/-- The response `callback(400, { Error: 'Missing fields to update' })`. -/
def missingFields : Response := ⟨400, .error "Missing fields to update"⟩

/-- The user object `handlers._users.put` stores: the stored `userData` with
the fields of the payload that are filled out. -/
def mergedUser (env : Env) (data : Request) (userData : User) : User :=
  { userData with
    firstname := orElse (trimmedString (data.payload "firstname")) userData.firstname
    lastname := orElse (trimmedString (data.payload "lastname")) userData.lastname
    hashedPassword :=
      hashOrElse env (trimmedString (data.payload "password")) userData.hashedPassword }

/-- The digest `helpers.hash(x)` is a falsy value: `false` or the empty
string. -/
def hashFails (env : Env) (x : String) : Prop :=
  env.hash x = none ∨ env.hash x = some ""

/-! ## Invariants -/

/-- The quota bound (I3): every user's `checks` list has length at most
`maxChecks`. -/
def quotaOk (maxChecks : Nat) (s : Store) : Prop :=
  ∀ p u, s.users p = some u → (userChecksOf u).length ≤ maxChecks

/-- I1: every check's `userPhone` is the key of an existing user. -/
def ownersExist (s : Store) : Prop :=
  ∀ k c, s.checks k = some c → ∃ u, s.users c.userPhone = some u

/-- I2: each user's `checks` list holds exactly the ids of the checks whose
`userPhone` is that user. -/
def listsExact (s : Store) : Prop :=
  ∀ p u, s.users p = some u →
    ∀ k, k ∈ userChecksOf u ↔ ∃ c, s.checks k = some c ∧ c.userPhone = p

/-- No `checks` list holds a duplicate id. -/
def noDuplicates (s : Store) : Prop :=
  ∀ p u, s.users p = some u → (userChecksOf u).Nodup

/-- Referential integrity: I1, I2 and no duplicate in a list. -/
def integrity (s : Store) : Prop :=
  ownersExist s ∧ listsExact s ∧ noDuplicates s

/-- No dangling reference: every id in a user's `checks` list is a key of the
`checks` collection. -/
def noDangling (s : Store) : Prop :=
  ∀ p u, s.users p = some u → ∀ k ∈ userChecksOf u, ∃ c, s.checks k = some c

/-! ## Check payloads -/

/-- A valid check payload, in the words of the specification: protocol is
`http` or `https`, url is a string that is not empty after trimming, method is
one of `get`, `post`, `put`, `delete`, successCodes is a non-empty array, and
timeoutSeconds is an integer between 1 and 5. -/
def validCheckPayload (data : Request) : Prop :=
  (∃ x, data.payload "protocol" = .str x ∧ (x = "http" ∨ x = "https")) ∧
  (∃ x, data.payload "url" = .str x ∧ jsTrim x ≠ "") ∧
  (∃ x, data.payload "method" = .str x ∧ (x = "get" ∨ x = "post" ∨ x = "put" ∨ x = "delete")) ∧
  (∃ xs, data.payload "successCodes" = .arr xs ∧ xs ≠ []) ∧
  (∃ n : Int, data.payload "timeoutSeconds" = .num n ∧ 1 ≤ n ∧ n ≤ 5)

/-- The response of `handlers._checks.post` to a user at the quota. -/
def quotaExceeded (maxChecks : Nat) : Response :=
  ⟨400, .error ("The user already has the maximum number ("
    ++ toString maxChecks ++ ") of checks")⟩

/-- The check object `handlers._checks.post` builds for the owner `userPhone`:
the generated id and the validated payload values. -/
def newCheck (env : Env) (data : Request) (userPhone : String) : Check :=
  ⟨env.createRandomString 20, userPhone, protocolOf (data.payload "protocol"),
    trimmedString (data.payload "url"), methodOf (data.payload "method"),
    successCodesOf (data.payload "successCodes"),
    timeoutSecondsOf (data.payload "timeoutSeconds")⟩

/-- None of the optional fields of `handlers._checks.put` is populated: the
condition `protocol || url || method || successCodes.length > 0 || timeoutSeconds`
is false. -/
def noCheckFields (data : Request) : Prop :=
  protocolOf (data.payload "protocol") = "" ∧
  trimmedString (data.payload "url") = "" ∧
  methodOf (data.payload "method") = "" ∧
  (successCodesOf (data.payload "successCodes")).length = 0 ∧
  timeoutSecondsOf (data.payload "timeoutSeconds") = 0

/-- The payload supplies a protocol, method, successCodes or timeoutSeconds
that violates the constraints of check creation. -/
def violatesConstraints (data : Request) : Prop :=
  (data.payload "protocol" ≠ .undefined ∧ protocolOf (data.payload "protocol") = "") ∨
  (data.payload "method" ≠ .undefined ∧ methodOf (data.payload "method") = "") ∨
  (data.payload "successCodes" ≠ .undefined ∧
    successCodesOf (data.payload "successCodes") = []) ∨
  (data.payload "timeoutSeconds" ≠ .undefined ∧
    timeoutSecondsOf (data.payload "timeoutSeconds") = 0)

/-- The check object `handlers._checks.put` stores: the stored `checkData`
with the fields of the payload that pass validation. -/
def mergedCheck (data : Request) (checkData : Check) : Check :=
  { checkData with
    protocol := orElse (protocolOf (data.payload "protocol")) checkData.protocol
    url := orElse (trimmedString (data.payload "url")) checkData.url
    method := orElse (methodOf (data.payload "method")) checkData.method
    timeoutSeconds :=
      if timeoutSecondsOf (data.payload "timeoutSeconds") ≠ 0
      then timeoutSecondsOf (data.payload "timeoutSeconds") else checkData.timeoutSeconds
    successCodes :=
      if (successCodesOf (data.payload "successCodes")).length > 0
      then successCodesOf (data.payload "successCodes") else checkData.successCodes }

/-- The response of `handlers._checks.delete` when the id is not in the list of
the owner. -/
def ownerUpdateFailure : Response :=
  ⟨500, .error "Could not find the check on the user's object, so could not remove it"⟩

/-- The payload passes the validation of `handlers._checks.post`: the condition
`protocol && url && method && successCodes.length > 0 && timeoutSeconds`. -/
def passesValidation (data : Request) : Prop :=
  protocolOf (data.payload "protocol") ≠ "" ∧ trimmedString (data.payload "url") ≠ "" ∧
    methodOf (data.payload "method") ≠ "" ∧
    (successCodesOf (data.payload "successCodes")).length > 0 ∧
    timeoutSecondsOf (data.payload "timeoutSeconds") ≠ 0

/-- The response of `handlers._checks.post` to a payload that does not pass
validation. -/
def validationError : Response :=
  ⟨400, .error "Missing required fields, or fields are invalid"⟩

/-- The response of `handlers._checks.post` when the check is stored and the
update of the user fails. -/
def userUpdateFailure : Response :=
  ⟨500, .error "Could not update the user with the new check"⟩

/-- The payload supplies the valid protocol `x`. -/
def protocolSupplied (data : Request) (x : String) : Prop :=
  data.payload "protocol" = .str x ∧ (x = "http" ∨ x = "https")

/-- The payload supplies a valid url, `x` after trimming. -/
def urlSupplied (data : Request) (x : String) : Prop :=
  ∃ y, data.payload "url" = .str y ∧ jsTrim y = x ∧ x ≠ ""

/-- The payload supplies the valid method `x`. -/
def methodSupplied (data : Request) (x : String) : Prop :=
  data.payload "method" = .str x ∧ (x = "get" ∨ x = "post" ∨ x = "put" ∨ x = "delete")

/-- The payload supplies the valid success codes `xs`. -/
def successCodesSupplied (data : Request) (xs : List JSVal) : Prop :=
  data.payload "successCodes" = .arr xs ∧ xs ≠ []

/-- The payload supplies the valid timeout `n`. -/
def timeoutSupplied (data : Request) (n : Int) : Prop :=
  data.payload "timeoutSeconds" = .num n ∧ 1 ≤ n ∧ n ≤ 5

/-! ## The deletion loop -/

/-- The state in which the deletion loop of `handlers._users.delete` starts. -/
def cascadeStart (s : Store) (users : Coll User) : CascadeState :=
  ⟨{ s with users := users }, 0, false, []⟩

/-- Whether each individual deletion of the cascade succeeds, in the order of
the list: the result of `_data.delete('checks', checkId, ...)` on the store the
deletions before it have left. -/
def cascadeOutcomes (env : Env) (n : Nat) : CascadeState → List String → List Bool
  | _, [] => []
  | st, k :: ks =>
    (dataDelete (env.ioFail (3 + st.checksDeleted)) st.store.checks k).isSome ::
      cascadeOutcomes env n (cascadeStep env n st k) ks

/-- The check ids whose deletion fails in the cascade. -/
def cascadeFailures (env : Env) (n : Nat) (st : CascadeState) (l : List String) : List String :=
  ((l.zip (cascadeOutcomes env n st l)).filter (fun x => !x.2)).map Prod.fst

/-! # Example data -/

/-- An environment at time 0 with a reliable store, the digest of `x` being
`#x`, the generated id `c...c` and `config.maxChecks = 5`. -/
def env0 : Env :=
  ⟨0, fun x => some ("#" ++ x), fun _ => "cccccccccccccccccccc", 5, fun _ => false⟩

/-- The environment `env0` with `config.maxChecks` set to 1. -/
def env1 : Env := { env0 with maxChecks := 1 }

/-- The environment `env0` with a digest that fails on the empty string. -/
def envH : Env := { env0 with hash := fun x => if x = "" then none else some ("#" ++ x) }

/-- The environment `env0` with a store whose fourth operation fails. -/
def envFail3 : Env := { env0 with ioFail := fun i => decide (i = 3) }

/-- The user 5551234567, owner of the check `a...a`. -/
def ann : User :=
  ⟨"Ann", "Lee", "5551234567", "#pw", true, some ["aaaaaaaaaaaaaaaaaaaa"]⟩

/-- The token `t...t` of the user 5551234567, expiring at time 100. -/
def tokenT : Token := ⟨"tttttttttttttttttttt", 100, "5551234567"⟩

/-- A check of the user 5551234567. -/
def checkA : Check :=
  ⟨"aaaaaaaaaaaaaaaaaaaa", "5551234567", "http", "example.com", "get", [.num 200], 3⟩

/-- The store before any request: the three collections are empty. -/
def emptyStore : Store := ⟨fun _ => none, fun _ => none, fun _ => none⟩

/-- A store with the user `ann`, the token `tokenT` and the check `checkA`. -/
def demoStore : Store :=
  ⟨fun k => if k = "5551234567" then some ann else none,
    fun k => if k = "tttttttttttttttttttt" then some tokenT else none,
    fun k => if k = "aaaaaaaaaaaaaaaaaaaa" then some checkA else none⟩

/-- A user 5551234567 listing the checks `a...a` and `b...b`, with a valid
token, in a store that holds the check named by `present` only. -/
def halfStore (present : String) : Store :=
  ⟨fun k => if k = "5551234567" then
      some ⟨"Ann", "Lee", "5551234567", "#pw", true,
        some ["aaaaaaaaaaaaaaaaaaaa", "bbbbbbbbbbbbbbbbbbbb"]⟩ else none,
    fun k => if k = "tttttttttttttttttttt" then
      some ⟨"tttttttttttttttttttt", 100, "5551234567"⟩ else none,
    fun k => if k = present then
      some ⟨present, "5551234567", "http", "example.com", "get", [.num 200], 3⟩ else none⟩

/-- The store `demoStore` with an empty list for its user: the check `a...a`
has no back-reference. -/
def unlistedStore : Store :=
  ⟨fun k => if k = "5551234567" then some { ann with checks := some [] } else none,
    demoStore.tokens, demoStore.checks⟩

/-- A store with one token, filed under the key `abc` of 3 characters. -/
def shortKeyStore : Store :=
  ⟨fun _ => none, fun k => if k = "abc" then some ⟨"abc", 100, "5551234567"⟩ else none,
    fun _ => none⟩

/-- The request to create a check, with the token `t...t`. -/
def postCheck : Request :=
  ⟨"post",
    fun k =>
      if k = "protocol" then .str "http"
      else if k = "url" then .str "example.com"
      else if k = "method" then .str "get"
      else if k = "successCodes" then .arr [.num 200]
      else if k = "timeoutSeconds" then .num 3
      else .undefined,
    fun _ => none,
    fun k => if k = "token" then .str "tttttttttttttttttttt" else .undefined⟩

/-- The request to read the check `a...a` with a token that does not exist. -/
def getWithoutToken : Request :=
  ⟨"get", fun _ => .undefined,
    fun k => if k = "id" then some "aaaaaaaaaaaaaaaaaaaa" else none,
    fun k => if k = "token" then .str "xxxxxxxxxxxxxxxxxxxx" else .undefined⟩

/-- The request for a token of the user 5551234567 with the password `pw`. -/
def loginAnn : Request :=
  ⟨"post",
    fun k =>
      if k = "phone" then .str " 5551234567 "
      else if k = "password" then .str "pw"
      else .undefined,
    fun _ => none, fun _ => .undefined⟩

/-- The request to delete the check `a...a` with the token `t...t`. -/
def deleteA : Request :=
  ⟨"delete", fun _ => .undefined, fun k => if k = "id" then some "aaaaaaaaaaaaaaaaaaaa" else none,
    fun k => if k = "token" then .str "tttttttttttttttttttt" else .undefined⟩

/-- The request to delete the user 5551234567 with the token `t...t`. -/
def deleteAnn : Request :=
  ⟨"delete", fun _ => .undefined,
    fun k => if k = "phone" then some "5551234567" else none,
    fun k => if k = "token" then .str "tttttttttttttttttttt" else .undefined⟩

/-- The check ids whose deletion fails when `handlers._users.delete` deletes
the user 5551234567 of `halfStore present`. -/
def failedIds (present : String) : List String :=
  cascadeFailures env0 2
    (cascadeStart (halfStore present)
      (Function.update (halfStore present).users "5551234567" none))
    ["aaaaaaaaaaaaaaaaaaaa", "bbbbbbbbbbbbbbbbbbbb"]

/-- The request to extend the token `t...t`. -/
def extendT : Request :=
  ⟨"put",
    fun k =>
      if k = "id" then .str "tttttttttttttttttttt"
      else if k = "extend" then .bool true
      else .undefined,
    fun _ => none, fun _ => .undefined⟩

/-- The request to delete the token `t...t`. -/
def revokeT : Request :=
  ⟨"delete", fun _ => .undefined,
    fun k => if k = "id" then some "tttttttttttttttttttt" else none, fun _ => .undefined⟩

/-- The request to create a user with the phone given, all the required fields
being filled out. -/
def signup (phone : String) : Request :=
  ⟨"post",
    fun k =>
      if k = "firstname" then .str "Bo"
      else if k = "lastname" then .str "Ray"
      else if k = "phone" then .str phone
      else if k = "password" then .str "pw2"
      else if k = "tosAgreement" then .bool true
      else .undefined,
    fun _ => none, fun _ => .undefined⟩

/-- The request `signup "5551234567"` without its `firstname`. -/
def signupNoName : Request :=
  ⟨"post",
    fun k =>
      if k = "lastname" then .str "Ray"
      else if k = "phone" then .str "5551234567"
      else if k = "password" then .str "pw2"
      else if k = "tosAgreement" then .bool true
      else .undefined,
    fun _ => none, fun _ => .undefined⟩

/-- The request to read the user 5551234567 with the token `t...t`. -/
def getAnn : Request :=
  ⟨"get", fun _ => .undefined,
    fun k => if k = "phone" then some "5551234567" else none,
    fun k => if k = "token" then .str "tttttttttttttttttttt" else .undefined⟩

/-- The request to read the check `a...a` with the token `t...t`. -/
def getA : Request :=
  ⟨"get", fun _ => .undefined,
    fun k => if k = "id" then some "aaaaaaaaaaaaaaaaaaaa" else none,
    fun k => if k = "token" then .str "tttttttttttttttttttt" else .undefined⟩

/-- The request to update the user 5551234567 with no field and no token. -/
def putNothing : Request :=
  ⟨"put", fun k => if k = "phone" then .str "5551234567" else .undefined,
    fun _ => none, fun _ => .undefined⟩

/-- The request to update the check `a...a` with no field. -/
def putCheckNothing : Request :=
  ⟨"put", fun k => if k = "id" then .str "aaaaaaaaaaaaaaaaaaaa" else .undefined,
    fun _ => none, fun _ => .undefined⟩

/-- The request to update the check `a...a` with the protocol `ftp` and the
url `example.org`, with the token `t...t`. -/
def putFtp : Request :=
  ⟨"put",
    fun k =>
      if k = "id" then .str "aaaaaaaaaaaaaaaaaaaa"
      else if k = "protocol" then .str "ftp"
      else if k = "url" then .str "example.org"
      else .undefined,
    fun _ => none,
    fun k => if k = "token" then .str "tttttttttttttttttttt" else .undefined⟩

/-- The request to create a check with the protocol `ftp`. -/
def postFtp : Request :=
  ⟨"post",
    fun k =>
      if k = "protocol" then .str "ftp"
      else if k = "url" then .str "example.com"
      else if k = "method" then .str "get"
      else if k = "successCodes" then .arr [.num 200]
      else if k = "timeoutSeconds" then .num 3
      else .undefined,
    fun _ => none,
    fun k => if k = "token" then .str "tttttttttttttttttttt" else .undefined⟩

/-- The request to update the names and the password of the user 5551234567,
with the token `t...t`. -/
def putAnn : Request :=
  ⟨"put",
    fun k =>
      if k = "phone" then .str "5551234567"
      else if k = "firstname" then .str " Anna "
      else if k = "password" then .str "pw3"
      else .undefined,
    fun _ => none,
    fun k => if k = "token" then .str "tttttttttttttttttttt" else .undefined⟩

/-- The request to update the check `a...a` with the url `example.org`,
padded with blanks, and the timeout 5, with the token `t...t`. -/
def putUrl : Request :=
  ⟨"put",
    fun k =>
      if k = "id" then .str "aaaaaaaaaaaaaaaaaaaa"
      else if k = "url" then .str " example.org "
      else if k = "timeoutSeconds" then .num 5
      else .undefined,
    fun _ => none,
    fun k => if k = "token" then .str "tttttttttttttttttttt" else .undefined⟩

/-! # Properties -/

/-! ## Store operations -/

theorem dataRead_some {α : Type} {io : Bool} {c : Coll α} {k : String} {v : α}
    (h : dataRead io c k = some v) : io = false ∧ c k = some v := by
  unfold dataRead at h
  cases io <;> simp_all

theorem dataCreate_some {α : Type} {io : Bool} {c c1 : Coll α} {k : String} {r : α}
    (h : dataCreate io c k r = some c1) :
    io = false ∧ c k = none ∧ c1 = Function.update c k (some r) := by
  unfold dataCreate at h
  cases io
  · cases hk : c k <;> simp_all
  · simp at h

theorem dataUpdate_some {α : Type} {io : Bool} {c c1 : Coll α} {k : String} {r : α}
    (h : dataUpdate io c k r = some c1) :
    io = false ∧ (∃ v, c k = some v) ∧ c1 = Function.update c k (some r) := by
  unfold dataUpdate at h
  cases io
  · cases hk : c k <;> simp_all
  · simp at h

theorem dataDelete_some {α : Type} {io : Bool} {c c1 : Coll α} {k : String}
    (h : dataDelete io c k = some c1) :
    io = false ∧ (∃ v, c k = some v) ∧ c1 = Function.update c k none := by
  unfold dataDelete at h
  cases io
  · cases hk : c k <;> simp_all
  · simp at h

theorem dataRead_reliable {α : Type} (c : Coll α) (k : String) : dataRead false c k = c k := rfl

theorem dataDelete_none {α : Type} {c : Coll α} {k : String}
    (h : dataDelete false c k = none) : c k = none := by
  unfold dataDelete at h
  cases hk : c k <;> simp_all

theorem dataUpdate_none {α : Type} {c : Coll α} {k : String} {r : α}
    (h : dataUpdate false c k r = none) : c k = none := by
  unfold dataUpdate at h
  cases hk : c k <;> simp_all

theorem tokens_users_eq (env : Env) (data : Request) (s : Store) :
    ((handlers.tokens env data s).store.users = s.users) ∧
    ((handlers.tokens env data s).store.checks = s.checks) := by
  unfold handlers.tokens _tokens.post _tokens.get _tokens.put _tokens.delete
  simp only []
  repeat' split
  all_goals exact ⟨rfl, rfl⟩

theorem jsLength_ne_empty (x : String) (n : Nat) (hn : 0 < n) (h : jsLength x = n) : x ≠ "" := by
  rintro rfl
  simp [jsLength] at h
  omega

theorem trimmedOfLength_eq (n : Nat) (v : JSVal) (x : String) (hv : v = .str x) :
    trimmedOfLength n v = jsTrim x ∨ trimmedOfLength n v = "" := by
  subst hv
  unfold trimmedOfLength
  simp only []
  split
  · left; rfl
  · right; rfl

theorem quota_message_ne (t u : String) :
    "The user already has the maximum number (" ++ t ++ u ≠
      "Missing required fields, or fields are invalid" := by
  intro h
  have h2 := congrArg String.data h
  simp only [String.data_append] at h2
  have h3 := congrArg List.head? h2
  simp only [List.append_assoc, List.cons_append, List.head?_cons, Option.some.injEq] at h3
  revert h3
  decide

/-! ## The deletion loop of `handlers._users.delete` -/

theorem cascadeStep_users (env : Env) (n : Nat) (st : CascadeState) (k : String) :
    (cascadeStep env n st k).store.users = st.store.users ∧
    (cascadeStep env n st k).store.tokens = st.store.tokens := by
  unfold cascadeStep
  simp only []
  split <;> simp

theorem cascade_users (env : Env) (n : Nat) (l : List String) (st : CascadeState) :
    (l.foldl (cascadeStep env n) st).store.users = st.store.users ∧
    (l.foldl (cascadeStep env n) st).store.tokens = st.store.tokens := by
  induction l generalizing st with
  | nil => exact ⟨rfl, rfl⟩
  | cons k ks ih =>
    simp only [List.foldl_cons]
    rw [(ih _).1, (ih _).2]
    exact cascadeStep_users env n st k

theorem cascadeStep_checks (env : Env) (hrel : env.reliable) (n : Nat) (st : CascadeState)
    (k : String) :
    (cascadeStep env n st k).store.checks = Function.update st.store.checks k none := by
  unfold cascadeStep
  simp only [hrel _]
  split
  · rename_i c h
    exact (dataDelete_some h).2.2
  · rename_i h
    have := dataDelete_none h
    funext x
    by_cases hx : x = k
    · subst hx; rw [Function.update_same, this]
    · rw [Function.update_noteq hx]

theorem cascade_checks (env : Env) (hrel : env.reliable) (n : Nat) (l : List String)
    (st : CascadeState) (k : String) :
    (l.foldl (cascadeStep env n) st).store.checks k =
      if k ∈ l then none else st.store.checks k := by
  induction l generalizing st with
  | nil => simp
  | cons x xs ih =>
    simp only [List.foldl_cons, List.mem_cons]
    rw [ih, cascadeStep_checks env hrel]
    by_cases hx : k = x
    · subst hx; simp
    · simp [hx, Function.update_noteq hx]

theorem cascadeStep_fields (env : Env) (n : Nat) (st : CascadeState) (k : String) :
    (cascadeStep env n st k).checksDeleted = st.checksDeleted + 1 ∧
    ((cascadeStep env n st k).deletionErrors = true ↔ st.deletionErrors = true ∨
      (dataDelete (env.ioFail (3 + st.checksDeleted)) st.store.checks k).isSome = false) ∧
    (cascadeStep env n st k).calls =
      if st.checksDeleted + 1 = n then
        st.calls ++ [if (cascadeStep env n st k).deletionErrors = true then cascadeFailure
          else ⟨200, .none⟩]
      else st.calls := by
  refine ⟨rfl, ?_, rfl⟩
  unfold cascadeStep
  simp only []
  cases dataDelete (env.ioFail (3 + st.checksDeleted)) st.store.checks k <;> simp

theorem cascade_fields (env : Env) (n : Nat) (l : List String) (st : CascadeState) :
    (l.foldl (cascadeStep env n) st).checksDeleted = st.checksDeleted + l.length ∧
    ((l.foldl (cascadeStep env n) st).deletionErrors = true ↔
      st.deletionErrors = true ∨ false ∈ cascadeOutcomes env n st l) ∧
    (st.checksDeleted + l.length < n → (l.foldl (cascadeStep env n) st).calls = st.calls) ∧
    (l ≠ [] → st.checksDeleted + l.length = n →
      (l.foldl (cascadeStep env n) st).calls =
        st.calls ++ [if (l.foldl (cascadeStep env n) st).deletionErrors = true
          then cascadeFailure else ⟨200, .none⟩]) := by
  induction l generalizing st with
  | nil => simp [cascadeOutcomes]
  | cons x xs ih =>
    obtain ⟨i1, i2, i3, i4⟩ := ih (cascadeStep env n st x)
    obtain ⟨s1, s2, s3⟩ := cascadeStep_fields env n st x
    simp only [List.foldl_cons, List.length_cons, cascadeOutcomes, List.mem_cons]
    refine ⟨?_, ?_, ?_, ?_⟩
    · rw [i1, s1]; omega
    · rw [i2, s2, or_assoc, @eq_comm _ false]
    · intro hlt
      rw [i3 (by rw [s1]; omega), s3, if_neg (by omega)]
    · intro _ hn
      cases xs with
      | nil =>
        simp only [List.foldl_nil]
        rw [s3, if_pos (by simpa using hn)]
      | cons y ys =>
        rw [i4 (by simp) (by rw [s1]; simp only [List.length_cons] at hn ⊢; omega), s3,
          if_neg (by simp only [List.length_cons] at hn; omega)]

theorem users_delete_tokens (env : Env) (data : Request) (s : Store) :
    (_users.delete env data s).store.tokens = s.tokens := by
  unfold _users.delete
  simp only []
  repeat' split
  all_goals first
    | rfl
    | exact (cascade_users env _ _ _).2

/-! ## The example data -/

theorem demoStore_integrity : integrity demoStore := by
  refine ⟨?_, ?_, ?_⟩
  · intro k c h
    simp only [demoStore] at h
    split at h
    · cases h
      exact ⟨ann, rfl⟩
    · cases h
  · intro p u h k
    simp only [demoStore] at h ⊢
    split at h
    · cases h
      rename_i hp
      subst hp
      by_cases hk : k = "aaaaaaaaaaaaaaaaaaaa"
      · subst hk
        simp only [if_true]
        exact ⟨fun _ => ⟨checkA, rfl, rfl⟩, fun _ => List.Mem.head _⟩
      · simp only [hk, if_false]
        constructor
        · intro hm
          simp [userChecksOf, ann] at hm
          exact absurd hm hk
        · rintro ⟨c, hc, -⟩
          cases hc
    · cases h
  · intro p u h
    simp only [demoStore] at h
    split at h
    · cases h
      decide
    · cases h

theorem demoStore_quota (m : Nat) (hm : 1 ≤ m) : quotaOk m demoStore := by
  intro p u h
  simp only [demoStore] at h
  split at h
  · cases h
    exact hm
  · cases h

theorem postCheck_valid : validCheckPayload postCheck :=
  ⟨⟨"http", rfl, Or.inl rfl⟩, ⟨"example.com", rfl, by decide⟩, ⟨"get", rfl, Or.inl rfl⟩,
    ⟨[.num 200], rfl, by simp⟩, ⟨3, rfl, by decide, by decide⟩⟩

theorem emptyStore_tokensWellFormed : tokensWellFormed emptyStore := by
  intro k t h
  cases h

theorem demoStore_tokensWellFormed : tokensWellFormed demoStore := by
  intro k t h
  simp only [demoStore] at h
  split at h
  · cases h
    rename_i hk
    subst hk
    exact ⟨by decide, by decide⟩
  · cases h

/-! ## Token verification -/

/-- The result of `handlers._tokens.verifyToken(id, phone)` on any store whose
read does not fail: true if and only if `id` and `phone` are both non-empty
(the guard `!id || !phone`) and the validity condition of the specification
holds. -/
theorem verifyToken_iff (env : Env) (s : Store) (id phone : String) :
    _tokens.verifyToken env false s id phone = true ↔
      id ≠ "" ∧ phone ≠ "" ∧ tokenValid s env.now id phone := by
  unfold _tokens.verifyToken tokenValid dataRead
  by_cases h : id = "" ∨ phone = ""
  · simp only [h, if_true]
    constructor
    · intro h'; cases h'
    · rintro ⟨h1, h2, -⟩
      rcases h with h | h
      · exact absurd h h1
      · exact absurd h h2
  · simp only [h, if_false]
    push_neg at h
    cases hs : s.tokens id with
    | none => simp
    | some t =>
      simp [h.1, h.2, and_comm]

theorem users_tokens_eq (env : Env) (data : Request) (s : Store) :
    (handlers.users env data s).store.tokens = s.tokens := by
  unfold handlers.users
  repeat' split
  · unfold _users.post
    simp only []
    repeat' split
    all_goals rfl
  · unfold _users.get
    simp only []
    repeat' split
    all_goals rfl
  · unfold _users.put
    simp only []
    repeat' split
    all_goals rfl
  · exact users_delete_tokens env data s
  · rfl

theorem checks_tokens_eq (env : Env) (data : Request) (s : Store) :
    (handlers.checks env data s).store.tokens = s.tokens := by
  unfold handlers.checks _checks.post _checks.get _checks.put _checks.delete
  simp only []
  repeat' split
  all_goals rfl

theorem tokensWellFormed_of_eq {s t : Store} (h : t.tokens = s.tokens)
    (hs : tokensWellFormed s) : tokensWellFormed t := by
  intro k x hx
  rw [h] at hx
  exact hs k x hx

theorem tokensWellFormed_update {s : Store} {tokens : Coll Token} {id : String}
    {v : Option Token} (hs : tokensWellFormed s)
    (ht : tokens = Function.update s.tokens id v)
    (hv : ∀ x, v = some x → id ≠ "" ∧ x.phone ≠ "") :
    tokensWellFormed { s with tokens := tokens } := by
  intro k x hx
  simp only [ht] at hx
  by_cases hk : k = id
  · subst hk
    rw [Function.update_same] at hx
    exact hv x hx
  · rw [Function.update_noteq hk] at hx
    exact hs k x hx

theorem tokens_tokensWellFormed (env : Env)
    (hgen : jsLength (env.createRandomString 20) = 20) (data : Request) (s : Store)
    (hs : tokensWellFormed s) : tokensWellFormed (handlers.tokens env data s).store := by
  unfold handlers.tokens
  repeat' split
  · unfold _tokens.post
    simp only []
    repeat' split
    all_goals first
      | exact hs
      | skip
    obtain ⟨-, -, h⟩ := dataCreate_some ‹dataCreate _ s.tokens _ _ = some _›
    refine tokensWellFormed_update hs h ?_
    intro x hx
    cases hx
    exact ⟨jsLength_ne_empty _ 20 (by decide) hgen,
      ‹trimmedOfLength 10 (data.payload "phone") ≠ "" ∧ _›.1⟩
  · unfold _tokens.get
    simp only []
    repeat' split
    all_goals exact hs
  · unfold _tokens.put
    simp only []
    repeat' split
    all_goals first
      | exact hs
      | skip
    obtain ⟨-, -, h⟩ := dataUpdate_some ‹dataUpdate _ s.tokens _ _ = some _›
    have hr := (dataRead_some ‹dataRead _ s.tokens _ = some _›).2
    refine tokensWellFormed_update hs h ?_
    intro x hx
    cases hx
    exact ⟨‹trimmedOfLength 20 (data.payload "id") ≠ "" ∧ _›.1, (hs _ _ hr).2⟩
  · unfold _tokens.delete
    simp only []
    repeat' split
    all_goals first
      | exact hs
      | skip
    obtain ⟨-, -, h⟩ := dataDelete_some ‹dataDelete _ s.tokens _ = some _›
    refine tokensWellFormed_update hs h ?_
    intro x hx
    cases hx
  · exact hs

/-- Every handler operation keeps the tokens well formed, given that
`helpers.createRandomString(20)` yields 20 characters. -/
theorem tokensWellFormed_step (env : Env) (hgen : jsLength (env.createRandomString 20) = 20)
    (route : Route) (data : Request) (s : Store) (hs : tokensWellFormed s) :
    tokensWellFormed (step env route data s).store := by
  cases route
  · exact tokensWellFormed_of_eq (users_tokens_eq env data s) hs
  · exact tokens_tokensWellFormed env hgen data s hs
  · exact tokensWellFormed_of_eq (checks_tokens_eq env data s) hs

/-- Claim C1: on every store whose tokens are well formed (none under the empty
key, none bound to the empty phone: the tokens the handlers store), at every
time, for every id and every phone, `handlers._tokens.verifyToken(id, phone)`
reports true if and only if a record with key `id` exists in `tokens`, its
`expires` is strictly greater than `now` and its `phone` is the given phone;
in every other case it reports false. -/
theorem verifyToken_spec (env : Env) (s : Store) (id phone : String)
    (hwf : tokensWellFormed s) :
    (_tokens.verifyToken env false s id phone = true ↔ tokenValid s env.now id phone) ∧
    (_tokens.verifyToken env false s id phone = false ↔ ¬ tokenValid s env.now id phone) := by
  have h1 : _tokens.verifyToken env false s id phone = true ↔ tokenValid s env.now id phone := by
    rw [verifyToken_iff]
    constructor
    · exact fun h => h.2.2
    · intro h
      obtain ⟨t, ht, he, hp⟩ := h
      obtain ⟨hk, hph⟩ := hwf id t ht
      exact ⟨hk, hp ▸ hph, t, ht, he, hp⟩
  refine ⟨h1, ?_⟩
  rw [← h1]
  cases _tokens.verifyToken env false s id phone <;> simp

/-- Claim C1 on `demoStore` at time 0: the token `t...t` is verified for the
phone 5551234567 and refused for the empty phone. -/
theorem verifyToken_spec_witness :
    tokensWellFormed demoStore ∧
    _tokens.verifyToken env0 false demoStore "tttttttttttttttttttt" "5551234567" = true ∧
    ((_tokens.verifyToken env0 false demoStore "tttttttttttttttttttt" "5551234567" = true ↔
        tokenValid demoStore env0.now "tttttttttttttttttttt" "5551234567") ∧
      (_tokens.verifyToken env0 false demoStore "tttttttttttttttttttt" "5551234567" = false ↔
        ¬ tokenValid demoStore env0.now "tttttttttttttttttttt" "5551234567")) :=
  ⟨demoStore_tokensWellFormed, by decide,
    verifyToken_spec env0 demoStore "tttttttttttttttttttt" "5551234567"
      demoStore_tokensWellFormed⟩

theorem verifyToken_of_rejected (env : Env) (io : Bool) (s : Store) (token phone : String)
    (h : tokenRejected s env.now token (some phone)) :
    _tokens.verifyToken env io s token phone = false := by
  unfold _tokens.verifyToken dataRead
  unfold tokenRejected at h
  split
  · rfl
  · cases io
    · cases hs : s.tokens token with
      | none => simp
      | some t =>
        rw [hs] at h
        simp only [Bool.false_eq_true, if_false, Bool.and_eq_false_iff, decide_eq_false_iff_not]
        rcases h with h | ⟨o, ho, hne⟩
        · right; omega
        · left; cases ho; exact hne
    · simp

theorem verifyToken_phone_ne (env : Env) (io : Bool) (s : Store) (id phone : String)
    (h : _tokens.verifyToken env io s id phone = true) : phone ≠ "" := by
  intro h0
  rw [h0] at h
  simp [_tokens.verifyToken] at h

/-! ## Requests without a valid token -/

theorem refused_mk (s : Store) (x : Response) (h1 : x.status ≠ 200)
    (h2 : x.body.hasResource = false) : Refused s ⟨[x], s⟩ :=
  ⟨rfl, x, rfl, h1, h2⟩

theorem users_get_refused (env : Env) (s : Store) (data : Request)
    (h : tokenRejected s env.now (headerToken data)
      (some (queryOfLength 10 (data.queryStringObject "phone")))) :
    Refused s (_users.get env data s) := by
  unfold _users.get
  simp only [verifyToken_of_rejected env _ s _ _ h]
  split <;> exact refused_mk _ _ (by decide) rfl

theorem users_put_refused (env : Env) (s : Store) (data : Request)
    (h : tokenRejected s env.now (headerToken data)
      (some (trimmedOfLength 10 (data.payload "phone")))) :
    Refused s (_users.put env data s) := by
  unfold _users.put
  simp only [verifyToken_of_rejected env _ s _ _ h]
  split <;> exact refused_mk _ _ (by decide) rfl

theorem users_delete_refused (env : Env) (s : Store) (data : Request)
    (h : tokenRejected s env.now (headerToken data)
      (some (queryOfLength 10 (data.queryStringObject "phone")))) :
    Refused s (_users.delete env data s) := by
  unfold _users.delete
  simp only [verifyToken_of_rejected env _ s _ _ h]
  split <;> exact refused_mk _ _ (by decide) rfl

theorem checks_post_refused (env : Env) (s : Store) (data : Request)
    (h : tokenRejected s env.now (headerToken data) none) :
    Refused s (_checks.post env data s) := by
  unfold _checks.post
  unfold tokenRejected at h
  simp only []
  split
  · unfold dataRead
    cases env.ioFail 0
    · cases hs : s.tokens (headerToken data) with
      | none => exact refused_mk _ _ (by decide) rfl
      | some t =>
        rw [hs] at h
        have ht : ¬ t.expires > env.now := by
          rcases h with h | ⟨o, ho, -⟩
          · omega
          · cases ho
        simp only [Bool.false_eq_true, if_false, ht]
        exact refused_mk _ _ (by decide) rfl
    · exact refused_mk _ _ (by decide) rfl
  · exact refused_mk _ _ (by decide) rfl

theorem checks_get_refused (env : Env) (s : Store) (data : Request)
    (h : tokenRejected s env.now (headerToken data)
      ((s.checks (queryOfLength 20 (data.queryStringObject "id"))).map Check.userPhone)) :
    Refused s (_checks.get env data s) := by
  unfold _checks.get
  simp only []
  split
  · unfold dataRead
    cases env.ioFail 0
    · cases hs : s.checks (queryOfLength 20 (data.queryStringObject "id")) with
      | none => exact refused_mk _ _ (by decide) rfl
      | some c =>
        rw [hs] at h
        simp only [Bool.false_eq_true, if_false, verifyToken_of_rejected env _ s _ _ h]
        exact refused_mk _ _ (by decide) rfl
    · exact refused_mk _ _ (by decide) rfl
  · exact refused_mk _ _ (by decide) rfl

theorem checks_put_refused (env : Env) (s : Store) (data : Request)
    (h : tokenRejected s env.now (headerToken data)
      ((s.checks (trimmedOfLength 20 (data.payload "id"))).map Check.userPhone)) :
    Refused s (_checks.put env data s) := by
  unfold _checks.put
  simp only []
  split
  · split
    · unfold dataRead
      cases env.ioFail 0
      · cases hs : s.checks (trimmedOfLength 20 (data.payload "id")) with
        | none => exact refused_mk _ _ (by decide) rfl
        | some c =>
          rw [hs] at h
          simp only [Bool.false_eq_true, if_false, verifyToken_of_rejected env _ s _ _ h]
          exact refused_mk _ _ (by decide) rfl
      · exact refused_mk _ _ (by decide) rfl
    · exact refused_mk _ _ (by decide) rfl
  · exact refused_mk _ _ (by decide) rfl

theorem checks_delete_refused (env : Env) (s : Store) (data : Request)
    (h : tokenRejected s env.now (headerToken data)
      ((s.checks (queryOfLength 20 (data.queryStringObject "id"))).map Check.userPhone)) :
    Refused s (_checks.delete env data s) := by
  unfold _checks.delete
  simp only []
  split
  · unfold dataRead
    cases env.ioFail 0
    · cases hs : s.checks (queryOfLength 20 (data.queryStringObject "id")) with
      | none => exact refused_mk _ _ (by decide) rfl
      | some c =>
        rw [hs] at h
        simp only [Bool.false_eq_true, if_false, verifyToken_of_rejected env _ s _ _ h]
        exact refused_mk _ _ (by decide) rfl
    · exact refused_mk _ _ (by decide) rfl
  · exact refused_mk _ _ (by decide) rfl

/-- Claim C2: for users get, put, delete and checks post, get, put, delete, on
every store, whatever the storage faults: if the presented token does not
exist, has `expires <= now`, or is bound to a phone other than the owner of
the addressed user or check, then the response is not 200, its body holds no
resource, and `users`, `tokens` and `checks` are unchanged. -/
theorem rejected_token_refused (env : Env) (s : Store) (route : Route) (data : Request)
    (hg : guarded route data.method)
    (hr : tokenRejected s env.now (headerToken data) (addressedOwner route data s)) :
    (step env route data s).store = s ∧
      ∃ x, (step env route data s).calls = [x] ∧ x.status ≠ 200 ∧
        x.body.hasResource = false := by
  rcases hg with ⟨rfl, hm⟩ | ⟨rfl, hm⟩
  · simp only [List.mem_cons, List.mem_singleton, List.not_mem_nil, or_false] at hm
    rcases hm with hm | hm | hm
    · simp only [addressedOwner, hm] at hr
      simp only [step, handlers.users, hm, acceptableMethods]
      exact users_get_refused env s data hr
    · simp only [addressedOwner, hm] at hr
      simp only [step, handlers.users, hm, acceptableMethods]
      exact users_put_refused env s data hr
    · simp only [addressedOwner, hm] at hr
      simp only [step, handlers.users, hm, acceptableMethods]
      exact users_delete_refused env s data hr
  · simp only [List.mem_cons, List.mem_singleton, List.not_mem_nil, or_false] at hm
    rcases hm with hm | hm | hm | hm
    · simp only [addressedOwner, hm] at hr
      simp only [step, handlers.checks, hm, acceptableMethods]
      exact checks_post_refused env s data hr
    · simp only [addressedOwner, hm] at hr
      simp only [step, handlers.checks, hm, acceptableMethods]
      exact checks_get_refused env s data hr
    · simp only [addressedOwner, hm] at hr
      simp only [step, handlers.checks, hm, acceptableMethods]
      exact checks_put_refused env s data hr
    · simp only [addressedOwner, hm] at hr
      simp only [step, handlers.checks, hm, acceptableMethods]
      exact checks_delete_refused env s data hr

/-- Claim C2 at a request for the check `a...a` with a token that does not
exist. -/
theorem rejected_token_refused_witness :
    guarded .checks getWithoutToken.method ∧
    tokenRejected demoStore env0.now (headerToken getWithoutToken)
      (addressedOwner .checks getWithoutToken demoStore) ∧
    (step env0 .checks getWithoutToken demoStore).store = demoStore ∧
    ∃ x, (step env0 .checks getWithoutToken demoStore).calls = [x] ∧ x.status ≠ 200 ∧
      x.body.hasResource = false :=
  ⟨Or.inr ⟨rfl, by decide⟩, trivial,
    rejected_token_refused env0 demoStore .checks getWithoutToken (Or.inr ⟨rfl, by decide⟩)
      trivial⟩

/-! ## Referential integrity -/

/-- A store that differs in records of unchanged ownership keeps integrity -/
theorem integrity_of_same_links {s t : Store}
    (hu : ∀ p, (t.users p).map userChecksOf = (s.users p).map userChecksOf)
    (hc : ∀ k, (t.checks k).map Check.userPhone = (s.checks k).map Check.userPhone)
    (h : integrity s) : integrity t := by
  obtain ⟨h1, h2, h3⟩ := h
  have usr : ∀ p v, t.users p = some v → ∃ u, s.users p = some u ∧ userChecksOf u = userChecksOf v := by
    intro p v hv
    have := hu p
    rw [hv] at this
    cases hs : s.users p with
    | none => rw [hs] at this; cases this
    | some u => rw [hs] at this; simp at this; exact ⟨u, rfl, this.symm⟩
  have chk : ∀ k p, (∃ c, t.checks k = some c ∧ c.userPhone = p) ↔
      (∃ c, s.checks k = some c ∧ c.userPhone = p) := by
    intro k p
    have := hc k
    cases hs : s.checks k <;> cases ht : t.checks k <;> simp_all
  refine ⟨?_, ?_, ?_⟩
  · intro k c hk
    obtain ⟨c1, hc1, ho⟩ := (chk k c.userPhone).1 ⟨c, hk, rfl⟩
    obtain ⟨u, hu1⟩ := h1 k c1 hc1
    rw [ho] at hu1
    have := hu c.userPhone
    rw [hu1] at this
    cases ht : t.users c.userPhone with
    | none => rw [ht] at this; cases this
    | some v => exact ⟨v, rfl⟩
  · intro p v hv k
    obtain ⟨u, hs, he⟩ := usr p v hv
    rw [← he, h2 p u hs k, chk]
  · intro p v hv
    obtain ⟨u, hs, he⟩ := usr p v hv
    rw [← he]
    exact h3 p u hs

theorem integrity_of_eq {s t : Store} (hu : t.users = s.users) (hc : t.checks = s.checks)
    (h : integrity s) : integrity t :=
  integrity_of_same_links (fun p => by rw [hu]) (fun k => by rw [hc]) h

/-- The store after a user deletion with a complete cascade keeps integrity -/
theorem integrity_delete_user {s t : Store} {p : String} {u : User}
    (hu : s.users p = some u)
    (htu : t.users = Function.update s.users p none)
    (htc : ∀ k, t.checks k = if k ∈ userChecksOf u then none else s.checks k)
    (h : integrity s) : integrity t := by
  obtain ⟨h1, h2, h3⟩ := h
  have husers : ∀ q, q ≠ p → t.users q = s.users q := by
    intro q hq; rw [htu, Function.update_noteq hq]
  have hchk : ∀ k c, t.checks k = some c → s.checks k = some c ∧ c.userPhone ≠ p := by
    intro k c hk
    rw [htc] at hk
    split at hk
    · cases hk
    · rename_i hnot
      refine ⟨hk, ?_⟩
      intro hp
      exact hnot ((h2 p u hu k).2 ⟨c, hk, hp⟩)
  refine ⟨?_, ?_, ?_⟩
  · intro k c hk
    obtain ⟨hs, hne⟩ := hchk k c hk
    rw [husers _ hne]
    exact h1 k c hs
  · intro q v hv k
    have hq : q ≠ p := by
      rintro rfl
      rw [htu, Function.update_same] at hv
      cases hv
    rw [husers q hq] at hv
    rw [h2 q v hv k]
    constructor
    · rintro ⟨c, hc, ho⟩
      refine ⟨c, ?_, ho⟩
      rw [htc]
      have : k ∉ userChecksOf u := by
        intro hk
        obtain ⟨c1, hc1, ho1⟩ := (h2 p u hu k).1 hk
        rw [hc] at hc1
        cases hc1
        exact hq (ho.symm.trans ho1)
      simp [this, hc]
    · rintro ⟨c, hc, ho⟩
      exact ⟨c, (hchk k c hc).1, ho⟩
  · intro q v hv
    have hq : q ≠ p := by
      rintro rfl
      rw [htu, Function.update_same] at hv
      cases hv
    rw [husers q hq] at hv
    exact h3 q v hv

/-- The store after a check creation with its back-reference keeps integrity -/
theorem integrity_add_check {s t : Store} {p id : String} {u : User} {c : Check}
    (hu : s.users p = some u) (hnew : s.checks id = none) (hown : c.userPhone = p)
    (htc : t.checks = Function.update s.checks id (some c))
    (htu : t.users = Function.update s.users p
      (some { u with checks := some (userChecksOf u ++ [id]) }))
    (h : integrity s) : integrity t := by
  obtain ⟨h1, h2, h3⟩ := h
  have hnotin : ∀ q v, s.users q = some v → id ∉ userChecksOf v := by
    intro q v hv hin
    obtain ⟨c1, hc1, -⟩ := (h2 q v hv id).1 hin
    rw [hnew] at hc1
    cases hc1
  have hkeys : ∀ q, (∃ v, s.users q = some v) → ∃ v, t.users q = some v := by
    rintro q ⟨v, hv⟩
    rw [htu]
    by_cases hq : q = p
    · subst hq; rw [Function.update_same]; exact ⟨_, rfl⟩
    · rw [Function.update_noteq hq]; exact ⟨v, hv⟩
  refine ⟨?_, ?_, ?_⟩
  · intro k c1 hk
    rw [htc] at hk
    by_cases hkid : k = id
    · subst hkid
      rw [Function.update_same] at hk
      cases hk
      rw [hown]
      exact hkeys p ⟨u, hu⟩
    · rw [Function.update_noteq hkid] at hk
      exact hkeys _ (h1 k c1 hk)
  · intro q v hv k
    rw [htu] at hv
    rw [htc]
    by_cases hq : q = p
    · subst hq
      rw [Function.update_same] at hv
      cases hv
      show k ∈ userChecksOf u ++ [id] ↔ _
      rw [List.mem_append, List.mem_singleton, h2 q u hu k]
      by_cases hkid : k = id
      · subst hkid
        rw [Function.update_same]
        simp [hown]
      · rw [Function.update_noteq hkid]
        simp [hkid]
    · rw [Function.update_noteq hq] at hv
      rw [h2 q v hv k]
      by_cases hkid : k = id
      · subst hkid
        rw [Function.update_same, hnew]
        constructor
        · rintro ⟨c1, hc1, -⟩; cases hc1
        · rintro ⟨c1, hc1, ho⟩
          cases hc1
          exact absurd (hown.symm.trans ho).symm hq
      · rw [Function.update_noteq hkid]
  · intro q v hv
    rw [htu] at hv
    by_cases hq : q = p
    · subst hq
      rw [Function.update_same] at hv
      cases hv
      show (userChecksOf u ++ [id]).Nodup
      rw [List.nodup_append]
      refine ⟨h3 q u hu, List.nodup_singleton _, ?_⟩
      intro a ha hb
      rw [List.mem_singleton] at hb
      subst hb
      exact hnotin q u hu ha
    · rw [Function.update_noteq hq] at hv
      exact h3 q v hv

/-- The store after a check deletion with its back-reference keeps integrity -/
theorem integrity_remove_check {s t : Store} {p id : String} {u : User} {c : Check}
    (hu : s.users p = some u) (hc : s.checks id = some c) (hown : c.userPhone = p)
    (htc : t.checks = Function.update s.checks id none)
    (htu : t.users = Function.update s.users p
      (some { u with checks := some ((userChecksOf u).erase id) }))
    (h : integrity s) : integrity t := by
  obtain ⟨h1, h2, h3⟩ := h
  have hkeys : ∀ q, (∃ v, s.users q = some v) → ∃ v, t.users q = some v := by
    rintro q ⟨v, hv⟩
    rw [htu]
    by_cases hq : q = p
    · subst hq; rw [Function.update_same]; exact ⟨_, rfl⟩
    · rw [Function.update_noteq hq]; exact ⟨v, hv⟩
  refine ⟨?_, ?_, ?_⟩
  · intro k c1 hk
    rw [htc] at hk
    by_cases hkid : k = id
    · subst hkid
      rw [Function.update_same] at hk
      cases hk
    · rw [Function.update_noteq hkid] at hk
      exact hkeys _ (h1 k c1 hk)
  · intro q v hv k
    rw [htu] at hv
    rw [htc]
    by_cases hq : q = p
    · subst hq
      rw [Function.update_same] at hv
      cases hv
      show k ∈ (userChecksOf u).erase id ↔ _
      rw [(h3 q u hu).mem_erase_iff, h2 q u hu k]
      by_cases hkid : k = id
      · subst hkid
        rw [Function.update_same]
        simp
      · rw [Function.update_noteq hkid]
        simp [hkid]
    · rw [Function.update_noteq hq] at hv
      rw [h2 q v hv k]
      by_cases hkid : k = id
      · subst hkid
        rw [Function.update_same, hc]
        constructor
        · rintro ⟨c1, hc1, ho⟩
          cases hc1
          exact absurd (ho.symm.trans hown) hq
        · rintro ⟨c1, hc1, -⟩; cases hc1
      · rw [Function.update_noteq hkid]
  · intro q v hv
    rw [htu] at hv
    by_cases hq : q = p
    · subst hq
      rw [Function.update_same] at hv
      cases hv
      exact (h3 q u hu).erase id
    · rw [Function.update_noteq hq] at hv
      exact h3 q v hv

theorem users_post_integrity (env : Env) (data : Request) (s : Store)
    (h : integrity s) : integrity (_users.post env data s).store := by
  unfold _users.post
  simp only []
  repeat' split
  all_goals first
    | exact h
    | skip
  obtain ⟨hio, hnone, rfl⟩ := dataCreate_some ‹dataCreate _ _ _ _ = some _›
  obtain ⟨h1, h2, h3⟩ := h
  have hno : ∀ k c, s.checks k = some c →
      c.userPhone ≠ trimmedOfLength 10 (data.payload "phone") := by
    intro k c hk hp
    obtain ⟨u, hu⟩ := h1 k c hk
    rw [hp, hnone] at hu
    cases hu
  refine ⟨?_, ?_, ?_⟩
  · intro k c hk
    obtain ⟨u, hu⟩ := h1 k c hk
    refine ⟨u, ?_⟩
    show Function.update s.users _ _ c.userPhone = some u
    rw [Function.update_noteq (hno k c hk)]
    exact hu
  · intro p v hv k
    change Function.update s.users _ _ p = some v at hv
    by_cases hp : p = trimmedOfLength 10 (data.payload "phone")
    · subst hp
      rw [Function.update_same] at hv
      cases hv
      constructor
      · intro hk; cases hk
      · rintro ⟨c, hc, ho⟩
        exact absurd ho (hno k c hc)
    · rw [Function.update_noteq hp] at hv
      exact h2 p v hv k
  · intro p v hv
    change Function.update s.users _ _ p = some v at hv
    by_cases hp : p = trimmedOfLength 10 (data.payload "phone")
    · subst hp
      rw [Function.update_same] at hv
      cases hv
      exact List.nodup_nil
    · rw [Function.update_noteq hp] at hv
      exact h3 p v hv

theorem users_get_integrity (env : Env) (data : Request) (s : Store)
    (h : integrity s) : integrity (_users.get env data s).store := by
  unfold _users.get
  simp only []
  repeat' split
  all_goals exact h

theorem users_put_integrity (env : Env) (data : Request) (s : Store)
    (h : integrity s) : integrity (_users.put env data s).store := by
  unfold _users.put
  simp only []
  repeat' split
  all_goals first
    | exact h
    | skip
  obtain ⟨-, -, rfl⟩ := dataUpdate_some ‹dataUpdate _ _ _ _ = some _›
  have hr := (dataRead_some ‹dataRead _ s.users _ = some _›).2
  refine @integrity_of_same_links s _ ?_ (fun _ => rfl) h
  intro p
  show (Function.update s.users _ _ p).map userChecksOf = _
  by_cases hp : p = trimmedOfLength 10 (data.payload "phone")
  · subst hp
    rw [Function.update_same, hr]
    rfl
  · rw [Function.update_noteq hp]

theorem users_delete_integrity (env : Env) (hrel : env.reliable) (data : Request) (s : Store)
    (h : integrity s) : integrity (_users.delete env data s).store := by
  unfold _users.delete
  simp only [hrel _, dataRead_reliable]
  split
  · split
    · cases hu : s.users (queryOfLength 10 (data.queryStringObject "phone")) with
      | none => exact h
      | some u =>
        simp only []
        cases hd : dataDelete false s.users (queryOfLength 10 (data.queryStringObject "phone")) with
        | none => exact h
        | some users =>
          obtain ⟨-, -, rfl⟩ := dataDelete_some hd
          simp only []
          split
          · refine integrity_delete_user hu ?_ ?_ h
            · exact (cascade_users env _ _ _).1
            · intro k
              exact cascade_checks env hrel _ _ _ k
          · rename_i hlen
            refine integrity_delete_user hu rfl ?_ h
            intro k
            have : userChecksOf u = [] := by
              cases hl : userChecksOf u with
              | nil => rfl
              | cons a b => rw [hl] at hlen; simp at hlen
            simp [this]
    · exact h
  · exact h

theorem checks_post_integrity (env : Env) (hrel : env.reliable) (data : Request) (s : Store)
    (h : integrity s) : integrity (_checks.post env data s).store := by
  unfold _checks.post
  simp only [hrel _, dataRead_reliable]
  split
  · cases ht : s.tokens (headerToken data) with
    | none => exact h
    | some t =>
      simp only []
      split
      · cases hu : s.users t.phone with
        | none => exact h
        | some u =>
          simp only []
          split
          · cases hc : dataCreate false s.checks (env.createRandomString 20)
              ⟨env.createRandomString 20, t.phone, protocolOf (data.payload "protocol"),
                trimmedString (data.payload "url"), methodOf (data.payload "method"),
                successCodesOf (data.payload "successCodes"),
                timeoutSecondsOf (data.payload "timeoutSeconds")⟩ with
            | none => exact h
            | some checks =>
              obtain ⟨-, hnew, rfl⟩ := dataCreate_some hc
              simp only []
              cases hup : dataUpdate false s.users t.phone
                { u with checks := some (userChecksOf u ++ [env.createRandomString 20]) } with
              | none =>
                have := dataUpdate_none hup
                rw [hu] at this
                cases this
              | some users =>
                obtain ⟨-, -, rfl⟩ := dataUpdate_some hup
                exact integrity_add_check hu hnew rfl rfl rfl h
          · exact h
      · exact h
  · exact h

theorem checks_get_integrity (env : Env) (data : Request) (s : Store)
    (h : integrity s) : integrity (_checks.get env data s).store := by
  unfold _checks.get
  simp only []
  repeat' split
  all_goals exact h

theorem checks_put_integrity (env : Env) (data : Request) (s : Store)
    (h : integrity s) : integrity (_checks.put env data s).store := by
  unfold _checks.put
  simp only []
  repeat' split
  all_goals first
    | exact h
    | skip
  obtain ⟨-, -, rfl⟩ := dataUpdate_some ‹dataUpdate _ _ _ _ = some _›
  have hr := (dataRead_some ‹dataRead _ s.checks _ = some _›).2
  refine @integrity_of_same_links s _ (fun _ => rfl) ?_ h
  intro k
  show (Function.update s.checks _ _ k).map Check.userPhone = _
  by_cases hk : k = trimmedOfLength 20 (data.payload "id")
  · subst hk
    rw [Function.update_same, hr]
    rfl
  · rw [Function.update_noteq hk]

theorem checks_delete_integrity (env : Env) (hrel : env.reliable) (data : Request) (s : Store)
    (h : integrity s) : integrity (_checks.delete env data s).store := by
  unfold _checks.delete
  simp only [hrel _, dataRead_reliable]
  split
  · cases hc : s.checks (queryOfLength 20 (data.queryStringObject "id")) with
    | none => exact h
    | some c =>
      simp only []
      split
      · cases hd : dataDelete false s.checks (queryOfLength 20 (data.queryStringObject "id")) with
        | none => exact h
        | some checks =>
          obtain ⟨-, -, rfl⟩ := dataDelete_some hd
          simp only []
          obtain ⟨u, hu⟩ := h.1 _ c hc
          simp only [hu]
          have hin : queryOfLength 20 (data.queryStringObject "id") ∈ userChecksOf u :=
            (h.2.1 _ u hu _).2 ⟨c, hc, rfl⟩
          simp only [hin, if_true]
          cases hup : dataUpdate false s.users c.userPhone
            { u with checks := some ((userChecksOf u).erase
              (queryOfLength 20 (data.queryStringObject "id"))) } with
          | none =>
            have := dataUpdate_none hup
            rw [hu] at this
            cases this
          | some users =>
            obtain ⟨-, -, rfl⟩ := dataUpdate_some hup
            exact integrity_remove_check hu hc rfl rfl rfl h
      · exact h
  · exact h

/-- Claim C3: referential integrity (I1, I2 with the ids being the keys of
the `checks` collection, and no duplicate in a list) is kept by every handler
operation on a store whose operations fail only for key-exists and key-absent
reasons. -/
theorem integrity_step (env : Env) (hrel : env.reliable) (route : Route) (data : Request)
    (s : Store) (h : integrity s) : integrity (step env route data s).store := by
  cases route
  · simp only [step, handlers.users]
    repeat' split
    · exact users_post_integrity env data s h
    · exact users_get_integrity env data s h
    · exact users_put_integrity env data s h
    · exact users_delete_integrity env hrel data s h
    · exact h
  · exact integrity_of_eq (tokens_users_eq env data s).1 (tokens_users_eq env data s).2 h
  · simp only [step, handlers.checks]
    repeat' split
    · exact checks_post_integrity env hrel data s h
    · exact checks_get_integrity env data s h
    · exact checks_put_integrity env data s h
    · exact checks_delete_integrity env hrel data s h
    · exact h

/-- Claim C3 at the creation of a second check in `demoStore`. -/
theorem integrity_step_witness :
    env0.reliable ∧ integrity demoStore ∧
      integrity (step env0 .checks postCheck demoStore).store :=
  ⟨fun _ => rfl, demoStore_integrity,
    integrity_step env0 (fun _ => rfl) .checks postCheck demoStore demoStore_integrity⟩

/-! ## The quota -/

theorem quotaOk_of_users_eq {m : Nat} {s t : Store} (h : t.users = s.users)
    (hq : quotaOk m s) : quotaOk m t := by
  intro p u hu
  rw [h] at hu
  exact hq p u hu

theorem quotaOk_update {m : Nat} {s t : Store} {k : String} {v : Option User}
    (h : t.users = Function.update s.users k v)
    (hv : ∀ u, v = some u → (userChecksOf u).length ≤ m)
    (hq : quotaOk m s) : quotaOk m t := by
  intro p u hu
  rw [h] at hu
  by_cases hp : p = k
  · subst hp
    rw [Function.update_same] at hu
    exact hv u hu
  · rw [Function.update_noteq hp] at hu
    exact hq p u hu

theorem users_post_quota (env : Env) (data : Request) (s : Store)
    (hq : quotaOk env.maxChecks s) : quotaOk env.maxChecks (_users.post env data s).store := by
  unfold _users.post
  simp only []
  repeat' split
  all_goals first
    | exact hq
    | (obtain ⟨-, -, rfl⟩ := dataCreate_some ‹dataCreate _ _ _ _ = some _›
       refine quotaOk_update rfl ?_ hq
       intro u hu
       cases hu
       simp [userChecksOf])

theorem users_get_quota (env : Env) (data : Request) (s : Store)
    (hq : quotaOk env.maxChecks s) : quotaOk env.maxChecks (_users.get env data s).store := by
  unfold _users.get
  simp only []
  repeat' split
  all_goals exact hq

theorem users_put_quota (env : Env) (data : Request) (s : Store)
    (hq : quotaOk env.maxChecks s) : quotaOk env.maxChecks (_users.put env data s).store := by
  unfold _users.put
  simp only []
  repeat' split
  all_goals first
    | exact hq
    | (obtain ⟨-, -, rfl⟩ := dataUpdate_some ‹dataUpdate _ _ _ _ = some _›
       refine quotaOk_update rfl ?_ hq
       intro u1 hu
       cases hu
       have h1 := hq _ _ (dataRead_some ‹dataRead _ s.users _ = some _›).2
       exact h1)

theorem users_delete_quota (env : Env) (data : Request) (s : Store)
    (hq : quotaOk env.maxChecks s) : quotaOk env.maxChecks (_users.delete env data s).store := by
  unfold _users.delete
  simp only []
  repeat' split
  all_goals first
    | exact hq
    | (obtain ⟨-, -, rfl⟩ := dataDelete_some ‹dataDelete _ _ _ = some _›
       refine quotaOk_of_users_eq (cascade_users env _ _ _).1 ?_
       exact quotaOk_update rfl (by intro u hu; cases hu) hq)
    | (obtain ⟨-, -, rfl⟩ := dataDelete_some ‹dataDelete _ _ _ = some _›
       exact quotaOk_update rfl (by intro u hu; cases hu) hq)

theorem checks_post_quota (env : Env) (data : Request) (s : Store)
    (hq : quotaOk env.maxChecks s) : quotaOk env.maxChecks (_checks.post env data s).store := by
  unfold _checks.post
  simp only []
  repeat' split
  all_goals first
    | exact hq
    | exact quotaOk_of_users_eq rfl hq
    | (obtain ⟨-, -, rfl⟩ := dataUpdate_some ‹dataUpdate _ _ _ _ = some _›
       refine quotaOk_update rfl ?_ hq
       intro u1 hu
       cases hu
       have hlt := ‹(userChecksOf _).length < env.maxChecks›
       show (userChecksOf _ ++ [_]).length ≤ env.maxChecks
       rw [List.length_append, List.length_singleton]
       omega)

theorem checks_get_quota (env : Env) (data : Request) (s : Store)
    (hq : quotaOk env.maxChecks s) : quotaOk env.maxChecks (_checks.get env data s).store := by
  unfold _checks.get
  simp only []
  repeat' split
  all_goals exact hq

theorem checks_put_quota (env : Env) (data : Request) (s : Store)
    (hq : quotaOk env.maxChecks s) : quotaOk env.maxChecks (_checks.put env data s).store := by
  unfold _checks.put
  simp only []
  repeat' split
  all_goals exact hq

theorem checks_delete_quota (env : Env) (data : Request) (s : Store)
    (hq : quotaOk env.maxChecks s) : quotaOk env.maxChecks (_checks.delete env data s).store := by
  unfold _checks.delete
  simp only []
  repeat' split
  all_goals first
    | exact hq
    | exact quotaOk_of_users_eq rfl hq
    | (obtain ⟨-, -, rfl⟩ := dataUpdate_some ‹dataUpdate _ _ _ _ = some _›
       refine quotaOk_update rfl ?_ hq
       intro u1 hu
       cases hu
       have h1 := hq _ _ (dataRead_some ‹dataRead _ s.users _ = some _›).2
       show ((userChecksOf _).erase _).length ≤ env.maxChecks
       exact le_trans (List.length_erase_le _ _) h1)

/-- Claim C4: if every user's `checks` list has length at most
`config.maxChecks`, the same holds after every handler operation, whatever the
storage faults. -/
theorem quota_step (env : Env) (route : Route) (data : Request) (s : Store)
    (hq : quotaOk env.maxChecks s) : quotaOk env.maxChecks (step env route data s).store := by
  cases route
  · simp only [step, handlers.users]
    repeat' split
    · exact users_post_quota env data s hq
    · exact users_get_quota env data s hq
    · exact users_put_quota env data s hq
    · exact users_delete_quota env data s hq
    · exact hq
  · exact quotaOk_of_users_eq (tokens_users_eq env data s).1 hq
  · simp only [step, handlers.checks]
    repeat' split
    · exact checks_post_quota env data s hq
    · exact checks_get_quota env data s hq
    · exact checks_put_quota env data s hq
    · exact checks_delete_quota env data s hq
    · exact hq

/-- Claim C4 at the creation of a second check in `demoStore`. -/
theorem quota_step_witness :
    quotaOk env0.maxChecks demoStore ∧
      quotaOk env0.maxChecks (step env0 .checks postCheck demoStore).store :=
  ⟨demoStore_quota 5 (by decide),
    quota_step env0 .checks postCheck demoStore (demoStore_quota 5 (by decide))⟩

theorem validCheckPayload_passes (data : Request) (h : validCheckPayload data) :
    protocolOf (data.payload "protocol") ≠ "" ∧ trimmedString (data.payload "url") ≠ "" ∧
      methodOf (data.payload "method") ≠ "" ∧
      (successCodesOf (data.payload "successCodes")).length > 0 ∧
      timeoutSecondsOf (data.payload "timeoutSeconds") ≠ 0 := by
  obtain ⟨⟨x1, h1, hx1⟩, ⟨x2, h2, hx2⟩, ⟨x3, h3, hx3⟩, ⟨xs, h4, hxs⟩, ⟨n, h5, hn1, hn5⟩⟩ := h
  rw [h1, h2, h3, h4, h5]
  refine ⟨?_, ?_, ?_, ?_, ?_⟩
  · rcases hx1 with rfl | rfl <;> decide
  · exact hx2
  · rcases hx3 with rfl | rfl | rfl | rfl <;> decide
  · cases xs with
    | nil => exact absurd rfl hxs
    | cons a b => simp [successCodesOf]
  · have hi : (n : ℚ).isInt = true := by simp [Rat.isInt]
    have h1 : (1 : ℚ) ≤ (n : ℚ) := by exact_mod_cast hn1
    have h5 : (n : ℚ) ≤ 5 := by exact_mod_cast hn5
    have hne : (n : ℚ) ≠ 0 := by
      have : n ≠ 0 := by omega
      exact_mod_cast this
    simp only [timeoutSecondsOf, hi, h1, h5, and_self, if_true]
    exact hne

/-- Claim C5: for a valid check payload and an unexpired token whose user
exists, on a reliable store, if the user's `checks` list has length at least
`config.maxChecks` then `handlers._checks.post` answers 400 with the quota
message and leaves the whole store unchanged. -/
theorem checks_post_at_quota (env : Env) (hrel : env.reliable) (data : Request) (s : Store)
    (t : Token) (u : User) (hvalid : validCheckPayload data)
    (ht : s.tokens (headerToken data) = some t) (hexp : t.expires > env.now)
    (hu : s.users t.phone = some u) (hfull : (userChecksOf u).length ≥ env.maxChecks) :
    _checks.post env data s = ⟨[quotaExceeded env.maxChecks], s⟩ := by
  have hp := validCheckPayload_passes data hvalid
  have hnot : ¬ (userChecksOf u).length < env.maxChecks := by omega
  unfold _checks.post
  simp only [hrel _, dataRead_reliable, hp, ne_eq, not_false_eq_true, and_self, if_true, ht,
    hexp, hu, hnot, if_false, quotaExceeded]

/-- Claim C5 at `demoStore` with `config.maxChecks = 1`. -/
theorem checks_post_at_quota_witness :
    env1.reliable ∧ validCheckPayload postCheck ∧
    demoStore.tokens (headerToken postCheck) = some tokenT ∧ tokenT.expires > env1.now ∧
    demoStore.users tokenT.phone = some ann ∧ (userChecksOf ann).length ≥ env1.maxChecks ∧
    _checks.post env1 postCheck demoStore = ⟨[quotaExceeded env1.maxChecks], demoStore⟩ :=
  ⟨fun _ => rfl, postCheck_valid, rfl, by decide, rfl, by decide,
    checks_post_at_quota env1 (fun _ => rfl) postCheck demoStore tokenT ann postCheck_valid rfl
      (by decide) rfl (by decide)⟩

/-! ## Creation and deletion of a check -/

/-- Claim C6: when `handlers._checks.post` answers 200, the returned check
has the generated id, which was not a key of `checks` and has 20 characters
(given that `helpers.createRandomString(20)` yields 20 characters), its
`userPhone` is the phone of the presented token, its other fields are the
validated payload values; `checks` is the old collection plus this record; the
owner's list is the old list with the id appended, the owner's other fields,
the other users and the tokens being unchanged. -/
theorem checks_post_success (env : Env) (data : Request) (s : Store) (r : Response)
    (hgen : jsLength (env.createRandomString 20) = 20)
    (hr : r ∈ (_checks.post env data s).calls) (h200 : r.status = 200) :
    ∃ t u, s.tokens (headerToken data) = some t ∧ s.users t.phone = some u ∧
      (_checks.post env data s).calls = [r] ∧
      r.body = .check (newCheck env data t.phone) ∧
      jsLength (newCheck env data t.phone).id = 20 ∧
      s.checks (newCheck env data t.phone).id = none ∧
      (newCheck env data t.phone).userPhone = t.phone ∧
      (_checks.post env data s).store.checks =
        Function.update s.checks (newCheck env data t.phone).id
          (some (newCheck env data t.phone)) ∧
      (_checks.post env data s).store.users =
        Function.update s.users t.phone
          (some { u with checks := some (userChecksOf u ++ [(newCheck env data t.phone).id]) }) ∧
      (_checks.post env data s).store.tokens = s.tokens := by
  revert hr
  unfold _checks.post
  simp only []
  repeat' split
  all_goals first
    | (intro hr
       simp only [List.mem_singleton] at hr
       subst hr
       simp at h200
       done)
    | skip
  intro hr
  simp only [List.mem_singleton] at hr
  subst hr
  obtain ⟨-, hnew, rfl⟩ := dataCreate_some ‹dataCreate _ s.checks _ _ = some _›
  obtain ⟨-, -, rfl⟩ := dataUpdate_some ‹dataUpdate _ s.users _ _ = some _›
  have ht := (dataRead_some ‹dataRead _ s.tokens _ = some _›).2
  have hu := (dataRead_some ‹dataRead _ s.users _ = some _›).2
  exact ⟨_, _, ht, hu, rfl, rfl, hgen, hnew, rfl, rfl, rfl, rfl⟩

/-- Claim C6 at the creation of a second check in `demoStore`. -/
theorem checks_post_success_witness :
    jsLength (env0.createRandomString 20) = 20 ∧
    (⟨200, .check (newCheck env0 postCheck "5551234567")⟩ : Response) ∈
      (_checks.post env0 postCheck demoStore).calls ∧
    ∃ t u, demoStore.tokens (headerToken postCheck) = some t ∧
      demoStore.users t.phone = some u ∧
      (_checks.post env0 postCheck demoStore).calls =
        [⟨200, .check (newCheck env0 postCheck "5551234567")⟩] ∧
      Body.check (newCheck env0 postCheck "5551234567") =
        .check (newCheck env0 postCheck t.phone) ∧
      jsLength (newCheck env0 postCheck t.phone).id = 20 ∧
      demoStore.checks (newCheck env0 postCheck t.phone).id = none ∧
      (newCheck env0 postCheck t.phone).userPhone = t.phone ∧
      (_checks.post env0 postCheck demoStore).store.checks =
        Function.update demoStore.checks (newCheck env0 postCheck t.phone).id
          (some (newCheck env0 postCheck t.phone)) ∧
      (_checks.post env0 postCheck demoStore).store.users =
        Function.update demoStore.users t.phone
          (some { u with
            checks := some (userChecksOf u ++ [(newCheck env0 postCheck t.phone).id]) }) ∧
      (_checks.post env0 postCheck demoStore).store.tokens = demoStore.tokens :=
  ⟨by decide, List.Mem.head _,
    checks_post_success env0 postCheck demoStore
      ⟨200, .check (newCheck env0 postCheck "5551234567")⟩ (by decide) (List.Mem.head _) rfl⟩

/-- Claim C7: on a store whose `checks` lists hold no duplicate (part of the
referential integrity every handler operation keeps), when
`handlers._checks.delete` answers 200 for the check id `c` owned by `u`:
afterwards `c` is not a key of `checks` and every other check is unchanged;
the old list of `u` held `c`, the new list does not, and it is the old list
with that one entry removed, the other ids kept in order; the other fields of
`u`, every other user and all tokens are unchanged. -/
theorem checks_delete_removes (env : Env) (data : Request) (s : Store) (r : Response)
    (hnd : noDuplicates s)
    (hr : r ∈ (_checks.delete env data s).calls) (h200 : r.status = 200) :
    ∃ c u, s.checks (queryOfLength 20 (data.queryStringObject "id")) = some c ∧
      s.users c.userPhone = some u ∧
      (_checks.delete env data s).calls = [r] ∧
      (_checks.delete env data s).store.checks
        (queryOfLength 20 (data.queryStringObject "id")) = none ∧
      (_checks.delete env data s).store.checks =
        Function.update s.checks (queryOfLength 20 (data.queryStringObject "id")) none ∧
      queryOfLength 20 (data.queryStringObject "id") ∈ userChecksOf u ∧
      (_checks.delete env data s).store.users =
        Function.update s.users c.userPhone
          (some { u with checks := some ((userChecksOf u).erase
            (queryOfLength 20 (data.queryStringObject "id"))) }) ∧
      queryOfLength 20 (data.queryStringObject "id") ∉
        (userChecksOf u).erase (queryOfLength 20 (data.queryStringObject "id")) ∧
      (userChecksOf u).erase (queryOfLength 20 (data.queryStringObject "id")) =
        (userChecksOf u).filter
          (fun k => k != queryOfLength 20 (data.queryStringObject "id")) ∧
      (∃ l1 l2, userChecksOf u =
          l1 ++ queryOfLength 20 (data.queryStringObject "id") :: l2 ∧
        (userChecksOf u).erase (queryOfLength 20 (data.queryStringObject "id")) = l1 ++ l2) ∧
      (_checks.delete env data s).store.tokens = s.tokens := by
  revert hr
  unfold _checks.delete
  simp only []
  repeat' split
  all_goals first
    | (intro hr
       simp only [List.mem_singleton] at hr
       subst hr
       simp [invalidToken] at h200
       done)
    | skip
  intro hr
  simp only [List.mem_singleton] at hr
  subst hr
  obtain ⟨-, -, rfl⟩ := dataDelete_some ‹dataDelete _ s.checks _ = some _›
  obtain ⟨-, -, rfl⟩ := dataUpdate_some ‹dataUpdate _ s.users _ _ = some _›
  have hc := (dataRead_some ‹dataRead _ s.checks _ = some _›).2
  have hu := (dataRead_some ‹dataRead _ s.users _ = some _›).2
  have hmem := ‹queryOfLength 20 (data.queryStringObject "id") ∈ userChecksOf _›
  have hn := hnd _ _ hu
  obtain ⟨l1, l2, -, h1, h2⟩ := List.exists_erase_eq hmem
  exact ⟨_, _, hc, hu, rfl, Function.update_same _ _ _, rfl, hmem, rfl,
    hn.not_mem_erase, hn.erase_eq_filter _, ⟨l1, l2, h1, h2⟩, rfl⟩

/-- Claim C7 at the deletion of the check `a...a` of `demoStore`. -/
theorem checks_delete_removes_witness :
    noDuplicates demoStore ∧
    (⟨200, .none⟩ : Response) ∈ (_checks.delete env0 deleteA demoStore).calls ∧
    ∃ c u, demoStore.checks (queryOfLength 20 (deleteA.queryStringObject "id")) = some c ∧
      demoStore.users c.userPhone = some u ∧
      (_checks.delete env0 deleteA demoStore).calls = [⟨200, .none⟩] ∧
      (_checks.delete env0 deleteA demoStore).store.checks
        (queryOfLength 20 (deleteA.queryStringObject "id")) = none ∧
      (_checks.delete env0 deleteA demoStore).store.checks =
        Function.update demoStore.checks (queryOfLength 20 (deleteA.queryStringObject "id")) none ∧
      queryOfLength 20 (deleteA.queryStringObject "id") ∈ userChecksOf u ∧
      (_checks.delete env0 deleteA demoStore).store.users =
        Function.update demoStore.users c.userPhone
          (some { u with checks := some ((userChecksOf u).erase
            (queryOfLength 20 (deleteA.queryStringObject "id"))) }) ∧
      queryOfLength 20 (deleteA.queryStringObject "id") ∉
        (userChecksOf u).erase (queryOfLength 20 (deleteA.queryStringObject "id")) ∧
      (userChecksOf u).erase (queryOfLength 20 (deleteA.queryStringObject "id")) =
        (userChecksOf u).filter
          (fun k => k != queryOfLength 20 (deleteA.queryStringObject "id")) ∧
      (∃ l1 l2, userChecksOf u =
          l1 ++ queryOfLength 20 (deleteA.queryStringObject "id") :: l2 ∧
        (userChecksOf u).erase (queryOfLength 20 (deleteA.queryStringObject "id")) = l1 ++ l2) ∧
      (_checks.delete env0 deleteA demoStore).store.tokens = demoStore.tokens :=
  ⟨demoStore_integrity.2.2, List.Mem.head _,
    checks_delete_removes env0 deleteA demoStore ⟨200, .none⟩ demoStore_integrity.2.2
      (List.Mem.head _) rfl⟩

/-! ## Deletion of a user -/

theorem checks_get_missing (env : Env) (data : Request) (s : Store)
    (hid : queryOfLength 20 (data.queryStringObject "id") ≠ "")
    (h : s.checks (queryOfLength 20 (data.queryStringObject "id")) = none) :
    _checks.get env data s = ⟨[⟨404, .none⟩], s⟩ := by
  unfold _checks.get dataRead
  simp only [hid, ne_eq, not_false_eq_true, if_true, h]
  cases env.ioFail 0 <;> rfl

/-- The effect of an authorized `handlers._users.delete` on a reliable store. -/
theorem users_delete_effect (env : Env) (hrel : env.reliable) (data : Request) (s : Store)
    (u : User)
    (hu : s.users (queryOfLength 10 (data.queryStringObject "phone")) = some u)
    (htok : _tokens.verifyToken env false s (headerToken data)
      (queryOfLength 10 (data.queryStringObject "phone")) = true) :
    (_users.delete env data s).store.users =
      Function.update s.users (queryOfLength 10 (data.queryStringObject "phone")) none ∧
    (_users.delete env data s).store.tokens = s.tokens ∧
    (∀ k, (_users.delete env data s).store.checks k =
      if k ∈ userChecksOf u then none else s.checks k) ∧
    (_users.delete env data s).calls =
      [if false ∈ cascadeOutcomes env (userChecksOf u).length
          (cascadeStart s (Function.update s.users
            (queryOfLength 10 (data.queryStringObject "phone")) none)) (userChecksOf u)
        then cascadeFailure else ⟨200, .none⟩] := by
  have hne : queryOfLength 10 (data.queryStringObject "phone") ≠ "" := by
    intro h0
    rw [h0] at htok
    simp [_tokens.verifyToken] at htok
  have hd : dataDelete false s.users (queryOfLength 10 (data.queryStringObject "phone")) =
      some (Function.update s.users (queryOfLength 10 (data.queryStringObject "phone")) none) := by
    simp [dataDelete, hu]
  unfold _users.delete
  simp only [hrel _, dataRead_reliable, hne, ne_eq, not_false_eq_true, if_true, htok, hu, hd]
  split
  · rename_i hpos
    obtain ⟨-, f2, -, f4⟩ := cascade_fields env (userChecksOf u).length (userChecksOf u)
      (cascadeStart s (Function.update s.users
        (queryOfLength 10 (data.queryStringObject "phone")) none))
    have hnil : userChecksOf u ≠ [] := by
      intro h0; rw [h0] at hpos; simp at hpos
    refine ⟨(cascade_users env _ _ _).1, (cascade_users env _ _ _).2, ?_, ?_⟩
    · intro k
      exact cascade_checks env hrel _ _ _ k
    · have h4 := f4 hnil (by simp [cascadeStart])
      simp only [cascadeStart, List.nil_append] at h4 f2 ⊢
      rw [h4]
      simp only [f2, Bool.false_eq_true, false_or]
  · rename_i hpos
    have hnil : userChecksOf u = [] := by
      cases hl : userChecksOf u with
      | nil => rfl
      | cons a b => rw [hl] at hpos; simp at hpos
    simp [hnil, cascadeOutcomes]

/-- Claim C8: on a reliable store in which user `p` exists and the presented
token is valid for `p`, `handlers._users.delete` leaves `p` absent from `users`
(also when it answers 500) and every id of the list of `p` absent from
`checks`, so that a later checks get on such an id answers 404; `callback` is
invoked exactly once, with 200 or 500, and with 200 if and only if every
individual check deletion succeeded. -/
theorem users_delete_cascade (env : Env) (hrel : env.reliable) (data : Request) (s : Store)
    (p : String) (u : User)
    (hp : queryOfLength 10 (data.queryStringObject "phone") = p)
    (hu : s.users p = some u)
    (htok : _tokens.verifyToken env false s (headerToken data) p = true) :
    (_users.delete env data s).store.users p = none ∧
    (∀ k ∈ userChecksOf u, (_users.delete env data s).store.checks k = none) ∧
    (∀ k ∈ userChecksOf u, ∀ (env1 : Env) (data1 : Request),
      queryOfLength 20 (data1.queryStringObject "id") = k → k ≠ "" →
        (_checks.get env1 data1 (_users.delete env data s).store).calls = [⟨404, .none⟩]) ∧
    ∃ x, (_users.delete env data s).calls = [x] ∧ (x.status = 200 ∨ x.status = 500) ∧
      (x.status = 200 ↔
        ∀ b ∈ cascadeOutcomes env (userChecksOf u).length
          (cascadeStart s (Function.update s.users p none)) (userChecksOf u), b = true) := by
  subst hp
  obtain ⟨e1, -, e3, e4⟩ := users_delete_effect env hrel data s u hu htok
  have hgone : ∀ k ∈ userChecksOf u, (_users.delete env data s).store.checks k = none := by
    intro k hk
    rw [e3 k, if_pos hk]
  refine ⟨?_, hgone, ?_, ?_⟩
  · rw [e1, Function.update_same]
  · intro k hk env1 data1 hid hne
    subst hid
    rw [checks_get_missing env1 data1 _ hne (hgone _ hk)]
  · refine ⟨_, e4, ?_, ?_⟩
    · split
      · right; rfl
      · left; rfl
    · split
      · rename_i hf
        constructor
        · intro h; exact absurd h (by decide)
        · intro h; exact absurd (h false hf) (by decide)
      · rename_i hf
        constructor
        · intro _ b hb
          cases b
          · exact absurd hb hf
          · rfl
        · intro _; rfl

/-- Claim C8 at the deletion of the user of `demoStore`. -/
theorem users_delete_cascade_witness :
    env0.reliable ∧
    queryOfLength 10 (deleteAnn.queryStringObject "phone") = "5551234567" ∧
    demoStore.users "5551234567" = some ann ∧
    _tokens.verifyToken env0 false demoStore (headerToken deleteAnn) "5551234567" = true ∧
    (_users.delete env0 deleteAnn demoStore).store.users "5551234567" = none ∧
    (∀ k ∈ userChecksOf ann, (_users.delete env0 deleteAnn demoStore).store.checks k = none) ∧
    (∀ k ∈ userChecksOf ann, ∀ (env1 : Env) (data1 : Request),
      queryOfLength 20 (data1.queryStringObject "id") = k → k ≠ "" →
        (_checks.get env1 data1 (_users.delete env0 deleteAnn demoStore).store).calls =
          [⟨404, .none⟩]) ∧
    ∃ x, (_users.delete env0 deleteAnn demoStore).calls = [x] ∧
      (x.status = 200 ∨ x.status = 500) ∧
      (x.status = 200 ↔
        ∀ b ∈ cascadeOutcomes env0 (userChecksOf ann).length
          (cascadeStart demoStore (Function.update demoStore.users "5551234567" none))
          (userChecksOf ann), b = true) :=
  ⟨fun _ => rfl, by decide, rfl, by decide,
    users_delete_cascade env0 (fun _ => rfl) deleteAnn demoStore "5551234567" ann (by decide) rfl
      (by decide)⟩

/-- Claim C9 (amended): when `handlers._users.delete` is authorized, has read
and deleted the user, and at least one deletion of a listed check fails,
`callback` is invoked once with status 500 and the fixed message
`cascadeFailure`, which names no check id. -/
theorem users_delete_failure_response (env : Env) (data : Request) (s : Store) (u : User)
    (users : Coll User)
    (htok : _tokens.verifyToken env (env.ioFail 0) s (headerToken data)
      (queryOfLength 10 (data.queryStringObject "phone")) = true)
    (hu : dataRead (env.ioFail 1) s.users (queryOfLength 10 (data.queryStringObject "phone")) =
      some u)
    (hd : dataDelete (env.ioFail 2) s.users (queryOfLength 10 (data.queryStringObject "phone")) =
      some users)
    (hfail : false ∈ cascadeOutcomes env (userChecksOf u).length (cascadeStart s users)
      (userChecksOf u)) :
    (_users.delete env data s).calls = [cascadeFailure] := by
  have hne := verifyToken_phone_ne _ _ _ _ _ htok
  have hnil : userChecksOf u ≠ [] := by
    intro h0; rw [h0] at hfail; simp [cascadeOutcomes] at hfail
  have hpos : (userChecksOf u).length > 0 := List.length_pos.mpr hnil
  obtain ⟨-, f2, -, f4⟩ := cascade_fields env (userChecksOf u).length (userChecksOf u)
    (cascadeStart s users)
  have h4 := f4 hnil (by simp [cascadeStart])
  have h2 := f2.2 (Or.inr hfail)
  unfold _users.delete
  simp only [hne, ne_eq, not_false_eq_true, if_true, htok, hu, hd, hpos]
  simp only [cascadeStart, List.nil_append] at h4 h2
  rw [h4]
  simp only [h2, if_true]

/-- Claim C9 (amended) at a user listing two checks of which one exists. -/
theorem users_delete_failure_response_witness :
    _tokens.verifyToken env0 (env0.ioFail 0) (halfStore "aaaaaaaaaaaaaaaaaaaa")
      (headerToken deleteAnn) (queryOfLength 10 (deleteAnn.queryStringObject "phone")) = true ∧
    false ∈ cascadeOutcomes env0 2
      (cascadeStart (halfStore "aaaaaaaaaaaaaaaaaaaa")
        (Function.update (halfStore "aaaaaaaaaaaaaaaaaaaa").users "5551234567" none))
      ["aaaaaaaaaaaaaaaaaaaa", "bbbbbbbbbbbbbbbbbbbb"] ∧
    (_users.delete env0 deleteAnn (halfStore "aaaaaaaaaaaaaaaaaaaa")).calls = [cascadeFailure] :=
  ⟨by decide, by decide,
    users_delete_failure_response env0 deleteAnn (halfStore "aaaaaaaaaaaaaaaaaaaa")
      ⟨"Ann", "Lee", "5551234567", "#pw", true,
        some ["aaaaaaaaaaaaaaaaaaaa", "bbbbbbbbbbbbbbbbbbbb"]⟩
      (Function.update (halfStore "aaaaaaaaaaaaaaaaaaaa").users "5551234567" none)
      (by decide) (by decide) rfl (by decide)⟩

/-- Claim C9 as stated fails: two deletions of a user listing the checks
`a...a` and `b...b`, one in a store without `b...b` and one in a store without
`a...a`, invoke `callback` with the same arguments, so that no reading of the
response yields the ids whose deletion failed. -/
theorem users_delete_enumeration_counterexample :
    ¬ ∃ decode : List Response → List String,
      decode (_users.delete env0 deleteAnn (halfStore "aaaaaaaaaaaaaaaaaaaa")).calls =
        failedIds "aaaaaaaaaaaaaaaaaaaa" ∧
      decode (_users.delete env0 deleteAnn (halfStore "bbbbbbbbbbbbbbbbbbbb")).calls =
        failedIds "bbbbbbbbbbbbbbbbbbbb" := by
  rintro ⟨decode, h1, h2⟩
  have e : (_users.delete env0 deleteAnn (halfStore "aaaaaaaaaaaaaaaaaaaa")).calls =
      (_users.delete env0 deleteAnn (halfStore "bbbbbbbbbbbbbbbbbbbb")).calls := by
    rfl
  have f1 : failedIds "aaaaaaaaaaaaaaaaaaaa" = ["bbbbbbbbbbbbbbbbbbbb"] := by decide
  have f2 : failedIds "bbbbbbbbbbbbbbbbbbbb" = ["aaaaaaaaaaaaaaaaaaaa"] := by decide
  rw [e, h2, f1, f2] at h1
  revert h1
  decide

/-! ## Issue of a token -/

/-- Claim C10: for a phone of 10 characters and a non-empty password, on a
reliable store, `handlers._tokens.post` answers 400 and changes nothing when no
user has that phone, answers 401 and changes nothing when the digest of the
password differs from the stored `hashedPassword`, and otherwise (given that
`helpers.createRandomString(20)` yields a fresh id of 20 characters) stores and
returns the token `{ id, expires, phone }` bound to that phone. -/
theorem tokens_post_cases (env : Env) (hrel : env.reliable) (data : Request) (s : Store)
    (x w : String)
    (hphone : data.payload "phone" = .str x) (hlen : jsLength (jsTrim x) = 10)
    (hpw : data.payload "password" = .str w) (hne : jsTrim w ≠ "") :
    (s.users (jsTrim x) = none →
      _tokens.post env data s = ⟨[⟨400, .error "Could not find the specified user"⟩], s⟩) ∧
    (∀ u, s.users (jsTrim x) = some u → env.hash (jsTrim w) ≠ some u.hashedPassword →
      _tokens.post env data s =
        ⟨[⟨401, .error "Password did not match the specified user's stored password"⟩], s⟩) ∧
    (∀ u, s.users (jsTrim x) = some u → env.hash (jsTrim w) = some u.hashedPassword →
      jsLength (env.createRandomString 20) = 20 → s.tokens (env.createRandomString 20) = none →
      _tokens.post env data s =
        ⟨[⟨200, .token (newToken env (jsTrim x))⟩],
          ⟨s.users, Function.update s.tokens (newToken env (jsTrim x)).id
            (some (newToken env (jsTrim x))), s.checks⟩⟩ ∧
      (newToken env (jsTrim x)).phone = jsTrim x ∧
      jsLength (newToken env (jsTrim x)).id = 20) := by
  have hp : trimmedOfLength 10 (data.payload "phone") = jsTrim x := by
    simp [trimmedOfLength, hphone, hlen]
  have hw : trimmedString (data.payload "password") = jsTrim w := by
    simp [trimmedString, hpw]
  have hpne : jsTrim x ≠ "" := jsLength_ne_empty _ 10 (by decide) hlen
  refine ⟨?_, ?_, ?_⟩
  · intro hu
    unfold _tokens.post
    simp only [hrel _, dataRead_reliable, hp, hw, hpne, hne, ne_eq, not_false_eq_true, and_self,
      if_true, hu]
  · intro u hu hh
    unfold _tokens.post
    simp only [hrel _, dataRead_reliable, hp, hw, hpne, hne, ne_eq, not_false_eq_true, and_self,
      if_true, hu, hh, if_false]
  · intro u hu hh hgen hfresh
    refine ⟨?_, rfl, hgen⟩
    have hc : dataCreate false s.tokens (env.createRandomString 20) (newToken env (jsTrim x)) =
        some (Function.update s.tokens (env.createRandomString 20)
          (some (newToken env (jsTrim x)))) := by
      simp [dataCreate, hfresh]
    unfold _tokens.post
    simp only [hrel _, dataRead_reliable, hp, hw, hpne, hne, ne_eq, not_false_eq_true, and_self,
      if_true, hu, hh]
    simp only [newToken] at hc ⊢
    rw [hc]

/-- Claim C10 at a request of the user of `demoStore` with the right
password. -/
theorem tokens_post_cases_witness :
    env0.reliable ∧ loginAnn.payload "phone" = .str " 5551234567 " ∧
    jsLength (jsTrim " 5551234567 ") = 10 ∧ loginAnn.payload "password" = .str "pw" ∧
    jsTrim "pw" ≠ "" ∧ demoStore.users (jsTrim " 5551234567 ") = some ann ∧
    env0.hash (jsTrim "pw") = some ann.hashedPassword ∧
    jsLength (env0.createRandomString 20) = 20 ∧
    demoStore.tokens (env0.createRandomString 20) = none ∧
    _tokens.post env0 loginAnn demoStore =
      ⟨[⟨200, .token (newToken env0 (jsTrim " 5551234567 "))⟩],
        ⟨demoStore.users, Function.update demoStore.tokens
          (newToken env0 (jsTrim " 5551234567 ")).id
          (some (newToken env0 (jsTrim " 5551234567 "))), demoStore.checks⟩⟩ :=
  ⟨fun _ => rfl, rfl, by decide, rfl, by decide, by decide, by decide, by decide, by decide,
    ((tokens_post_cases env0 (fun _ => rfl) loginAnn demoStore " 5551234567 " "pw" rfl
      (by decide) rfl (by decide)).2.2 ann (by decide) (by decide) (by decide) (by decide)).1⟩

/-! ## Life of a token -/

/-- The effect of a successful `handlers._tokens.post`. -/
theorem tokens_post_success (env : Env) (data : Request) (s : Store) (r : Response)
    (hr : r ∈ (_tokens.post env data s).calls) (h200 : r.status = 200) :
    trimmedOfLength 10 (data.payload "phone") ≠ "" ∧
    (_tokens.post env data s).calls =
      [⟨200, .token (newToken env (trimmedOfLength 10 (data.payload "phone")))⟩] ∧
    r = ⟨200, .token (newToken env (trimmedOfLength 10 (data.payload "phone")))⟩ ∧
    (_tokens.post env data s).store.tokens =
      Function.update s.tokens (env.createRandomString 20)
        (some (newToken env (trimmedOfLength 10 (data.payload "phone")))) ∧
    (_tokens.post env data s).store.users = s.users ∧
    (_tokens.post env data s).store.checks = s.checks := by
  revert hr
  unfold _tokens.post
  simp only []
  repeat' split
  all_goals first
    | (intro hr
       simp only [List.mem_singleton] at hr
       subst hr
       simp at h200
       done)
    | skip
  intro hr
  simp only [List.mem_singleton] at hr
  subst hr
  obtain ⟨-, -, rfl⟩ := dataCreate_some ‹dataCreate _ s.tokens _ _ = some _›
  have hne := (‹trimmedOfLength 10 (data.payload "phone") ≠ "" ∧ _›).1
  exact ⟨hne, rfl, rfl, rfl, rfl, rfl⟩

/-- Claim C11: the token a successful `handlers._tokens.post` returns at time
`t` for the phone `p` is bound to `p`, has `expires = t + 3600000`, is stored
under its id, and, on the store the handler leaves, `verifyToken(token.id, p)`
is true at every time from `t` to before `t + 3600000` (the read not failing)
and false at every time from `t + 3600000` on; the id is not empty given that
`helpers.createRandomString(20)` yields 20 characters. -/
theorem token_lifecycle (env : Env) (data : Request) (s : Store) (r : Response)
    (hgen : jsLength (env.createRandomString 20) = 20)
    (hr : r ∈ (_tokens.post env data s).calls) (h200 : r.status = 200) :
    ∃ token, r.body = .token token ∧
      token.phone = trimmedOfLength 10 (data.payload "phone") ∧
      token.expires = env.now + 3600000 ∧
      (_tokens.post env data s).store.tokens token.id = some token ∧
      (∀ later : Env, env.now ≤ later.now → later.now < env.now + 3600000 →
        _tokens.verifyToken later false (_tokens.post env data s).store token.id token.phone =
          true) ∧
      (∀ (later : Env) (io : Bool), env.now + 3600000 ≤ later.now →
        _tokens.verifyToken later io (_tokens.post env data s).store token.id token.phone =
          false) := by
  obtain ⟨hne, -, rfl, ht, -, -⟩ := tokens_post_success env data s r hr h200
  have hid : env.createRandomString 20 ≠ "" := jsLength_ne_empty _ 20 (by decide) hgen
  have hstored : (_tokens.post env data s).store.tokens (env.createRandomString 20) =
      some (newToken env (trimmedOfLength 10 (data.payload "phone"))) := by
    rw [ht, Function.update_same]
  refine ⟨_, rfl, rfl, by simp [newToken], hstored, ?_, ?_⟩
  · intro later _ h2
    unfold _tokens.verifyToken
    simp only [newToken, hid, hne, or_self, if_false, dataRead_reliable]
    simp only [newToken] at hstored
    rw [hstored]
    simpa using h2
  · intro later io h1
    unfold _tokens.verifyToken dataRead
    simp only [newToken, hid, hne, or_self, if_false]
    simp only [newToken] at hstored
    cases io
    · simp only [Bool.false_eq_true, if_false]
      rw [hstored]
      simpa using h1
    · simp

/-- Claim C11 at the token issued to the user of `demoStore`. -/
theorem token_lifecycle_witness :
    jsLength (env0.createRandomString 20) = 20 ∧
    (⟨200, .token (newToken env0 "5551234567")⟩ : Response) ∈
      (_tokens.post env0 loginAnn demoStore).calls ∧
    ∃ token, Body.token (newToken env0 "5551234567") = .token token ∧
      token.phone = trimmedOfLength 10 (loginAnn.payload "phone") ∧
      token.expires = env0.now + 3600000 ∧
      (_tokens.post env0 loginAnn demoStore).store.tokens token.id = some token ∧
      (∀ later : Env, env0.now ≤ later.now → later.now < env0.now + 3600000 →
        _tokens.verifyToken later false (_tokens.post env0 loginAnn demoStore).store
          token.id token.phone = true) ∧
      (∀ (later : Env) (io : Bool), env0.now + 3600000 ≤ later.now →
        _tokens.verifyToken later io (_tokens.post env0 loginAnn demoStore).store
          token.id token.phone = false) :=
  ⟨by decide, List.Mem.head _,
    token_lifecycle env0 loginAnn demoStore ⟨200, .token (newToken env0 "5551234567")⟩
      (by decide) (List.Mem.head _) rfl⟩

/-- Claim C12: for an id of 20 characters and `extend = true`, on a reliable
store, `handlers._tokens.put` answers 400 and changes nothing when the token is
absent, answers 400 and changes nothing when its `expires` is at most `now`,
and otherwise answers 200 and sets its `expires` to `now + 3600000`, its id, its
phone and every other record being unchanged. -/
theorem tokens_put_cases (env : Env) (hrel : env.reliable) (data : Request) (s : Store)
    (x : String)
    (hid : data.payload "id" = .str x) (hlen : jsLength (jsTrim x) = 20)
    (hext : data.payload "extend" = .bool true) :
    (s.tokens (jsTrim x) = none →
      _tokens.put env data s = ⟨[⟨400, .error "The specified token does not exist"⟩], s⟩) ∧
    (∀ t, s.tokens (jsTrim x) = some t → t.expires ≤ env.now →
      _tokens.put env data s =
        ⟨[⟨400, .error "The token has expired, and cannot be extended"⟩], s⟩) ∧
    (∀ t, s.tokens (jsTrim x) = some t → env.now < t.expires →
      _tokens.put env data s =
        ⟨[⟨200, .none⟩],
          ⟨s.users, Function.update s.tokens (jsTrim x)
            (some ⟨t.id, env.now + 3600000, t.phone⟩), s.checks⟩⟩) := by
  have hi : trimmedOfLength 20 (data.payload "id") = jsTrim x := by
    simp [trimmedOfLength, hid, hlen]
  have he : booleanOrFalse (data.payload "extend") = true := by
    simp [booleanOrFalse, hext]
  have hne : jsTrim x ≠ "" := jsLength_ne_empty _ 20 (by decide) hlen
  refine ⟨?_, ?_, ?_⟩
  · intro ht
    unfold _tokens.put
    simp only [hrel _, dataRead_reliable, hi, he, hne, ne_eq, not_false_eq_true, and_self,
      if_true, ht]
  · intro t ht hexp
    have : ¬ t.expires > env.now := by omega
    unfold _tokens.put
    simp only [hrel _, dataRead_reliable, hi, he, hne, ne_eq, not_false_eq_true, and_self,
      if_true, ht, this, if_false]
  · intro t ht hexp
    have hgt : t.expires > env.now := hexp
    have hu : ∀ r : Token, dataUpdate false s.tokens (jsTrim x) r =
        some (Function.update s.tokens (jsTrim x) (some r)) := by
      intro r
      simp [dataUpdate, ht]
    unfold _tokens.put
    simp only [hrel _, dataRead_reliable, hi, he, hne, ne_eq, not_false_eq_true, and_self,
      if_true, ht, hgt, hu]
    norm_num

/-- Claim C12 at the extension of the token of `demoStore`. -/
theorem tokens_put_cases_witness :
    env0.reliable ∧ extendT.payload "id" = .str "tttttttttttttttttttt" ∧
    jsLength (jsTrim "tttttttttttttttttttt") = 20 ∧ extendT.payload "extend" = .bool true ∧
    demoStore.tokens (jsTrim "tttttttttttttttttttt") = some tokenT ∧
    env0.now < tokenT.expires ∧
    _tokens.put env0 extendT demoStore =
      ⟨[⟨200, .none⟩],
        ⟨demoStore.users, Function.update demoStore.tokens (jsTrim "tttttttttttttttttttt")
          (some ⟨tokenT.id, env0.now + 3600000, tokenT.phone⟩), demoStore.checks⟩⟩ :=
  ⟨fun _ => rfl, rfl, by decide, rfl, by decide, by decide,
    (tokens_put_cases env0 (fun _ => rfl) extendT demoStore "tttttttttttttttttttt" rfl
      (by decide) rfl).2.2 tokenT (by decide) (by decide)⟩

/-- Claim C13: for an id of 20 characters, on a reliable store,
`handlers._tokens.delete` answers 400 and changes nothing when no token has
that id, and otherwise answers 200 and removes that token record alone, after
which `verifyToken(id, phone)` is false for every phone. -/
theorem tokens_delete_cases (env : Env) (hrel : env.reliable) (data : Request) (s : Store)
    (x : String)
    (hid : data.queryStringObject "id" = some x) (hlen : jsLength (jsTrim x) = 20) :
    (s.tokens (jsTrim x) = none →
      _tokens.delete env data s =
        ⟨[⟨400, .error "Could not find the specified token"⟩], s⟩) ∧
    (∀ t, s.tokens (jsTrim x) = some t →
      _tokens.delete env data s =
        ⟨[⟨200, .none⟩], ⟨s.users, Function.update s.tokens (jsTrim x) none, s.checks⟩⟩ ∧
      ∀ (later : Env) (io : Bool) (phone : String),
        _tokens.verifyToken later io (_tokens.delete env data s).store (jsTrim x) phone =
          false) := by
  have hi : queryOfLength 20 (data.queryStringObject "id") = jsTrim x := by
    simp [queryOfLength, hid, hlen]
  have hne : jsTrim x ≠ "" := jsLength_ne_empty _ 20 (by decide) hlen
  refine ⟨?_, ?_⟩
  · intro ht
    unfold _tokens.delete
    simp only [hrel _, dataRead_reliable, hi, hne, ne_eq, not_false_eq_true, if_true, ht]
  · intro t ht
    have hd : dataDelete false s.tokens (jsTrim x) =
        some (Function.update s.tokens (jsTrim x) none) := by
      simp [dataDelete, ht]
    have hres : _tokens.delete env data s =
        ⟨[⟨200, .none⟩], ⟨s.users, Function.update s.tokens (jsTrim x) none, s.checks⟩⟩ := by
      unfold _tokens.delete
      simp only [hrel _, dataRead_reliable, hi, hne, ne_eq, not_false_eq_true, if_true, ht, hd]
    refine ⟨hres, ?_⟩
    intro later io phone
    rw [hres]
    unfold _tokens.verifyToken dataRead
    split
    · rfl
    · cases io <;> simp

/-- Claim C13 at the deletion of the token of `demoStore`. -/
theorem tokens_delete_cases_witness :
    env0.reliable ∧ revokeT.queryStringObject "id" = some "tttttttttttttttttttt" ∧
    jsLength (jsTrim "tttttttttttttttttttt") = 20 ∧
    demoStore.tokens (jsTrim "tttttttttttttttttttt") = some tokenT ∧
    _tokens.delete env0 revokeT demoStore =
      ⟨[⟨200, .none⟩],
        ⟨demoStore.users, Function.update demoStore.tokens (jsTrim "tttttttttttttttttttt") none,
          demoStore.checks⟩⟩ ∧
    ∀ (later : Env) (io : Bool) (phone : String),
      _tokens.verifyToken later io (_tokens.delete env0 revokeT demoStore).store
        (jsTrim "tttttttttttttttttttt") phone = false :=
  ⟨fun _ => rfl, rfl, by decide, by decide,
    (tokens_delete_cases env0 (fun _ => rfl) revokeT demoStore "tttttttttttttttttttt" rfl
      (by decide)).2 tokenT (by decide)⟩

/-! ## Creation and reading of a user -/

/-- Claim C14 (amended): when a user with phone `p` exists, on a reliable store,
a `handlers._users.post` request whose trimmed phone is `p` is answered 400
once and leaves the whole store unchanged; the error is the one of an existing
user when the required fields of the request are all filled out, and
`Missing required fields` when they are not. -/
theorem users_post_existing (env : Env) (hrel : env.reliable) (data : Request) (s : Store)
    (x : String) (u : User)
    (hphone : data.payload "phone" = .str x) (hu : s.users (jsTrim x) = some u) :
    (requiredUserFields data →
      _users.post env data s =
        ⟨[⟨400, .error "A user with that phone number already exists"⟩], s⟩) ∧
    (¬ requiredUserFields data →
      _users.post env data s = ⟨[⟨400, .error "Missing required fields"⟩], s⟩) := by
  constructor
  · intro hreq
    have hp : trimmedOfLength 10 (data.payload "phone") = jsTrim x := by
      rcases trimmedOfLength_eq 10 _ x hphone with h | h
      · exact h
      · exact absurd h hreq.2.2.1
    unfold requiredUserFields at hreq
    unfold _users.post
    simp only []
    rw [if_pos hreq]
    simp only [hrel _, dataRead_reliable, hp, hu]
  · intro hreq
    unfold requiredUserFields at hreq
    unfold _users.post
    simp only []
    rw [if_neg hreq]

/-- Claim C14 (amended) at a second creation of the user of `demoStore`: the
complete request `signup "5551234567"` is answered that the user exists, the
request `signupNoName` that fields are missing. -/
theorem users_post_existing_witness :
    env0.reliable ∧ (signup "5551234567").payload "phone" = .str "5551234567" ∧
    signupNoName.payload "phone" = .str "5551234567" ∧
    demoStore.users (jsTrim "5551234567") = some ann ∧
    requiredUserFields (signup "5551234567") ∧
    _users.post env0 (signup "5551234567") demoStore =
      ⟨[⟨400, .error "A user with that phone number already exists"⟩], demoStore⟩ ∧
    ¬ requiredUserFields signupNoName ∧
    _users.post env0 signupNoName demoStore =
      ⟨[⟨400, .error "Missing required fields"⟩], demoStore⟩ :=
  ⟨fun _ => rfl, rfl, rfl, by decide,
    ⟨by decide, by decide, by decide, by decide, by decide⟩,
    (users_post_existing env0 (fun _ => rfl) (signup "5551234567") demoStore "5551234567" ann rfl
      (by decide)).1 ⟨by decide, by decide, by decide, by decide, by decide⟩,
    fun h => absurd h.1 (by decide),
    (users_post_existing env0 (fun _ => rfl) signupNoName demoStore "5551234567" ann rfl
      (by decide)).2 (fun h => absurd h.1 (by decide))⟩

/-- Against claim C14 as worded: the user 5551234567 exists in `demoStore` and
the request `signupNoName` has this phone, yet `handlers._users.post` answers
400 `Missing required fields`, not that the user exists; the store is
unchanged. -/
theorem users_post_incomplete_counterexample :
    demoStore.users "5551234567" = some ann ∧
    signupNoName.payload "phone" = .str "5551234567" ∧
    jsTrim "5551234567" = "5551234567" ∧
    trimmedOfLength 10 (signupNoName.payload "phone") = "5551234567" ∧
    _users.post env0 signupNoName demoStore =
      ⟨[⟨400, .error "Missing required fields"⟩], demoStore⟩ ∧
    (⟨400, .error "A user with that phone number already exists"⟩ : Response) ∉
      (_users.post env0 signupNoName demoStore).calls := by
  refine ⟨rfl, rfl, by decide, by decide, rfl, ?_⟩
  intro h
  have h2 : (_users.post env0 signupNoName demoStore).calls =
      [⟨400, .error "Missing required fields"⟩] := rfl
  rw [h2] at h
  simp at h

/-- Claim C15: when `handlers._users.post` answers 200, the required fields are
valid, the digest of the trimmed password succeeded, no user had the phone, and
`users` gains one record under the phone, holding the trimmed firstname and
lastname, the phone, the digest, `tosAgreement = true` and no check id (the
record is stored without a `checks` array, which the handlers read as the empty
list); `tokens` and `checks` are unchanged. -/
theorem users_post_success (env : Env) (data : Request) (s : Store) (r : Response)
    (hr : r ∈ (_users.post env data s).calls) (h200 : r.status = 200) :
    ∃ h, env.hash (trimmedString (data.payload "password")) = some h ∧ h ≠ "" ∧
      requiredUserFields data ∧
      (_users.post env data s).calls = [⟨200, .none⟩] ∧
      s.users (trimmedOfLength 10 (data.payload "phone")) = none ∧
      (_users.post env data s).store.users =
        Function.update s.users (trimmedOfLength 10 (data.payload "phone"))
          (some (newUser data h)) ∧
      (newUser data h).firstname = trimmedString (data.payload "firstname") ∧
      (newUser data h).lastname = trimmedString (data.payload "lastname") ∧
      (newUser data h).phone = trimmedOfLength 10 (data.payload "phone") ∧
      (newUser data h).hashedPassword = h ∧
      (newUser data h).tosAgreement = true ∧
      userChecksOf (newUser data h) = [] ∧
      (_users.post env data s).store.tokens = s.tokens ∧
      (_users.post env data s).store.checks = s.checks := by
  revert hr
  unfold _users.post
  simp only []
  repeat' split
  all_goals first
    | (intro hr
       simp only [List.mem_singleton] at hr
       subst hr
       simp at h200
       done)
    | skip
  intro _
  obtain ⟨-, hnone, rfl⟩ := dataCreate_some ‹dataCreate _ s.users _ _ = some _›
  exact ⟨_, ‹env.hash _ = some _›, ‹_ ≠ ""›, ‹_ ∧ _ ∧ _ ∧ _ ∧ _›, rfl, hnone, rfl, rfl, rfl, rfl,
    rfl, rfl, rfl, rfl, rfl⟩

/-- Claim C15 at the creation of the user 5559876543 in `demoStore`. -/
theorem users_post_success_witness :
    (⟨200, .none⟩ : Response) ∈ (_users.post env0 (signup "5559876543") demoStore).calls ∧
    ∃ h, env0.hash (trimmedString ((signup "5559876543").payload "password")) = some h ∧
      h ≠ "" ∧ requiredUserFields (signup "5559876543") ∧
      (_users.post env0 (signup "5559876543") demoStore).calls = [⟨200, .none⟩] ∧
      demoStore.users (trimmedOfLength 10 ((signup "5559876543").payload "phone")) = none ∧
      (_users.post env0 (signup "5559876543") demoStore).store.users =
        Function.update demoStore.users
          (trimmedOfLength 10 ((signup "5559876543").payload "phone"))
          (some (newUser (signup "5559876543") h)) ∧
      (newUser (signup "5559876543") h).firstname =
        trimmedString ((signup "5559876543").payload "firstname") ∧
      (newUser (signup "5559876543") h).lastname =
        trimmedString ((signup "5559876543").payload "lastname") ∧
      (newUser (signup "5559876543") h).phone =
        trimmedOfLength 10 ((signup "5559876543").payload "phone") ∧
      (newUser (signup "5559876543") h).hashedPassword = h ∧
      (newUser (signup "5559876543") h).tosAgreement = true ∧
      userChecksOf (newUser (signup "5559876543") h) = [] ∧
      (_users.post env0 (signup "5559876543") demoStore).store.tokens = demoStore.tokens ∧
      (_users.post env0 (signup "5559876543") demoStore).store.checks = demoStore.checks :=
  ⟨List.Mem.head _,
    users_post_success env0 (signup "5559876543") demoStore ⟨200, .none⟩ (List.Mem.head _) rfl⟩

/-- Claim C16: when `handlers._users.get` answers 200, the body is the stored
user record after `delete data.hashedPassword` (a `UserView`, which has no
such field), equal to the record on firstname, lastname, phone, tosAgreement
and checks; the store, and so the stored `hashedPassword`, is unchanged. -/
theorem users_get_success (env : Env) (data : Request) (s : Store) (r : Response)
    (hr : r ∈ (_users.get env data s).calls) (h200 : r.status = 200) :
    ∃ u, s.users (queryOfLength 10 (data.queryStringObject "phone")) = some u ∧
      (_users.get env data s).calls = [r] ∧
      r.body = .user (userView u) ∧
      (userView u).firstname = u.firstname ∧ (userView u).lastname = u.lastname ∧
      (userView u).phone = u.phone ∧ (userView u).tosAgreement = u.tosAgreement ∧
      (userView u).checks = u.checks ∧
      (_users.get env data s).store = s := by
  revert hr
  unfold _users.get
  simp only []
  repeat' split
  all_goals first
    | (intro hr
       simp only [List.mem_singleton] at hr
       subst hr
       simp [invalidToken] at h200
       done)
    | skip
  intro hr
  simp only [List.mem_singleton] at hr
  subst hr
  have hu := (dataRead_some ‹dataRead _ s.users _ = some _›).2
  exact ⟨_, hu, rfl, rfl, rfl, rfl, rfl, rfl, rfl, rfl⟩

/-- Claim C16 at the reading of the user of `demoStore`. -/
theorem users_get_success_witness :
    (⟨200, .user (userView ann)⟩ : Response) ∈ (_users.get env0 getAnn demoStore).calls ∧
    ∃ u, demoStore.users (queryOfLength 10 (getAnn.queryStringObject "phone")) = some u ∧
      (_users.get env0 getAnn demoStore).calls = [⟨200, .user (userView ann)⟩] ∧
      Body.user (userView ann) = .user (userView u) ∧
      (userView u).firstname = u.firstname ∧ (userView u).lastname = u.lastname ∧
      (userView u).phone = u.phone ∧ (userView u).tosAgreement = u.tosAgreement ∧
      (userView u).checks = u.checks ∧
      (_users.get env0 getAnn demoStore).store = demoStore :=
  ⟨List.Mem.head _,
    users_get_success env0 getAnn demoStore ⟨200, .user (userView ann)⟩ (List.Mem.head _) rfl⟩

/-! ## Updates -/

theorem users_put_no_fields (env : Env) (data : Request) (s : Store)
    (hphone : trimmedOfLength 10 (data.payload "phone") ≠ "") (hno : noUserFields data) :
    _users.put env data s =
      ⟨[if _tokens.verifyToken env (env.ioFail 0) s (headerToken data)
          (trimmedOfLength 10 (data.payload "phone")) = true
        then missingFields else invalidToken], s⟩ := by
  obtain ⟨h1, h2, h3⟩ := hno
  unfold _users.put
  simp only []
  rw [if_pos hphone]
  split
  · rw [if_neg (by simp [h1, h2, h3])]
    rfl
  · rfl

theorem checks_put_no_fields (env : Env) (data : Request) (s : Store)
    (hid : trimmedOfLength 20 (data.payload "id") ≠ "") (hno : noCheckFields data) :
    _checks.put env data s = ⟨[missingFields], s⟩ := by
  obtain ⟨h1, h2, h3, h4, h5⟩ := hno
  unfold _checks.put
  simp only []
  rw [if_pos hid, if_neg (by simp [h1, h2, h3, h4, h5])]
  rfl

/-- Claim C17 (amended): with none of the optional fields populated, on every
store and whatever the storage faults, `handlers._checks.put` with a
well-formed id answers 400 `Missing fields to update` whatever token is
presented, and `handlers._users.put` with a well-formed phone answers 400
`Missing fields to update` when the token is valid for the phone and 403
otherwise; the store is unchanged in each case. -/
theorem update_without_fields (env : Env) (s : Store) :
    (∀ data : Request, trimmedOfLength 20 (data.payload "id") ≠ "" → noCheckFields data →
      _checks.put env data s = ⟨[missingFields], s⟩) ∧
    (∀ data : Request, trimmedOfLength 10 (data.payload "phone") ≠ "" → noUserFields data →
      (_tokens.verifyToken env (env.ioFail 0) s (headerToken data)
          (trimmedOfLength 10 (data.payload "phone")) = true →
        _users.put env data s = ⟨[missingFields], s⟩) ∧
      (_tokens.verifyToken env (env.ioFail 0) s (headerToken data)
          (trimmedOfLength 10 (data.payload "phone")) = false →
        _users.put env data s = ⟨[invalidToken], s⟩)) := by
  refine ⟨fun data hid hno => checks_put_no_fields env data s hid hno, ?_⟩
  intro data hphone hno
  constructor
  · intro hv
    rw [users_put_no_fields env data s hphone hno, if_pos hv]
  · intro hv
    rw [users_put_no_fields env data s hphone hno, if_neg (by simp [hv])]

/-- Claim C17 (amended) at an update of the check and of the user of
`demoStore`, both without fields and without token. -/
theorem update_without_fields_witness :
    trimmedOfLength 20 (putCheckNothing.payload "id") ≠ "" ∧ noCheckFields putCheckNothing ∧
    _checks.put env0 putCheckNothing demoStore = ⟨[missingFields], demoStore⟩ ∧
    trimmedOfLength 10 (putNothing.payload "phone") ≠ "" ∧ noUserFields putNothing ∧
    _tokens.verifyToken env0 (env0.ioFail 0) demoStore (headerToken putNothing)
      (trimmedOfLength 10 (putNothing.payload "phone")) = false ∧
    _users.put env0 putNothing demoStore = ⟨[invalidToken], demoStore⟩ :=
  ⟨by decide, ⟨by decide, by decide, by decide, by decide, by decide⟩,
    (update_without_fields env0 demoStore).1 putCheckNothing (by decide)
      ⟨by decide, by decide, by decide, by decide, by decide⟩,
    by decide, ⟨by decide, by decide, by decide⟩, by decide,
    ((update_without_fields env0 demoStore).2 putNothing (by decide)
      ⟨by decide, by decide, by decide⟩).2 (by decide)⟩

/-- Claim C17 as stated fails for `handlers._users.put`: with a well-formed
phone, none of the optional fields and no token it answers 403, the token being
verified before the fields are looked at. -/
theorem users_put_forbidden_counterexample :
    trimmedOfLength 10 (putNothing.payload "phone") = "5551234567" ∧
    trimmedString (putNothing.payload "firstname") = "" ∧
    trimmedString (putNothing.payload "lastname") = "" ∧
    trimmedString (putNothing.payload "password") = "" ∧
    (_users.put env0 putNothing demoStore).calls.map Response.status = [403] := by
  decide

/-- The effect of an authorized `handlers._checks.put` on an existing check,
on a reliable store. -/
theorem checks_put_authorized (env : Env) (hrel : env.reliable) (data : Request) (s : Store)
    (c : Check)
    (hid : trimmedOfLength 20 (data.payload "id") ≠ "")
    (hc : s.checks (trimmedOfLength 20 (data.payload "id")) = some c)
    (htok : _tokens.verifyToken env false s (headerToken data) c.userPhone = true) :
    (noCheckFields data → _checks.put env data s = ⟨[missingFields], s⟩) ∧
    (¬ noCheckFields data →
      _checks.put env data s =
        ⟨[⟨200, .none⟩],
          ⟨s.users, s.tokens,
            Function.update s.checks (trimmedOfLength 20 (data.payload "id"))
              (some (mergedCheck data c))⟩⟩) := by
  refine ⟨fun hno => checks_put_no_fields env data s hid hno, ?_⟩
  intro hsome
  have hcond : protocolOf (data.payload "protocol") ≠ "" ∨
      trimmedString (data.payload "url") ≠ "" ∨ methodOf (data.payload "method") ≠ "" ∨
      (successCodesOf (data.payload "successCodes")).length > 0 ∨
      timeoutSecondsOf (data.payload "timeoutSeconds") ≠ 0 := by
    unfold noCheckFields at hsome
    by_contra hcon
    push_neg at hcon
    exact hsome ⟨hcon.1, hcon.2.1, hcon.2.2.1, by omega, hcon.2.2.2.2⟩
  have hu : ∀ r : Check, dataUpdate false s.checks (trimmedOfLength 20 (data.payload "id")) r =
      some (Function.update s.checks (trimmedOfLength 20 (data.payload "id")) (some r)) := by
    intro r
    simp [dataUpdate, hc]
  unfold _checks.put
  simp only []
  rw [if_pos hid, if_pos hcond]
  simp only [hrel _, dataRead_reliable, hc, htok, if_true, hu, mergedCheck]

/-- Claim C18 (amended): an authorized `handlers._checks.put` on an existing
check, on a reliable store, treats a supplied field that violates the
constraints as one that is not supplied: when no field of the payload passes
validation it answers 400 `Missing fields to update` and the stored check is
unchanged; when another field passes it answers 200 and stores the check with
the valid fields replaced, each of protocol, method, successCodes and
timeoutSeconds that failed validation keeping its stored value. -/
theorem checks_put_invalid_field (env : Env) (hrel : env.reliable) (data : Request) (s : Store)
    (x : String) (c : Check)
    (hid : data.payload "id" = .str x) (hlen : jsLength (jsTrim x) = 20)
    (hc : s.checks (jsTrim x) = some c)
    (htok : _tokens.verifyToken env false s (headerToken data) c.userPhone = true)
    (hviol : violatesConstraints data) :
    (noCheckFields data → _checks.put env data s = ⟨[missingFields], s⟩) ∧
    (¬ noCheckFields data →
      _checks.put env data s =
        ⟨[⟨200, .none⟩],
          ⟨s.users, s.tokens, Function.update s.checks (jsTrim x) (some (mergedCheck data c))⟩⟩ ∧
      (protocolOf (data.payload "protocol") = "" → (mergedCheck data c).protocol = c.protocol) ∧
      (methodOf (data.payload "method") = "" → (mergedCheck data c).method = c.method) ∧
      (successCodesOf (data.payload "successCodes") = [] →
        (mergedCheck data c).successCodes = c.successCodes) ∧
      (timeoutSecondsOf (data.payload "timeoutSeconds") = 0 →
        (mergedCheck data c).timeoutSeconds = c.timeoutSeconds)) := by
  have _ := hviol
  have hi : trimmedOfLength 20 (data.payload "id") = jsTrim x := by
    simp [trimmedOfLength, hid, hlen]
  have hne : jsTrim x ≠ "" := jsLength_ne_empty _ 20 (by decide) hlen
  obtain ⟨a, b⟩ := checks_put_authorized env hrel data s c (by rw [hi]; exact hne)
    (by rw [hi]; exact hc) htok
  rw [hi] at b
  refine ⟨a, fun hsome => ⟨b hsome, ?_, ?_, ?_, ?_⟩⟩
  · intro h; simp [mergedCheck, orElse, h]
  · intro h; simp [mergedCheck, orElse, h]
  · intro h; simp [mergedCheck, h]
  · intro h; simp [mergedCheck, h]

/-- Claim C18 (amended) at an update of the check of `demoStore` with the
protocol `ftp` and a valid url. -/
theorem checks_put_invalid_field_witness :
    env0.reliable ∧ putFtp.payload "id" = .str "aaaaaaaaaaaaaaaaaaaa" ∧
    jsLength (jsTrim "aaaaaaaaaaaaaaaaaaaa") = 20 ∧
    demoStore.checks (jsTrim "aaaaaaaaaaaaaaaaaaaa") = some checkA ∧
    _tokens.verifyToken env0 false demoStore (headerToken putFtp) checkA.userPhone = true ∧
    violatesConstraints putFtp ∧ ¬ noCheckFields putFtp ∧
    _checks.put env0 putFtp demoStore =
      ⟨[⟨200, .none⟩],
        ⟨demoStore.users, demoStore.tokens,
          Function.update demoStore.checks (jsTrim "aaaaaaaaaaaaaaaaaaaa")
            (some (mergedCheck putFtp checkA))⟩⟩ ∧
    (mergedCheck putFtp checkA).protocol = checkA.protocol :=
  ⟨fun _ => rfl, rfl, by decide, rfl, by decide,
    Or.inl ⟨fun h => JSVal.noConfusion h, by decide⟩, fun h => absurd h.2.1 (by decide),
    ((checks_put_invalid_field env0 (fun _ => rfl) putFtp demoStore "aaaaaaaaaaaaaaaaaaaa"
      checkA rfl (by decide) rfl (by decide)
      (Or.inl ⟨fun h => JSVal.noConfusion h, by decide⟩)).2
        (fun h => absurd h.2.1 (by decide))).1,
    ((checks_put_invalid_field env0 (fun _ => rfl) putFtp demoStore "aaaaaaaaaaaaaaaaaaaa"
      checkA rfl (by decide) rfl (by decide)
      (Or.inl ⟨fun h => JSVal.noConfusion h, by decide⟩)).2
        (fun h => absurd h.2.1 (by decide))).2.1 (by decide)⟩

/-- Claim C18 as stated fails: an authorized update of the check `a...a` with
the protocol `ftp`, which violates the constraints, and a valid url is answered
200 and changes the stored url. -/
theorem checks_put_ftp_counterexample :
    violatesConstraints putFtp ∧
    (_checks.put env0 putFtp demoStore).calls.map Response.status = [200] ∧
    ((_checks.put env0 putFtp demoStore).store.checks "aaaaaaaaaaaaaaaaaaaa").map Check.url =
      some "example.org" ∧
    (demoStore.checks "aaaaaaaaaaaaaaaaaaaa").map Check.url = some "example.com" :=
  ⟨Or.inl ⟨fun h => JSVal.noConfusion h, by decide⟩, by decide, by decide, by decide⟩

/-! ## Reading a check, deleting an unlisted check -/

/-- Claim C19: for an id of 20 characters, on a reliable store,
`handlers._checks.get` answers 404 when no check has that id, 200 with the
stored check when `verifyToken(token, check.userPhone)` holds, and 403 without
the check when it does not, in particular for an existing, unexpired token
bound to another phone; the store is unchanged in all cases. -/
theorem checks_get_cases (env : Env) (hrel : env.reliable) (data : Request) (s : Store)
    (x : String)
    (hid : data.queryStringObject "id" = some x) (hlen : jsLength (jsTrim x) = 20) :
    (s.checks (jsTrim x) = none → _checks.get env data s = ⟨[⟨404, .none⟩], s⟩) ∧
    (∀ c, s.checks (jsTrim x) = some c →
      (_tokens.verifyToken env false s (headerToken data) c.userPhone = true →
        _checks.get env data s = ⟨[⟨200, .check c⟩], s⟩) ∧
      (_tokens.verifyToken env false s (headerToken data) c.userPhone = false →
        _checks.get env data s = ⟨[invalidToken], s⟩) ∧
      (∀ t, s.tokens (headerToken data) = some t → t.expires > env.now →
        t.phone ≠ c.userPhone → _checks.get env data s = ⟨[invalidToken], s⟩)) := by
  have hi : queryOfLength 20 (data.queryStringObject "id") = jsTrim x := by
    simp [queryOfLength, hid, hlen]
  have hne : jsTrim x ≠ "" := jsLength_ne_empty _ 20 (by decide) hlen
  refine ⟨?_, ?_⟩
  · intro hc
    unfold _checks.get
    simp only [hrel _, dataRead_reliable, hi, hne, ne_eq, not_false_eq_true, if_true, hc]
  · intro c hc
    have hyes : _tokens.verifyToken env false s (headerToken data) c.userPhone = true →
        _checks.get env data s = ⟨[⟨200, .check c⟩], s⟩ := by
      intro hv
      unfold _checks.get
      simp only [hrel _, dataRead_reliable, hi, hne, ne_eq, not_false_eq_true, if_true, hc, hv]
    have hno : _tokens.verifyToken env false s (headerToken data) c.userPhone = false →
        _checks.get env data s = ⟨[invalidToken], s⟩ := by
      intro hv
      unfold _checks.get
      simp only [hrel _, dataRead_reliable, hi, hne, ne_eq, not_false_eq_true, if_true, hc, hv,
        Bool.false_eq_true, if_false]
    refine ⟨hyes, hno, ?_⟩
    intro t ht _ hp
    apply hno
    apply verifyToken_of_rejected
    unfold tokenRejected
    rw [ht]
    exact Or.inr ⟨_, rfl, hp⟩

/-- Claim C19 at the reading of the check of `demoStore` by its owner. -/
theorem checks_get_cases_witness :
    env0.reliable ∧ getA.queryStringObject "id" = some "aaaaaaaaaaaaaaaaaaaa" ∧
    jsLength (jsTrim "aaaaaaaaaaaaaaaaaaaa") = 20 ∧
    demoStore.checks (jsTrim "aaaaaaaaaaaaaaaaaaaa") = some checkA ∧
    _tokens.verifyToken env0 false demoStore (headerToken getA) checkA.userPhone = true ∧
    _checks.get env0 getA demoStore = ⟨[⟨200, .check checkA⟩], demoStore⟩ :=
  ⟨fun _ => rfl, rfl, by decide, rfl, by decide,
    ((checks_get_cases env0 (fun _ => rfl) getA demoStore "aaaaaaaaaaaaaaaaaaaa" rfl
      (by decide)).2 checkA rfl).1 (by decide)⟩

/-- Claim C20: when the check `c` exists, its owner `u` exists, the token is
valid for `u` and the list of `u` does not contain the id, on a reliable store,
`handlers._checks.delete` answers 500 with the message of `ownerUpdateFailure`,
the check record is removed and the user record is unchanged; when the check
does not exist the answer is 400. -/
theorem checks_delete_unlisted (env : Env) (hrel : env.reliable) (data : Request) (s : Store)
    (x : String) (c : Check) (u : User)
    (hid : data.queryStringObject "id" = some x) (hlen : jsLength (jsTrim x) = 20)
    (hc : s.checks (jsTrim x) = some c) (hu : s.users c.userPhone = some u)
    (htok : _tokens.verifyToken env false s (headerToken data) c.userPhone = true)
    (hnot : jsTrim x ∉ userChecksOf u) :
    _checks.delete env data s =
      ⟨[ownerUpdateFailure], ⟨s.users, s.tokens, Function.update s.checks (jsTrim x) none⟩⟩ ∧
    (_checks.delete env data s).store.checks (jsTrim x) = none ∧
    (_checks.delete env data s).store.users c.userPhone = some u ∧
    ownerUpdateFailure.status = 500 ∧
    ∀ s0 : Store, s0.checks (jsTrim x) = none →
      _checks.delete env data s0 =
        ⟨[⟨400, .error "The specified Check does not exist"⟩], s0⟩ := by
  have hi : queryOfLength 20 (data.queryStringObject "id") = jsTrim x := by
    simp [queryOfLength, hid, hlen]
  have hne : jsTrim x ≠ "" := jsLength_ne_empty _ 20 (by decide) hlen
  have hd : dataDelete false s.checks (jsTrim x) =
      some (Function.update s.checks (jsTrim x) none) := by
    simp [dataDelete, hc]
  have hres : _checks.delete env data s =
      ⟨[ownerUpdateFailure],
        ⟨s.users, s.tokens, Function.update s.checks (jsTrim x) none⟩⟩ := by
    unfold _checks.delete
    simp only [hrel _, dataRead_reliable, hi, hne, ne_eq, not_false_eq_true, if_true, hc, htok,
      hd, hu, hnot, if_false, ownerUpdateFailure]
  refine ⟨hres, ?_, ?_, rfl, ?_⟩
  · rw [hres]
    exact Function.update_same _ _ _
  · rw [hres]
    exact hu
  · intro s0 h0
    unfold _checks.delete
    simp only [hrel _, dataRead_reliable, hi, hne, ne_eq, not_false_eq_true, if_true, h0]

/-- Claim C20 at the deletion of the check of `unlistedStore`. -/
theorem checks_delete_unlisted_witness :
    env0.reliable ∧ deleteA.queryStringObject "id" = some "aaaaaaaaaaaaaaaaaaaa" ∧
    jsLength (jsTrim "aaaaaaaaaaaaaaaaaaaa") = 20 ∧
    unlistedStore.checks (jsTrim "aaaaaaaaaaaaaaaaaaaa") = some checkA ∧
    unlistedStore.users checkA.userPhone = some { ann with checks := some [] } ∧
    _tokens.verifyToken env0 false unlistedStore (headerToken deleteA) checkA.userPhone = true ∧
    jsTrim "aaaaaaaaaaaaaaaaaaaa" ∉ userChecksOf { ann with checks := some [] } ∧
    _checks.delete env0 deleteA unlistedStore =
      ⟨[ownerUpdateFailure],
        ⟨unlistedStore.users, unlistedStore.tokens,
          Function.update unlistedStore.checks (jsTrim "aaaaaaaaaaaaaaaaaaaa") none⟩⟩ :=
  ⟨fun _ => rfl, rfl, by decide, rfl, by decide, by decide, by decide,
    (checks_delete_unlisted env0 (fun _ => rfl) deleteA unlistedStore "aaaaaaaaaaaaaaaaaaaa"
      checkA { ann with checks := some [] } rfl (by decide) rfl (by decide) (by decide)
      (by decide)).1⟩

/-! ## Malformed token ids -/

/-- Claim C21 (amended): for the empty token id and every phone,
`handlers._tokens.verifyToken` returns false whatever the `tokens` collection
contains and whether or not a read would fail: its guard answers before any
read. -/
theorem verifyToken_empty_id (env : Env) (io : Bool) (s : Store) (phone : String) :
    _tokens.verifyToken env io s "" phone = false := by
  simp [_tokens.verifyToken]

/-- Claim C21 as stated fails for a malformed id that is not empty: the id
`abc` of 3 characters is looked up, and `verifyToken` returns true when the
collection holds an unexpired token of the phone under that key. -/
theorem verifyToken_short_id_counterexample :
    jsLength "abc" ≠ 20 ∧
    _tokens.verifyToken env0 false shortKeyStore "abc" "5551234567" = true := by
  decide

/-! ## Validation of a check payload -/

theorem protocolOf_ne_empty (v : JSVal) :
    protocolOf v ≠ "" ↔ ∃ x, v = .str x ∧ (x = "http" ∨ x = "https") := by
  unfold protocolOf
  constructor
  · intro h
    split at h
    · rename_i x
      split at h
      · rename_i hx
        simp only [List.mem_cons, List.mem_singleton, List.not_mem_nil, or_false] at hx
        exact ⟨x, rfl, hx.symm⟩
      · exact absurd rfl h
    · exact absurd rfl h
  · rintro ⟨x, rfl, hx⟩
    rcases hx with rfl | rfl <;> decide

theorem trimmedString_ne_empty (v : JSVal) :
    trimmedString v ≠ "" ↔ ∃ x, v = .str x ∧ jsTrim x ≠ "" := by
  unfold trimmedString
  constructor
  · intro h
    split at h
    · rename_i x
      exact ⟨x, rfl, h⟩
    · exact absurd rfl h
  · rintro ⟨x, rfl, hx⟩
    exact hx

theorem methodOf_ne_empty (v : JSVal) :
    methodOf v ≠ "" ↔
      ∃ x, v = .str x ∧ (x = "get" ∨ x = "post" ∨ x = "put" ∨ x = "delete") := by
  unfold methodOf
  constructor
  · intro h
    split at h
    · rename_i x
      split at h
      · rename_i hx
        simp only [List.mem_cons, List.mem_singleton, List.not_mem_nil, or_false] at hx
        refine ⟨x, rfl, ?_⟩
        rcases hx with hx | hx | hx | hx
        · exact Or.inr (Or.inl hx)
        · exact Or.inl hx
        · exact Or.inr (Or.inr (Or.inl hx))
        · exact Or.inr (Or.inr (Or.inr hx))
      · exact absurd rfl h
    · exact absurd rfl h
  · rintro ⟨x, rfl, hx⟩
    rcases hx with rfl | rfl | rfl | rfl <;> decide

theorem successCodesOf_nonempty (v : JSVal) :
    (successCodesOf v).length > 0 ↔ ∃ xs, v = .arr xs ∧ xs ≠ [] := by
  unfold successCodesOf
  constructor
  · intro h
    split at h
    · rename_i xs
      split at h
      · rename_i hx
        refine ⟨xs, rfl, ?_⟩
        rintro rfl
        simp at hx
      · simp at h
    · simp at h
  · rintro ⟨xs, rfl, hx⟩
    have : xs.length > 0 := List.length_pos.mpr hx
    simp [this]

theorem timeoutSecondsOf_ne_zero (v : JSVal) :
    timeoutSecondsOf v ≠ 0 ↔ ∃ n : Int, v = .num n ∧ 1 ≤ n ∧ n ≤ 5 := by
  unfold timeoutSecondsOf
  constructor
  · intro h
    split at h
    · rename_i q
      split at h
      · rename_i hq
        obtain ⟨hi, h1, h5⟩ := hq
        have hq : q = (q.num : ℚ) := Rat.eq_num_of_isInt hi
        refine ⟨q.num, by rw [← hq], ?_, ?_⟩
        · rw [hq] at h1; exact_mod_cast h1
        · rw [hq] at h5; exact_mod_cast h5
      · exact absurd rfl h
    · exact absurd rfl h
  · rintro ⟨n, rfl, hn1, hn5⟩
    have hi : (n : ℚ).isInt = true := by simp [Rat.isInt]
    have h1 : (1 : ℚ) ≤ (n : ℚ) := by exact_mod_cast hn1
    have h5 : (n : ℚ) ≤ 5 := by exact_mod_cast hn5
    have hne : (n : ℚ) ≠ 0 := by
      have : n ≠ 0 := by omega
      exact_mod_cast this
    simp only [hi, h1, h5, and_self, if_true]
    exact hne

theorem passesValidation_iff (data : Request) :
    passesValidation data ↔ validCheckPayload data := by
  unfold passesValidation validCheckPayload
  rw [protocolOf_ne_empty, trimmedString_ne_empty, methodOf_ne_empty, successCodesOf_nonempty,
    timeoutSecondsOf_ne_zero]

/-- Claim C22: a payload passes the validation of `handlers._checks.post` if
and only if protocol is `http` or `https`, url is a string that is not empty
after trimming, method is one of `get`, `post`, `put`, `delete`, successCodes
is a non-empty array and timeoutSeconds is an integer from 1 to 5; a payload
that does not pass is answered 400 with the store it came with, whatever the
store and its faults, and a payload that passes is never answered with that
error. -/
theorem checks_post_validation (data : Request) :
    (passesValidation data ↔ validCheckPayload data) ∧
    (¬ validCheckPayload data →
      ∀ (env : Env) (s : Store), _checks.post env data s = ⟨[validationError], s⟩) ∧
    (validCheckPayload data →
      ∀ (env : Env) (s : Store), ∀ r ∈ (_checks.post env data s).calls,
        r.body ≠ validationError.body) := by
  refine ⟨passesValidation_iff data, ?_, ?_⟩
  · intro hnot env s
    have hp : ¬ passesValidation data := fun h => hnot ((passesValidation_iff data).1 h)
    unfold passesValidation at hp
    unfold _checks.post
    simp only []
    rw [if_neg hp]
    rfl
  · intro hv env s r
    have hp : passesValidation data := (passesValidation_iff data).2 hv
    unfold passesValidation at hp
    unfold _checks.post
    simp only []
    rw [if_pos hp]
    repeat' split
    all_goals
      intro hr
      simp only [List.mem_singleton] at hr
      subst hr
      first
        | (simp [validationError]; done)
        | (simp only [validationError, ne_eq, Body.error.injEq]
           exact quota_message_ne _ _)

/-- Claim C22 at a payload with the protocol `ftp` and at a valid payload. -/
theorem checks_post_validation_witness :
    ¬ validCheckPayload postFtp ∧ validCheckPayload postCheck ∧
    _checks.post env0 postFtp demoStore = ⟨[validationError], demoStore⟩ ∧
    ∀ r ∈ (_checks.post env0 postCheck demoStore).calls, r.body ≠ validationError.body :=
  ⟨fun h => absurd ((passesValidation_iff postFtp).2 h).1 (by decide), postCheck_valid,
    (checks_post_validation postFtp).2.1
      (fun h => absurd ((passesValidation_iff postFtp).2 h).1 (by decide)) env0 demoStore,
    (checks_post_validation postCheck).2.2 postCheck_valid env0 demoStore⟩

/-! ## Effect of an update -/

/-- The effect of a successful `handlers._users.put`. -/
theorem users_put_effect (env : Env) (data : Request) (s : Store) (r : Response)
    (hr : r ∈ (_users.put env data s).calls) (h200 : r.status = 200) :
    ∃ u, s.users (trimmedOfLength 10 (data.payload "phone")) = some u ∧
      (_users.put env data s).calls = [r] ∧
      (_users.put env data s).store.users =
        Function.update s.users (trimmedOfLength 10 (data.payload "phone"))
          (some (mergedUser env data u)) ∧
      (_users.put env data s).store.tokens = s.tokens ∧
      (_users.put env data s).store.checks = s.checks := by
  revert hr
  unfold _users.put
  simp only []
  repeat' split
  all_goals first
    | (intro hr
       simp only [List.mem_singleton] at hr
       subst hr
       simp [invalidToken] at h200
       done)
    | skip
  intro hr
  simp only [List.mem_singleton] at hr
  subst hr
  obtain ⟨-, -, rfl⟩ := dataUpdate_some ‹dataUpdate _ s.users _ _ = some _›
  have hu := (dataRead_some ‹dataRead _ s.users _ = some _›).2
  exact ⟨_, hu, rfl, rfl, rfl, rfl⟩

theorem envH_digest (x : String) (hx : x ≠ "") : ¬ hashFails envH x := by
  have hne : "#" ++ x ≠ "" := by
    intro h
    have h2 := congrArg String.length h
    rw [String.length_append] at h2
    have h3 : "#".length = 1 := by decide
    have h4 : "".length = 0 := by decide
    omega
  unfold hashFails
  simp [envH, hx, hne]

/-- Claim C23: when `handlers._users.put` answers 200, the digest of the empty
password failing and the digest of a supplied password succeeding, the stored
record of the phone is replaced by one in which firstname and lastname are the
trimmed supplied values where these are not empty, `hashedPassword` is the
digest of the supplied password where one is supplied, every field that is not
supplied keeps its stored value, and phone, tosAgreement and checks are
unchanged; the other users, the tokens and the checks are unchanged. -/
theorem users_put_success (env : Env) (data : Request) (s : Store) (r : Response)
    (hempty : hashFails env "")
    (hdigest : trimmedString (data.payload "password") ≠ "" →
      ¬ hashFails env (trimmedString (data.payload "password")))
    (hr : r ∈ (_users.put env data s).calls) (h200 : r.status = 200) :
    ∃ u, s.users (trimmedOfLength 10 (data.payload "phone")) = some u ∧
      (_users.put env data s).store.users =
        Function.update s.users (trimmedOfLength 10 (data.payload "phone"))
          (some (mergedUser env data u)) ∧
      (_users.put env data s).store.tokens = s.tokens ∧
      (_users.put env data s).store.checks = s.checks ∧
      (trimmedString (data.payload "firstname") ≠ "" →
        (mergedUser env data u).firstname = trimmedString (data.payload "firstname")) ∧
      (trimmedString (data.payload "firstname") = "" →
        (mergedUser env data u).firstname = u.firstname) ∧
      (trimmedString (data.payload "lastname") ≠ "" →
        (mergedUser env data u).lastname = trimmedString (data.payload "lastname")) ∧
      (trimmedString (data.payload "lastname") = "" →
        (mergedUser env data u).lastname = u.lastname) ∧
      (trimmedString (data.payload "password") ≠ "" →
        env.hash (trimmedString (data.payload "password")) =
          some (mergedUser env data u).hashedPassword) ∧
      (trimmedString (data.payload "password") = "" →
        (mergedUser env data u).hashedPassword = u.hashedPassword) ∧
      (mergedUser env data u).phone = u.phone ∧
      (mergedUser env data u).tosAgreement = u.tosAgreement ∧
      (mergedUser env data u).checks = u.checks := by
  obtain ⟨u, hu, -, e1, e2, e3⟩ := users_put_effect env data s r hr h200
  refine ⟨u, hu, e1, e2, e3, ?_, ?_, ?_, ?_, ?_, ?_, rfl, rfl, rfl⟩
  · intro h; simp [mergedUser, orElse, h]
  · intro h; simp [mergedUser, orElse, h]
  · intro h; simp [mergedUser, orElse, h]
  · intro h; simp [mergedUser, orElse, h]
  · intro h
    have hd := hdigest h
    unfold hashFails at hd
    push_neg at hd
    cases hh : env.hash (trimmedString (data.payload "password")) with
    | none => exact absurd hh hd.1
    | some d =>
      have hdne : d ≠ "" := fun h0 => hd.2 (by rw [hh, h0])
      simp [mergedUser, hashOrElse, hh, orElse, hdne]
  · intro h
    show hashOrElse env (trimmedString (data.payload "password")) u.hashedPassword =
      u.hashedPassword
    rw [h]
    unfold hashOrElse
    rcases hempty with he | he
    · rw [he]
    · rw [he]
      rfl

/-- Claim C23 at an update of the firstname and the password of the user of
`demoStore`. -/
theorem users_put_success_witness :
    hashFails envH "" ∧
    (trimmedString (putAnn.payload "password") ≠ "" →
      ¬ hashFails envH (trimmedString (putAnn.payload "password"))) ∧
    (⟨200, .none⟩ : Response) ∈ (_users.put envH putAnn demoStore).calls ∧
    ∃ u, demoStore.users (trimmedOfLength 10 (putAnn.payload "phone")) = some u ∧
      (_users.put envH putAnn demoStore).store.users =
        Function.update demoStore.users (trimmedOfLength 10 (putAnn.payload "phone"))
          (some (mergedUser envH putAnn u)) ∧
      (_users.put envH putAnn demoStore).store.tokens = demoStore.tokens ∧
      (_users.put envH putAnn demoStore).store.checks = demoStore.checks ∧
      (trimmedString (putAnn.payload "firstname") ≠ "" →
        (mergedUser envH putAnn u).firstname = trimmedString (putAnn.payload "firstname")) ∧
      (trimmedString (putAnn.payload "firstname") = "" →
        (mergedUser envH putAnn u).firstname = u.firstname) ∧
      (trimmedString (putAnn.payload "lastname") ≠ "" →
        (mergedUser envH putAnn u).lastname = trimmedString (putAnn.payload "lastname")) ∧
      (trimmedString (putAnn.payload "lastname") = "" →
        (mergedUser envH putAnn u).lastname = u.lastname) ∧
      (trimmedString (putAnn.payload "password") ≠ "" →
        envH.hash (trimmedString (putAnn.payload "password")) =
          some (mergedUser envH putAnn u).hashedPassword) ∧
      (trimmedString (putAnn.payload "password") = "" →
        (mergedUser envH putAnn u).hashedPassword = u.hashedPassword) ∧
      (mergedUser envH putAnn u).phone = u.phone ∧
      (mergedUser envH putAnn u).tosAgreement = u.tosAgreement ∧
      (mergedUser envH putAnn u).checks = u.checks :=
  ⟨Or.inl rfl, envH_digest _, List.Mem.head _,
    users_put_success envH putAnn demoStore ⟨200, .none⟩ (Or.inl rfl) (envH_digest _)
      (List.Mem.head _) rfl⟩

/-- The effect of a successful `handlers._checks.put`. -/
theorem checks_put_effect (env : Env) (data : Request) (s : Store) (r : Response)
    (hr : r ∈ (_checks.put env data s).calls) (h200 : r.status = 200) :
    ∃ c, s.checks (trimmedOfLength 20 (data.payload "id")) = some c ∧
      (_checks.put env data s).calls = [r] ∧
      (_checks.put env data s).store.checks =
        Function.update s.checks (trimmedOfLength 20 (data.payload "id"))
          (some (mergedCheck data c)) ∧
      (_checks.put env data s).store.users = s.users ∧
      (_checks.put env data s).store.tokens = s.tokens := by
  revert hr
  unfold _checks.put
  simp only []
  repeat' split
  all_goals first
    | (intro hr
       simp only [List.mem_singleton] at hr
       subst hr
       simp [invalidToken] at h200
       done)
    | skip
  intro hr
  simp only [List.mem_singleton] at hr
  subst hr
  obtain ⟨-, -, rfl⟩ := dataUpdate_some ‹dataUpdate _ s.checks _ _ = some _›
  have hc := (dataRead_some ‹dataRead _ s.checks _ = some _›).2
  exact ⟨_, hc, rfl, rfl, rfl, rfl⟩

theorem mergedCheck_protocol (data : Request) (c : Check) :
    (∀ x, protocolSupplied data x → (mergedCheck data c).protocol = x) ∧
    ((¬ ∃ x, protocolSupplied data x) → (mergedCheck data c).protocol = c.protocol) := by
  constructor
  · rintro x ⟨hx, hv⟩
    have : protocolOf (data.payload "protocol") = x := by
      rw [hx]; rcases hv with rfl | rfl <;> decide
    have hne : x ≠ "" := by rcases hv with rfl | rfl <;> decide
    simp [mergedCheck, this, orElse, hne]
  · intro hno
    have : protocolOf (data.payload "protocol") = "" := by
      by_contra h
      obtain ⟨x, hx, hv⟩ := (protocolOf_ne_empty _).1 h
      exact hno ⟨x, hx, hv⟩
    simp [mergedCheck, this, orElse]

theorem mergedCheck_url (data : Request) (c : Check) :
    (∀ x, urlSupplied data x → (mergedCheck data c).url = x) ∧
    ((¬ ∃ x, urlSupplied data x) → (mergedCheck data c).url = c.url) := by
  constructor
  · rintro x ⟨y, hy, rfl, hne⟩
    have : trimmedString (data.payload "url") = jsTrim y := by rw [hy]; rfl
    simp [mergedCheck, this, orElse, hne]
  · intro hno
    have : trimmedString (data.payload "url") = "" := by
      by_contra h
      obtain ⟨y, hy, hv⟩ := (trimmedString_ne_empty _).1 h
      exact hno ⟨_, y, hy, rfl, hv⟩
    simp [mergedCheck, this, orElse]

theorem mergedCheck_method (data : Request) (c : Check) :
    (∀ x, methodSupplied data x → (mergedCheck data c).method = x) ∧
    ((¬ ∃ x, methodSupplied data x) → (mergedCheck data c).method = c.method) := by
  constructor
  · rintro x ⟨hx, hv⟩
    have : methodOf (data.payload "method") = x := by
      rw [hx]; rcases hv with rfl | rfl | rfl | rfl <;> decide
    have hne : x ≠ "" := by rcases hv with rfl | rfl | rfl | rfl <;> decide
    simp [mergedCheck, this, orElse, hne]
  · intro hno
    have : methodOf (data.payload "method") = "" := by
      by_contra h
      obtain ⟨x, hx, hv⟩ := (methodOf_ne_empty _).1 h
      exact hno ⟨x, hx, hv⟩
    simp [mergedCheck, this, orElse]

theorem mergedCheck_successCodes (data : Request) (c : Check) :
    (∀ xs, successCodesSupplied data xs → (mergedCheck data c).successCodes = xs) ∧
    ((¬ ∃ xs, successCodesSupplied data xs) →
      (mergedCheck data c).successCodes = c.successCodes) := by
  constructor
  · rintro xs ⟨hx, hv⟩
    have hpos : xs.length > 0 := List.length_pos.mpr hv
    have : successCodesOf (data.payload "successCodes") = xs := by
      rw [hx]; simp [successCodesOf, hpos]
    simp [mergedCheck, this, hpos]
  · intro hno
    have : ¬ (successCodesOf (data.payload "successCodes")).length > 0 := by
      intro h
      obtain ⟨xs, hx, hv⟩ := (successCodesOf_nonempty _).1 h
      exact hno ⟨xs, hx, hv⟩
    simp only [mergedCheck, this, if_false]

theorem mergedCheck_timeoutSeconds (data : Request) (c : Check) :
    (∀ n : Int, timeoutSupplied data n → (mergedCheck data c).timeoutSeconds = n) ∧
    ((¬ ∃ n : Int, timeoutSupplied data n) →
      (mergedCheck data c).timeoutSeconds = c.timeoutSeconds) := by
  constructor
  · rintro n ⟨hx, h1, h5⟩
    have hne : timeoutSecondsOf (data.payload "timeoutSeconds") ≠ 0 :=
      (timeoutSecondsOf_ne_zero _).2 ⟨n, hx, h1, h5⟩
    have hval : timeoutSecondsOf (data.payload "timeoutSeconds") = n := by
      rw [hx] at hne ⊢
      unfold timeoutSecondsOf at hne ⊢
      simp only [] at hne ⊢
      split
      · rfl
      · rename_i hc
        rw [if_neg hc] at hne
        exact absurd rfl hne
    show (if timeoutSecondsOf (data.payload "timeoutSeconds") ≠ 0
      then timeoutSecondsOf (data.payload "timeoutSeconds") else c.timeoutSeconds) = n
    rw [if_pos hne, hval]
  · intro hno
    have : timeoutSecondsOf (data.payload "timeoutSeconds") = 0 := by
      by_contra h
      obtain ⟨n, hx, hv⟩ := (timeoutSecondsOf_ne_zero _).1 h
      exact hno ⟨n, hx, hv⟩
    simp [mergedCheck, this]

/-- Claim C24: when `handlers._checks.put` answers 200, the stored check of the
id is replaced by one in which each of protocol, url (trimmed), method,
successCodes and timeoutSeconds that the payload supplies with a valid value
has that value, every other one of these fields keeps its stored value, and id
and userPhone are unchanged; the users, the tokens and the other checks are
unchanged. -/
theorem checks_put_success (env : Env) (data : Request) (s : Store) (r : Response)
    (hr : r ∈ (_checks.put env data s).calls) (h200 : r.status = 200) :
    ∃ c, s.checks (trimmedOfLength 20 (data.payload "id")) = some c ∧
      (_checks.put env data s).store.checks =
        Function.update s.checks (trimmedOfLength 20 (data.payload "id"))
          (some (mergedCheck data c)) ∧
      (_checks.put env data s).store.users = s.users ∧
      (_checks.put env data s).store.tokens = s.tokens ∧
      (mergedCheck data c).id = c.id ∧ (mergedCheck data c).userPhone = c.userPhone ∧
      ((∀ x, protocolSupplied data x → (mergedCheck data c).protocol = x) ∧
        ((¬ ∃ x, protocolSupplied data x) → (mergedCheck data c).protocol = c.protocol)) ∧
      ((∀ x, urlSupplied data x → (mergedCheck data c).url = x) ∧
        ((¬ ∃ x, urlSupplied data x) → (mergedCheck data c).url = c.url)) ∧
      ((∀ x, methodSupplied data x → (mergedCheck data c).method = x) ∧
        ((¬ ∃ x, methodSupplied data x) → (mergedCheck data c).method = c.method)) ∧
      ((∀ xs, successCodesSupplied data xs → (mergedCheck data c).successCodes = xs) ∧
        ((¬ ∃ xs, successCodesSupplied data xs) →
          (mergedCheck data c).successCodes = c.successCodes)) ∧
      ((∀ n : Int, timeoutSupplied data n → (mergedCheck data c).timeoutSeconds = n) ∧
        ((¬ ∃ n : Int, timeoutSupplied data n) →
          (mergedCheck data c).timeoutSeconds = c.timeoutSeconds)) := by
  obtain ⟨c, hc, -, e1, e2, e3⟩ := checks_put_effect env data s r hr h200
  exact ⟨c, hc, e1, e2, e3, rfl, rfl, mergedCheck_protocol data c, mergedCheck_url data c,
    mergedCheck_method data c, mergedCheck_successCodes data c,
    mergedCheck_timeoutSeconds data c⟩

/-- Claim C24 at an update of the url and the timeout of the check of
`demoStore`. -/
theorem checks_put_success_witness :
    (⟨200, .none⟩ : Response) ∈ (_checks.put env0 putUrl demoStore).calls ∧
    ∃ c, demoStore.checks (trimmedOfLength 20 (putUrl.payload "id")) = some c ∧
      (_checks.put env0 putUrl demoStore).store.checks =
        Function.update demoStore.checks (trimmedOfLength 20 (putUrl.payload "id"))
          (some (mergedCheck putUrl c)) ∧
      (_checks.put env0 putUrl demoStore).store.users = demoStore.users ∧
      (_checks.put env0 putUrl demoStore).store.tokens = demoStore.tokens ∧
      (mergedCheck putUrl c).id = c.id ∧ (mergedCheck putUrl c).userPhone = c.userPhone ∧
      ((∀ x, protocolSupplied putUrl x → (mergedCheck putUrl c).protocol = x) ∧
        ((¬ ∃ x, protocolSupplied putUrl x) → (mergedCheck putUrl c).protocol = c.protocol)) ∧
      ((∀ x, urlSupplied putUrl x → (mergedCheck putUrl c).url = x) ∧
        ((¬ ∃ x, urlSupplied putUrl x) → (mergedCheck putUrl c).url = c.url)) ∧
      ((∀ x, methodSupplied putUrl x → (mergedCheck putUrl c).method = x) ∧
        ((¬ ∃ x, methodSupplied putUrl x) → (mergedCheck putUrl c).method = c.method)) ∧
      ((∀ xs, successCodesSupplied putUrl xs → (mergedCheck putUrl c).successCodes = xs) ∧
        ((¬ ∃ xs, successCodesSupplied putUrl xs) →
          (mergedCheck putUrl c).successCodes = c.successCodes)) ∧
      ((∀ n : Int, timeoutSupplied putUrl n → (mergedCheck putUrl c).timeoutSeconds = n) ∧
        ((¬ ∃ n : Int, timeoutSupplied putUrl n) →
          (mergedCheck putUrl c).timeoutSeconds = c.timeoutSeconds)) :=
  ⟨List.Mem.head _,
    checks_put_success env0 putUrl demoStore ⟨200, .none⟩ (List.Mem.head _) rfl⟩

/-! ## Order of the writes of `handlers._checks.post` -/

theorem noDangling_add_check {s : Store} {checks : Coll Check} {id : String} {c : Check}
    (hc : checks = Function.update s.checks id (some c)) (k : String)
    (h : ∃ c0, s.checks k = some c0) : ∃ c0, checks k = some c0 := by
  subst hc
  by_cases hk : k = id
  · subst hk
    exact ⟨c, Function.update_same _ _ _⟩
  · rw [Function.update_noteq hk]
    exact h

theorem checks_post_noDangling (env : Env) (data : Request) (s : Store) (h : noDangling s) :
    noDangling (_checks.post env data s).store := by
  unfold _checks.post
  simp only []
  repeat' split
  all_goals first
    | exact h
    | skip
  · obtain ⟨-, -, hc⟩ := dataCreate_some ‹dataCreate _ s.checks _ _ = some _›
    intro p u hu k hk
    exact noDangling_add_check hc k (h p u hu k hk)
  · obtain ⟨-, -, hc⟩ := dataCreate_some ‹dataCreate _ s.checks _ _ = some _›
    obtain ⟨-, -, rfl⟩ := dataUpdate_some ‹dataUpdate _ s.users _ _ = some _›
    have hr := (dataRead_some ‹dataRead _ s.users _ = some _›).2
    intro p u hu k hk
    change Function.update s.users _ _ p = some u at hu
    by_cases hp : p = (‹Token›).phone
    · subst hp
      rw [Function.update_same] at hu
      cases hu
      change k ∈ userChecksOf _ ++ [_] at hk
      rw [List.mem_append, List.mem_singleton] at hk
      rcases hk with hk | hk
      · exact noDangling_add_check hc k (h _ _ hr k hk)
      · subst hk
        exact ⟨_, by rw [hc]; exact Function.update_same _ _ _⟩
    · rw [Function.update_noteq hp] at hu
      exact noDangling_add_check hc k (h p u hu k hk)

theorem demoStore_noDangling : noDangling demoStore := by
  intro p u hu k hk
  obtain ⟨c, hc, -⟩ := (demoStore_integrity.2.1 p u hu k).1 hk
  exact ⟨c, hc⟩

/-- Claim C25: from a store without dangling reference, every execution of
`handlers._checks.post`, whatever the storage faults, leaves a store without
dangling reference; when the check is created and the update of the user
fails, the response is 500, the new check is in `checks` and its id is in the
list of no user. -/
theorem checks_post_ordering (env : Env) (data : Request) (s : Store) (h : noDangling s) :
    noDangling (_checks.post env data s).store ∧
    ∀ (t : Token) (u : User) (checks : Coll Check),
      passesValidation data →
      dataRead (env.ioFail 0) s.tokens (headerToken data) = some t → t.expires > env.now →
      dataRead (env.ioFail 1) s.users t.phone = some u →
      (userChecksOf u).length < env.maxChecks →
      dataCreate (env.ioFail 2) s.checks (env.createRandomString 20)
        (newCheck env data t.phone) = some checks →
      dataUpdate (env.ioFail 3) s.users t.phone
        { u with checks := some (userChecksOf u ++ [env.createRandomString 20]) } = none →
      _checks.post env data s = ⟨[userUpdateFailure], ⟨s.users, s.tokens, checks⟩⟩ ∧
      userUpdateFailure.status = 500 ∧
      s.checks (env.createRandomString 20) = none ∧
      checks (env.createRandomString 20) = some (newCheck env data t.phone) ∧
      ∀ p v, (_checks.post env data s).store.users p = some v →
        env.createRandomString 20 ∉ userChecksOf v := by
  refine ⟨checks_post_noDangling env data s h, ?_⟩
  intro t u checks hv ht hexp hu hq hc hup
  have hres : _checks.post env data s = ⟨[userUpdateFailure], ⟨s.users, s.tokens, checks⟩⟩ := by
    unfold passesValidation at hv
    unfold newCheck at hc
    unfold _checks.post
    simp only []
    rw [if_pos hv]
    simp only [ht, hexp, if_true, hu, hq, hc, hup, userUpdateFailure]
  obtain ⟨-, hnew, hck⟩ := dataCreate_some hc
  refine ⟨hres, rfl, hnew, ?_, ?_⟩
  · rw [hck]
    exact Function.update_same _ _ _
  · intro p v hpv hin
    rw [hres] at hpv
    obtain ⟨c0, hc0⟩ := h p v hpv _ hin
    rw [hnew] at hc0
    cases hc0

/-- Claim C25 at a creation in `demoStore` whose update of the user fails. -/
theorem checks_post_ordering_witness :
    noDangling demoStore ∧ noDangling (_checks.post envFail3 postCheck demoStore).store ∧
    passesValidation postCheck ∧
    dataRead (envFail3.ioFail 0) demoStore.tokens (headerToken postCheck) = some tokenT ∧
    tokenT.expires > envFail3.now ∧
    dataRead (envFail3.ioFail 1) demoStore.users tokenT.phone = some ann ∧
    (userChecksOf ann).length < envFail3.maxChecks ∧
    dataCreate (envFail3.ioFail 2) demoStore.checks (envFail3.createRandomString 20)
      (newCheck envFail3 postCheck tokenT.phone) =
        some (Function.update demoStore.checks (envFail3.createRandomString 20)
          (some (newCheck envFail3 postCheck tokenT.phone))) ∧
    dataUpdate (envFail3.ioFail 3) demoStore.users tokenT.phone
      { ann with checks := some (userChecksOf ann ++ [envFail3.createRandomString 20]) } =
        none ∧
    _checks.post envFail3 postCheck demoStore =
      ⟨[userUpdateFailure],
        ⟨demoStore.users, demoStore.tokens,
          Function.update demoStore.checks (envFail3.createRandomString 20)
            (some (newCheck envFail3 postCheck tokenT.phone))⟩⟩ :=
  ⟨demoStore_noDangling, (checks_post_ordering envFail3 postCheck demoStore demoStore_noDangling).1,
    (passesValidation_iff postCheck).2 postCheck_valid, rfl, by decide, rfl, by decide, rfl, rfl,
    ((checks_post_ordering envFail3 postCheck demoStore demoStore_noDangling).2 tokenT ann _
      ((passesValidation_iff postCheck).2 postCheck_valid) rfl (by decide) rfl (by decide)
      rfl rfl).1⟩

/-! ## Tokens of a deleted user -/

theorem verifyToken_congr (env : Env) (io : Bool) (s1 s2 : Store) (id phone : String)
    (h : s1.tokens = s2.tokens) :
    _tokens.verifyToken env io s1 id phone = _tokens.verifyToken env io s2 id phone := by
  unfold _tokens.verifyToken
  rw [h]

/-- The effect of a successful `handlers._users.post`. -/
theorem users_post_effect (env : Env) (data : Request) (s : Store) (r : Response)
    (hr : r ∈ (_users.post env data s).calls) (h200 : r.status = 200) :
    ∃ h, env.hash (trimmedString (data.payload "password")) = some h ∧
      trimmedOfLength 10 (data.payload "phone") ≠ "" ∧
      (_users.post env data s).store.users =
        Function.update s.users (trimmedOfLength 10 (data.payload "phone"))
          (some (newUser data h)) ∧
      (_users.post env data s).store.tokens = s.tokens := by
  revert hr
  unfold _users.post
  simp only []
  repeat' split
  all_goals first
    | (intro hr
       simp only [List.mem_singleton] at hr
       subst hr
       simp at h200
       done)
    | skip
  intro _
  obtain ⟨-, -, rfl⟩ := dataCreate_some ‹dataCreate _ s.users _ _ = some _›
  exact ⟨_, ‹env.hash _ = some _›, (‹_ ∧ _ ∧ _ ∧ _ ∧ _›).2.2.1, rfl, rfl⟩

/-- Claim C26: `handlers._users.delete` leaves `tokens` unchanged, so that
`verifyToken` gives on the store it leaves what it gave before; and after a
later successful `handlers._users.post`, a token that was valid for the phone
of the new user is still valid for it and `handlers._users.get` with that
token answers 200 with the new user. -/
theorem users_delete_keeps_tokens (env : Env) (data : Request) (s : Store) :
    (_users.delete env data s).store.tokens = s.tokens ∧
    (∀ (later : Env) (io : Bool) (id phone : String),
      _tokens.verifyToken later io (_users.delete env data s).store id phone =
        _tokens.verifyToken later io s id phone) ∧
    (∀ (env2 : Env) (data2 : Request) (r : Response),
      r ∈ (_users.post env2 data2 (_users.delete env data s).store).calls → r.status = 200 →
      (_users.post env2 data2 (_users.delete env data s).store).store.tokens = s.tokens ∧
      ∀ (later : Env) (id : String), later.reliable →
        _tokens.verifyToken later false s id (trimmedOfLength 10 (data2.payload "phone")) = true →
        _tokens.verifyToken later false
          (_users.post env2 data2 (_users.delete env data s).store).store id
          (trimmedOfLength 10 (data2.payload "phone")) = true ∧
        ∀ data3 : Request,
          queryOfLength 10 (data3.queryStringObject "phone") =
            trimmedOfLength 10 (data2.payload "phone") →
          headerToken data3 = id →
          ∃ h, env2.hash (trimmedString (data2.payload "password")) = some h ∧
            _users.get later data3
                (_users.post env2 data2 (_users.delete env data s).store).store =
              ⟨[⟨200, .user (userView (newUser data2 h))⟩],
                (_users.post env2 data2 (_users.delete env data s).store).store⟩) := by
  have ht := users_delete_tokens env data s
  refine ⟨ht, fun later io id phone => verifyToken_congr later io _ _ id phone ht, ?_⟩
  intro env2 data2 r hr h200
  obtain ⟨h, hh, hne, eu, et⟩ := users_post_effect env2 data2 _ r hr h200
  have ht2 : (_users.post env2 data2 (_users.delete env data s).store).store.tokens =
      s.tokens := by rw [et, ht]
  refine ⟨ht2, ?_⟩
  intro later id hrel hv
  have hv2 : _tokens.verifyToken later false
      (_users.post env2 data2 (_users.delete env data s).store).store id
      (trimmedOfLength 10 (data2.payload "phone")) = true := by
    rw [verifyToken_congr later false _ s id _ ht2]
    exact hv
  refine ⟨hv2, ?_⟩
  intro data3 hq hid
  refine ⟨h, hh, ?_⟩
  have hread : (_users.post env2 data2 (_users.delete env data s).store).store.users
      (trimmedOfLength 10 (data2.payload "phone")) = some (newUser data2 h) := by
    rw [eu, Function.update_same]
  unfold _users.get
  simp only [hrel _, dataRead_reliable, hq, hid, hne, ne_eq, not_false_eq_true, if_true, hv2,
    hread]
  rfl

/-- Claim C26 at the deletion of the user of `demoStore`, the creation of a
new user with the same phone, and a read with the old token. -/
theorem users_delete_keeps_tokens_witness :
    (⟨200, .none⟩ : Response) ∈
      (_users.post env0 (signup "5551234567")
        (_users.delete env0 deleteAnn demoStore).store).calls ∧
    env0.reliable ∧
    _tokens.verifyToken env0 false demoStore "tttttttttttttttttttt"
      (trimmedOfLength 10 ((signup "5551234567").payload "phone")) = true ∧
    queryOfLength 10 (getAnn.queryStringObject "phone") =
      trimmedOfLength 10 ((signup "5551234567").payload "phone") ∧
    headerToken getAnn = "tttttttttttttttttttt" ∧
    (_users.delete env0 deleteAnn demoStore).calls.map Response.status = [200] ∧
    ∃ h, env0.hash (trimmedString ((signup "5551234567").payload "password")) = some h ∧
      _users.get env0 getAnn
          (_users.post env0 (signup "5551234567")
            (_users.delete env0 deleteAnn demoStore).store).store =
        ⟨[⟨200, .user (userView (newUser (signup "5551234567") h))⟩],
          (_users.post env0 (signup "5551234567")
            (_users.delete env0 deleteAnn demoStore).store).store⟩ :=
  ⟨List.Mem.head _, fun _ => rfl, by decide, by decide, by decide, by decide,
    ((((users_delete_keeps_tokens env0 deleteAnn demoStore).2.2 env0 (signup "5551234567")
      ⟨200, .none⟩ (List.Mem.head _) rfl).2 env0 "tttttttttttttttttttt" (fun _ => rfl)
        (by decide)).2 getAnn (by decide) (by decide))⟩

end SiteMonitor
